import Mathlib

/-!
Custom iterator template.

A shallow embedding of `tmc::foundation::custom_iterator_template`
(`include/tmc/foundation/custom-iterator-template.hpp`), of the iterator states of the
test containers (`test/custom-iterator-template-test.cpp`) and of the sample container
(`sample/sample-main.cpp`).

Conventions of the embedding.

* A container pointer is `Option Nat`: `none` is `nullptr`, `some a` is the address of a
  container object.  The memory maps addresses to container objects.
* `std::ptrdiff_t` values are integers; where the adaptor or a state computes in that type
  the result is reduced by `wrap_ptrdiff` (two's complement, 64 bit).
* A `std::vector` iterator is a pair of the storage it points into and an element index.
  The storage of a vector with elements is identified by the address of the container
  object owning the vector; a vector without elements has no storage, and its `begin()` and
  `end()` are the value-initialised iterator, which points into no storage.  The index
  arithmetic is that of the code for positions within `[begin, end]` of a vector; outside,
  the pointer arithmetic of the code is undefined.
* A member function that is not `const` returns the state it leaves behind together with
  its result.  An operation with undefined behaviour returns `none`.
* An element reference (`value_type &`) is a location; `load` reads it, `store` writes it.
* The end of the lifetime of a local or temporary iterator is not part of the model of an
  operation; the destructor of a state is the operation `destroy`, applied where a
  destruction is the subject.  It ends the lifetime of the object: what it returns is the
  memory it leaves, and there is no object afterwards.
* `std::reverse_iterator` is the class of the standard library, by its definition in the
  standard: it holds an iterator `current`, dereferences a decremented copy of it, and moves
  forward by decrementing it.
* What is declared (the overloads of an operator, the constructors, the optional members of
  a state, the category tag) is embedded as data: the list of the parameter variants of the
  overloads, the list of the sources of the constructors, the table of the members a state
  defines.  An expression compiles when the data give it a viable declaration.
* Iterator objects that a claim distinguishes by identity live in a store of objects by
  address; an operation on an object rewrites that object.
-/

namespace tmc

/-! ## Machine integers -/

/-- Largest value of `std::ptrdiff_t` (64 bit). -/
def PTRDIFF_MAX : Int := 9223372036854775807

/-- Smallest value of `std::ptrdiff_t` (64 bit). -/
def PTRDIFF_MIN : Int := -9223372036854775808

/-- Reduction of an integer to `std::ptrdiff_t` (two's complement wrap-around). -/
def wrap_ptrdiff (x : Int) : Int :=
  (x + 9223372036854775808) % 18446744073709551616 - 9223372036854775808

/-- Reduction of a natural number to `unsigned int` (32 bit). -/
def wrap_uint (x : Nat) : Nat := x % 4294967296

/-- A pointer to a container object; `none` is `nullptr`. -/
abbrev ContainerPtr := Option Nat

/-- The standard iterator category tags.  `forward_iterator_tag` derives from
`input_iterator_tag`, `bidirectional_iterator_tag` from `forward_iterator_tag`,
`random_access_iterator_tag` from `bidirectional_iterator_tag`; `output_iterator_tag` has no
base. -/
inductive Category where
  | input_iterator_tag
  | output_iterator_tag
  | forward_iterator_tag
  | bidirectional_iterator_tag
  | random_access_iterator_tag
  deriving DecidableEq, Repr

/-! ## The contract of an iterator state -/

/-- Operations every iterator state defines (input iterators and above).  `S false` is the
changeable specialisation, `S true` the const one. -/
class IteratorState (S : Bool → Type) (Mem : outParam Type) (Ref : outParam Type)
    (Val : outParam Type) where
  /-- The `iterator_category` typedef. -/
  iterator_category : Category
  /-- Default construction without container connection: `iterator_state()`. -/
  default_state : (c : Bool) → S c
  /-- Construction with connected container: `iterator_state(container_type *)`. -/
  connect : (c : Bool) → ContainerPtr → Mem → Option (S c × Mem)
  /-- Copy construction from the changeable and const variants. -/
  copy : {c d : Bool} → S c → S d
  /-- The destructor `~iterator_state()`: the memory it leaves; the lifetime of the state
  ends with it. -/
  destroy : {c : Bool} → S c → Mem → Option Mem
  /-- The member `void begin()`. -/
  begin : {c : Bool} → S c → Mem → Option (S c)
  /-- The member `void end()`. -/
  end_ : {c : Bool} → S c → Mem → Option (S c)
  /-- The member `bool is_connected() const`. -/
  is_connected : {c : Bool} → S c → Bool
  /-- The members `bool is_equal(const iterator_state<true/false> &) const`. -/
  is_equal : {c d : Bool} → S c → S d → Bool
  /-- The member `void next()`. -/
  next : {c : Bool} → S c → S c
  /-- The members `value_type & get()` / `get() const`. -/
  get : {c : Bool} → S c → Mem → Option (Ref × S c)
  /-- Reading an element through a reference. -/
  load : Mem → Ref → Option Val
  /-- Writing an element through a reference to a changeable element. -/
  store : Mem → Ref → Val → Option Mem

/-- Operations of a state that can move back (bidirectional and random access). -/
class BidirectionalState (S : Bool → Type) (Mem : outParam Type) (Ref : outParam Type)
    (Val : outParam Type) extends IteratorState S Mem Ref Val where
  /-- The member `void prev()`. -/
  prev : {c : Bool} → S c → S c

/-- Operations of a random access state. -/
class RandomAccessState (S : Bool → Type) (Mem : outParam Type) (Ref : outParam Type)
    (Val : outParam Type) extends BidirectionalState S Mem Ref Val where
  /-- The member `void move(std::ptrdiff_t offset)`. -/
  move : {c : Bool} → S c → Int → S c
  /-- The members `std::ptrdiff_t distance(const iterator_state<true/false> &) const`. -/
  distance : {c d : Bool} → S c → S d → Int
  /-- The members `value_type & at(std::ptrdiff_t offset)` / `at(offset) const`. -/
  at_ : {c : Bool} → S c → Int → Mem → Option (Ref × S c)

/-! ## The adaptor -/

/-- The adaptor `custom_iterator_template<TIteratorState, is_const>`: it wraps one state
object of its variant. -/
structure custom_iterator_template (S : Bool → Type) (is_const : Bool) where
  iteratorState_ : S is_const

namespace custom_iterator_template

variable {S : Bool → Type} {Mem Ref Val : Type}

/-- The `static_assert` on the category: `std::is_base_of<std::input_iterator_tag, tag>`. -/
def category_accepted (tag : Category) : Bool :=
  match tag with
  | .input_iterator_tag => true
  | .output_iterator_tag => false
  | .forward_iterator_tag => true
  | .bidirectional_iterator_tag => true
  | .random_access_iterator_tag => true

/-- The private constructor `custom_iterator_template(container_type *ref)`. -/
def connected [IteratorState S Mem Ref Val] (c : Bool) (ref : ContainerPtr) (m : Mem) :
    Option (custom_iterator_template S c × Mem) :=
  match IteratorState.connect (S := S) c ref m with
  | none => none
  | some (s, m1) => some (⟨s⟩, m1)

/-- The static factory `begin(container_type *ref)`; the local iterator is the returned
object (the copy of `return it;` is elided, as the counter values the tests expect
presuppose).  The factory without the elision is `begin_returning_copy`. -/
def begin [IteratorState S Mem Ref Val] (c : Bool) (ref : ContainerPtr) (m : Mem) :
    Option (custom_iterator_template S c × Mem) :=
  match connected (S := S) c ref m with
  | none => none
  | some (it, m1) =>
    match IteratorState.begin it.iteratorState_ m1 with
    | none => none
    | some s => some (⟨s⟩, m1)

/-- The static factory `end(container_type *ref)`. -/
def end_ [IteratorState S Mem Ref Val] (c : Bool) (ref : ContainerPtr) (m : Mem) :
    Option (custom_iterator_template S c × Mem) :=
  match connected (S := S) c ref m with
  | none => none
  | some (it, m1) =>
    match IteratorState.end_ it.iteratorState_ m1 with
    | none => none
    | some s => some (⟨s⟩, m1)

/-- The defaulted default constructor. -/
def default_constructed [IteratorState S Mem Ref Val] (c : Bool) :
    custom_iterator_template S c :=
  ⟨IteratorState.default_state c⟩

/-- The copy constructor `custom_iterator_template(const custom_iterator_template &)`. -/
def copy_constructed [IteratorState S Mem Ref Val] {c : Bool}
    (source : custom_iterator_template S c) : custom_iterator_template S c :=
  ⟨IteratorState.copy source.iteratorState_⟩

/-- The implicit cast changeable -> const (the constructor enabled for `is_const` only). -/
def cast_to_const [IteratorState S Mem Ref Val] (source : custom_iterator_template S false) :
    custom_iterator_template S true :=
  ⟨IteratorState.copy source.iteratorState_⟩

/-- The member `is_connected()`. -/
def is_connected [IteratorState S Mem Ref Val] {c : Bool}
    (self : custom_iterator_template S c) : Bool :=
  IteratorState.is_connected self.iteratorState_

/-- The dereference `operator*()`: the reference and the iterator afterwards. -/
def deref [IteratorState S Mem Ref Val] {c : Bool} (self : custom_iterator_template S c)
    (m : Mem) : Option (Ref × custom_iterator_template S c) :=
  match IteratorState.get self.iteratorState_ m with
  | none => none
  | some (r, s) => some (r, ⟨s⟩)

/-- The index `operator[](difference_type offset)`: the reference and the iterator
afterwards. -/
def index [RandomAccessState S Mem Ref Val] {c : Bool} (self : custom_iterator_template S c)
    (offset : Int) (m : Mem) : Option (Ref × custom_iterator_template S c) :=
  match RandomAccessState.at_ self.iteratorState_ offset m with
  | none => none
  | some (r, s) => some (r, ⟨s⟩)

/-- The pre-increment `operator++()`. -/
def pre_increment [IteratorState S Mem Ref Val] {c : Bool}
    (self : custom_iterator_template S c) : custom_iterator_template S c :=
  ⟨IteratorState.next self.iteratorState_⟩

/-- The post-increment `operator++(int)`: the returned copy and the iterator afterwards. -/
def post_increment [IteratorState S Mem Ref Val] {c : Bool}
    (self : custom_iterator_template S c) :
    custom_iterator_template S c × custom_iterator_template S c :=
  let result := copy_constructed self
  (result, ⟨IteratorState.next self.iteratorState_⟩)

/-- The pre-decrement `operator--()`. -/
def pre_decrement [BidirectionalState S Mem Ref Val] {c : Bool}
    (self : custom_iterator_template S c) : custom_iterator_template S c :=
  ⟨BidirectionalState.prev self.iteratorState_⟩

/-- The post-decrement `operator--(int)`: the returned copy and the iterator afterwards. -/
def post_decrement [BidirectionalState S Mem Ref Val] {c : Bool}
    (self : custom_iterator_template S c) :
    custom_iterator_template S c × custom_iterator_template S c :=
  let result := copy_constructed self
  (result, ⟨BidirectionalState.prev self.iteratorState_⟩)

/-- The compound addition `operator+=(difference_type offset)`. -/
def add_assign [RandomAccessState S Mem Ref Val] {c : Bool}
    (self : custom_iterator_template S c) (offset : Int) : custom_iterator_template S c :=
  ⟨RandomAccessState.move self.iteratorState_ offset⟩

/-- The compound subtraction `operator-=(difference_type offset)`: `move(-offset)`, the
negation being computed in `difference_type`.  For the smallest value of the type, whose
negation the type lacks and the code leaves undefined, the two's complement result stands
in. -/
def sub_assign [RandomAccessState S Mem Ref Val] {c : Bool}
    (self : custom_iterator_template S c) (offset : Int) : custom_iterator_template S c :=
  ⟨RandomAccessState.move self.iteratorState_ (wrap_ptrdiff (-offset))⟩

/-- The member `operator+(difference_type offset)`. -/
def add [RandomAccessState S Mem Ref Val] {c : Bool}
    (self : custom_iterator_template S c) (offset : Int) : custom_iterator_template S c :=
  let result := copy_constructed self
  add_assign result offset

/-- The friend `operator+(difference_type offset, const custom_iterator_template &rhs)`. -/
def add_left [RandomAccessState S Mem Ref Val] {c : Bool} (offset : Int)
    (rhs : custom_iterator_template S c) : custom_iterator_template S c :=
  let result := copy_constructed rhs
  add_assign result offset

/-- The member `operator-(difference_type offset) const`. -/
def sub [RandomAccessState S Mem Ref Val] {c : Bool}
    (self : custom_iterator_template S c) (offset : Int) : custom_iterator_template S c :=
  let result := copy_constructed self
  sub_assign result offset

/-- The private `is_equal(const custom_iterator_template<TIteratorState, true> &)`. -/
def is_equal_const [IteratorState S Mem Ref Val] {c : Bool}
    (self : custom_iterator_template S c) (other : custom_iterator_template S true) : Bool :=
  if !IteratorState.is_connected self.iteratorState_ then
    if IteratorState.is_connected other.iteratorState_ then false else true
  else if !IteratorState.is_connected other.iteratorState_
      && IteratorState.is_connected self.iteratorState_ then
    false
  else
    IteratorState.is_equal self.iteratorState_ other.iteratorState_

/-- The private `is_equal(const custom_iterator_template<TIteratorState, false> &)`. -/
def is_equal_mutable [IteratorState S Mem Ref Val] {c : Bool}
    (self : custom_iterator_template S c) (other : custom_iterator_template S false) : Bool :=
  if !IteratorState.is_connected self.iteratorState_ then
    if IteratorState.is_connected other.iteratorState_ then false else true
  else if !IteratorState.is_connected other.iteratorState_
      && IteratorState.is_connected self.iteratorState_ then
    false
  else
    IteratorState.is_equal self.iteratorState_ other.iteratorState_

/-- The private `distance(const custom_iterator_template<TIteratorState, true> &)`. -/
def distance_const [RandomAccessState S Mem Ref Val] {c : Bool}
    (self : custom_iterator_template S c) (rhs : custom_iterator_template S true) : Int :=
  RandomAccessState.distance self.iteratorState_ rhs.iteratorState_

/-- The private `distance(const custom_iterator_template<TIteratorState, false> &)`. -/
def distance_mutable [RandomAccessState S Mem Ref Val] {c : Bool}
    (self : custom_iterator_template S c) (rhs : custom_iterator_template S false) : Int :=
  RandomAccessState.distance self.iteratorState_ rhs.iteratorState_

/-- The difference `operator-(const custom_iterator_template &rhs) const`; the right operand
has the variant of the left one, the overload of `distance` is chosen by that variant. -/
def diff [RandomAccessState S Mem Ref Val] {c : Bool}
    (self rhs : custom_iterator_template S c) : Int :=
  match c, self, rhs with
  | true, self, rhs => distance_const self rhs
  | false, self, rhs => distance_mutable self rhs

/-- The overload `operator!=(const custom_iterator_template<TIteratorState, true> &)`. -/
def ne_const [IteratorState S Mem Ref Val] {c : Bool}
    (self : custom_iterator_template S c) (other : custom_iterator_template S true) : Bool :=
  !is_equal_const self other

/-- The overload `operator!=(const custom_iterator_template<TIteratorState, false> &)`. -/
def ne_mutable [IteratorState S Mem Ref Val] {c : Bool}
    (self : custom_iterator_template S c) (other : custom_iterator_template S false) : Bool :=
  !is_equal_mutable self other

/-- The overload `operator==(const custom_iterator_template<TIteratorState, true> &)`. -/
def eq_const [IteratorState S Mem Ref Val] {c : Bool}
    (self : custom_iterator_template S c) (other : custom_iterator_template S true) : Bool :=
  is_equal_const self other

/-- The overload `operator==(const custom_iterator_template<TIteratorState, false> &)`. -/
def eq_mutable [IteratorState S Mem Ref Val] {c : Bool}
    (self : custom_iterator_template S c) (other : custom_iterator_template S false) : Bool :=
  is_equal_mutable self other

/-- The expression `a == b`: the overload is selected by the variant of the right operand. -/
def eq [IteratorState S Mem Ref Val] {c d : Bool}
    (a : custom_iterator_template S c) (b : custom_iterator_template S d) : Bool :=
  match d, b with
  | true, b => eq_const a b
  | false, b => eq_mutable a b

/-- The expression `a != b`: the overload is selected by the variant of the right operand. -/
def ne [IteratorState S Mem Ref Val] {c d : Bool}
    (a : custom_iterator_template S c) (b : custom_iterator_template S d) : Bool :=
  match d, b with
  | true, b => ne_const a b
  | false, b => ne_mutable a b

/-- The relation `operator<(const custom_iterator_template<TIteratorState, false> &)`. -/
def lt [RandomAccessState S Mem Ref Val] {c : Bool}
    (self : custom_iterator_template S c) (other : custom_iterator_template S false) : Bool :=
  decide (distance_mutable self other < 0)

/-- The relation `operator<=(const custom_iterator_template<TIteratorState, false> &)`. -/
def le [RandomAccessState S Mem Ref Val] {c : Bool}
    (self : custom_iterator_template S c) (other : custom_iterator_template S false) : Bool :=
  decide (distance_mutable self other ≤ 0)

/-- The relation `operator>(const custom_iterator_template<TIteratorState, false> &)`. -/
def gt [RandomAccessState S Mem Ref Val] {c : Bool}
    (self : custom_iterator_template S c) (other : custom_iterator_template S false) : Bool :=
  decide (distance_mutable self other > 0)

/-- The relation `operator>=(const custom_iterator_template<TIteratorState, false> &)`. -/
def ge [RandomAccessState S Mem Ref Val] {c : Bool}
    (self : custom_iterator_template S c) (other : custom_iterator_template S false) : Bool :=
  decide (distance_mutable self other ≥ 0)

/-- The iterator after `k` pre-increments. -/
def increments [IteratorState S Mem Ref Val] {c : Bool} :
    Nat → custom_iterator_template S c → custom_iterator_template S c
  | 0, it => it
  | k + 1, it => increments k (pre_increment it)

/-- The iterator after `k` pre-decrements. -/
def decrements [BidirectionalState S Mem Ref Val] {c : Bool} :
    Nat → custom_iterator_template S c → custom_iterator_template S c
  | 0, it => it
  | k + 1, it => decrements k (pre_decrement it)

/-- The implicitly declared copy assignment `self = source`: the state is assigned
memberwise, which leaves `self` with the members of `source`. -/
def copy_assigned {c : Bool} (_self source : custom_iterator_template S c) :
    custom_iterator_template S c :=
  source

end custom_iterator_template

/-! ## Reverse iteration -/

/-- The class `std::reverse_iterator<custom_iterator_template<TIteratorState, is_const>>`. -/
structure reverse_iterator (S : Bool → Type) (is_const : Bool) where
  current : custom_iterator_template S is_const

namespace reverse_iterator

variable {S : Bool → Type} {Mem Ref Val : Type}

/-- The constructor `explicit reverse_iterator(Iter x) : current(x)`. -/
def of_iterator [IteratorState S Mem Ref Val] {c : Bool} (x : custom_iterator_template S c) :
    reverse_iterator S c :=
  ⟨custom_iterator_template.copy_constructed x⟩

/-- The member `base() const`: a copy of `current`. -/
def base [IteratorState S Mem Ref Val] {c : Bool} (self : reverse_iterator S c) :
    custom_iterator_template S c :=
  custom_iterator_template.copy_constructed self.current

/-- The dereference `operator*() const`: `Iter tmp = current; return *--tmp;`. -/
def deref [BidirectionalState S Mem Ref Val] {c : Bool} (self : reverse_iterator S c)
    (m : Mem) : Option Ref :=
  let tmp := custom_iterator_template.copy_constructed self.current
  match custom_iterator_template.deref (custom_iterator_template.pre_decrement tmp) m with
  | none => none
  | some (r, _) => some r

/-- The pre-increment `operator++()`: `--current; return *this;`. -/
def pre_increment [BidirectionalState S Mem Ref Val] {c : Bool}
    (self : reverse_iterator S c) : reverse_iterator S c :=
  ⟨custom_iterator_template.pre_decrement self.current⟩

/-- The comparison `x == y`: `x.base() == y.base()`. -/
def eq [IteratorState S Mem Ref Val] {c d : Bool} (x : reverse_iterator S c)
    (y : reverse_iterator S d) : Bool :=
  custom_iterator_template.eq x.base y.base

/-- The comparison `x != y`: `x.base() != y.base()`. -/
def ne [IteratorState S Mem Ref Val] {c d : Bool} (x : reverse_iterator S c)
    (y : reverse_iterator S d) : Bool :=
  custom_iterator_template.ne x.base y.base

end reverse_iterator

/-- The container member `rbegin()` the helper macros `SETUP_MUTABLE_RITERATOR` and
`SETUP_CONST_RITERATOR` declare (and the test containers write out):
`return reverse_iterator(end());`. -/
def rbegin {S : Bool → Type} {Mem Ref Val : Type} [IteratorState S Mem Ref Val] (c : Bool)
    (ref : ContainerPtr) (m : Mem) : Option (reverse_iterator S c × Mem) :=
  match custom_iterator_template.end_ (S := S) c ref m with
  | none => none
  | some (it, m1) => some (reverse_iterator.of_iterator it, m1)

/-- The container member `rend()` the helper macros declare:
`return reverse_iterator(begin());`. -/
def rend {S : Bool → Type} {Mem Ref Val : Type} [IteratorState S Mem Ref Val] (c : Bool)
    (ref : ContainerPtr) (m : Mem) : Option (reverse_iterator S c × Mem) :=
  match custom_iterator_template.begin (S := S) c ref m with
  | none => none
  | some (it, m1) => some (reverse_iterator.of_iterator it, m1)

/-- The loop `for (auto i = first, end = last; i != end; ++i) content.push_back(*i)` of the
reverse loop tests, run for at most `fuel` evaluations of the loop condition; `none` when
the fuel runs out or an iterator that cannot be dereferenced is dereferenced. -/
def reverse_for_loop {S : Bool → Type} {Mem Ref Val : Type} [BidirectionalState S Mem Ref Val]
    {c d : Bool} (m : Mem) :
    Nat → reverse_iterator S c → reverse_iterator S d → List Val → Option (List Val)
  | 0, _, _, _ => none
  | fuel + 1, i, last, content =>
    if reverse_iterator.ne i last then
      match reverse_iterator.deref i m with
      | none => none
      | some r =>
        match IteratorState.load S m r with
        | none => none
        | some v => reverse_for_loop m fuel (reverse_iterator.pre_increment i) last
            (content ++ [v])
    else some content

/-! ## The test containers -/

/-- The element type `CustomElement` of the test containers. -/
structure CustomElement where
  data_ : Int
  deriving DecidableEq, Repr

/-- The base `CustomContainerBase` of the four test containers. -/
structure CustomContainerBase where
  InternalData : List CustomElement
  IteratorConnectCount : Nat
  IteratorDisconnectCount : Nat
  deriving DecidableEq, Repr

/-- The construction `CustomContainerBase(std::initializer_list<int> values)`. -/
def CustomContainerBase.of_values (values : List Int) : CustomContainerBase :=
  { InternalData := values.map CustomElement.mk
    IteratorConnectCount := 0
    IteratorDisconnectCount := 0 }

/-- The memory holding test containers: the container object at each address. -/
abbrev CustomMem := Nat → Option CustomContainerBase

/-- The memory with the object at address `a` replaced. -/
def CustomMem.update (m : CustomMem) (a : Nat) (C : CustomContainerBase) : CustomMem :=
  fun p => if p = a then some C else m p

/-- An iterator of `std::vector<CustomElement>`: the storage it points into, named by the
address of the container object whose vector owns the storage (`none` for an iterator that
points into no storage: the value-initialised iterator, and `begin()` and `end()` of a
vector without elements), and the index of the element it points at. -/
structure vector_iterator where
  vec : Option Nat
  idx : Int
  deriving DecidableEq, Repr

/-- The value-initialised iterator `internal_iterator()`. -/
def vector_iterator.singular : vector_iterator := ⟨none, 0⟩

/-- The storage of the vector `InternalData` of the container object at address `a`: a
vector without elements has none, a vector with elements has its own. -/
def vector_storage (a : Nat) (InternalData : List CustomElement) : Option Nat :=
  if InternalData.isEmpty then none else some a

/-- A reference to an element of the `InternalData` of a test container. -/
structure ElementRef where
  container : Nat
  index : Nat
  deriving DecidableEq, Repr

/-- The dereference `*it` of a vector iterator: defined for an iterator that points at an
element of a live vector. -/
def vector_iterator.deref (it : vector_iterator) (m : CustomMem) : Option ElementRef :=
  match it.vec with
  | none => none
  | some a =>
    match m a with
    | none => none
    | some C =>
      if 0 ≤ it.idx ∧ it.idx < C.InternalData.length then some ⟨a, it.idx.toNat⟩ else none

/-- The state `iterator_state<is_const>` of the test containers
`CustomContainerWithInputIterator`, `CustomContainerWithForwardIterator`,
`CustomContainerWithBidirectionalIterator` and `CustomContainerWithRandomAccessIterator`;
the four declare the same members and differ in the category tag and in the operations
they define. -/
structure iterator_state (cat : Category) (is_const : Bool) where
  container_ : ContainerPtr
  current_ : vector_iterator
  deriving DecidableEq, Repr

namespace iterator_state

variable {cat : Category} {c d : Bool}

/-- Default construction: `iterator_state(): container_(nullptr) {}`. -/
def default_state (cat : Category) (c : Bool) : iterator_state cat c :=
  ⟨none, vector_iterator.singular⟩

/-- Construction with connected container: it counts the connection in the container. -/
def connect (cat : Category) (c : Bool) (container : ContainerPtr) (m : CustomMem) :
    Option (iterator_state cat c × CustomMem) :=
  match container with
  | none => none
  | some a =>
    match m a with
    | none => none
    | some C =>
      some (⟨some a, vector_iterator.singular⟩,
        m.update a { C with IteratorConnectCount := wrap_uint (C.IteratorConnectCount + 1) })

/-- Copy construction from the changeable and const variants. -/
def copy (source : iterator_state cat c) : iterator_state cat d :=
  ⟨source.container_, source.current_⟩

/-- The destructor: when connected, it counts the disconnection in the container.  Its
assignments to `current_` and `container_` are to members of the object whose lifetime
ends. -/
def destroy (s : iterator_state cat c) (m : CustomMem) : Option CustomMem :=
  match s.container_ with
  | none => some m
  | some a =>
    match m a with
    | none => none
    | some C =>
      some (m.update a
        { C with IteratorDisconnectCount := wrap_uint (C.IteratorDisconnectCount + 1) })

/-- The member `begin()`: `current_ = container_->InternalData.begin()`. -/
def begin (s : iterator_state cat c) (m : CustomMem) : Option (iterator_state cat c) :=
  match s.container_ with
  | none => none
  | some a =>
    match m a with
    | none => none
    | some C => some ⟨s.container_, ⟨vector_storage a C.InternalData, 0⟩⟩

/-- The member `end()`: `current_ = container_->InternalData.end()`. -/
def end_ (s : iterator_state cat c) (m : CustomMem) : Option (iterator_state cat c) :=
  match s.container_ with
  | none => none
  | some a =>
    match m a with
    | none => none
    | some C =>
      some ⟨s.container_, ⟨vector_storage a C.InternalData, C.InternalData.length⟩⟩

/-- The member `is_connected()`: `container_ != nullptr`. -/
def is_connected (s : iterator_state cat c) : Bool :=
  s.container_ != none

/-- The members `is_equal`: `current_ == other.current_`. -/
def is_equal (s : iterator_state cat c) (other : iterator_state cat d) : Bool :=
  s.current_ == other.current_

/-- The member `next()`: `++current_`. -/
def next (s : iterator_state cat c) : iterator_state cat c :=
  ⟨s.container_, ⟨s.current_.vec, s.current_.idx + 1⟩⟩

/-- The members `get`: `*current_`. -/
def get (s : iterator_state cat c) (m : CustomMem) :
    Option (ElementRef × iterator_state cat c) :=
  match s.current_.deref m with
  | none => none
  | some r => some (r, s)

/-- Reading the element a reference designates. -/
def load (m : CustomMem) (r : ElementRef) : Option CustomElement :=
  match m r.container with
  | none => none
  | some C => C.InternalData[r.index]?

/-- Assigning to the element a reference designates. -/
def store (m : CustomMem) (r : ElementRef) (v : CustomElement) : Option CustomMem :=
  match m r.container with
  | none => none
  | some C =>
    if r.index < C.InternalData.length then
      some (m.update r.container { C with InternalData := C.InternalData.set r.index v })
    else none

/-- The member `prev()`: `--current_`. -/
def prev (s : iterator_state cat c) : iterator_state cat c :=
  ⟨s.container_, ⟨s.current_.vec, s.current_.idx - 1⟩⟩

/-- The member `move(offset)`: `current_ += offset`.  The sum is the position the code
reaches when it lies within `[begin, end]` of the vector; for a sum outside, the pointer
arithmetic of the code is undefined. -/
def move (s : iterator_state cat c) (offset : Int) : iterator_state cat c :=
  ⟨s.container_, ⟨s.current_.vec, s.current_.idx + offset⟩⟩

/-- The members `distance`: `current_ - rhs.current_`. -/
def distance (s : iterator_state cat c) (rhs : iterator_state cat d) : Int :=
  s.current_.idx - rhs.current_.idx

/-- The members `at`: `current_[offset]`. -/
def at_ (s : iterator_state cat c) (offset : Int) (m : CustomMem) :
    Option (ElementRef × iterator_state cat c) :=
  match (vector_iterator.mk s.current_.vec (s.current_.idx + offset)).deref m with
  | none => none
  | some r => some (r, s)

/-- The operations all four test states define. -/
def base_ops (cat : Category) :
    IteratorState (iterator_state cat) CustomMem ElementRef CustomElement where
  iterator_category := cat
  default_state := default_state cat
  connect := connect cat
  copy := copy
  destroy := destroy
  begin := begin
  end_ := end_
  is_connected := is_connected
  is_equal := is_equal
  next := next
  get := get
  load := load
  store := store

/-- The operations the bidirectional and the random access test states define. -/
def bidirectional_ops (cat : Category) :
    BidirectionalState (iterator_state cat) CustomMem ElementRef CustomElement where
  toIteratorState := base_ops cat
  prev := prev

/-- The operations the random access test state defines. -/
def random_access_ops (cat : Category) :
    RandomAccessState (iterator_state cat) CustomMem ElementRef CustomElement where
  toBidirectionalState := bidirectional_ops cat
  move := move
  distance := distance
  at_ := at_

end iterator_state

instance instTestState (cat : Category) : IteratorState (iterator_state cat)
    CustomMem ElementRef CustomElement :=
  iterator_state.base_ops cat

instance instBidirectionalState :
    BidirectionalState (iterator_state .bidirectional_iterator_tag)
      CustomMem ElementRef CustomElement :=
  iterator_state.bidirectional_ops _

instance instRandomAccessState :
    RandomAccessState (iterator_state .random_access_iterator_tag)
      CustomMem ElementRef CustomElement :=
  iterator_state.random_access_ops _

/-- The iterator types of the test containers: `iterator` for `is_const = false`,
`const_iterator` for `is_const = true`. -/
abbrev TestIterator (cat : Category) (is_const : Bool) :=
  custom_iterator_template (iterator_state cat) is_const

/-- The iterator types of `CustomContainerWithRandomAccessIterator`. -/
abbrev RandomAccessIterator (is_const : Bool) :=
  TestIterator .random_access_iterator_tag is_const

/-- The loop `for (auto i = first, end = last; i != end; ++i) content.push_back(*i)` of the
loop tests, run for at most `fuel` evaluations of the loop condition; `none` when the fuel
runs out or an iterator that cannot be dereferenced is dereferenced. -/
def for_loop {S : Bool → Type} {Mem Ref Val : Type} [IteratorState S Mem Ref Val]
    {c d : Bool} (m : Mem) :
    Nat → custom_iterator_template S c → custom_iterator_template S d → List Val →
      Option (List Val)
  | 0, _, _, _ => none
  | fuel + 1, i, last, content =>
    if custom_iterator_template.ne i last then
      match custom_iterator_template.deref i m with
      | none => none
      | some (r, i1) =>
        match IteratorState.load S m r with
        | none => none
        | some v => for_loop m fuel (custom_iterator_template.pre_increment i1) last
            (content ++ [v])
    else some content

/-- An iterator of a test container is within `[begin, end]` of the container it is bound
to: the container is live, the position points into the storage of its vector at an index
between `0` and the size, and the size is one a `std::vector` can have. -/
def in_range {cat : Category} {c : Bool} (m : CustomMem) (it : TestIterator cat c) : Bool :=
  match it.iteratorState_.container_ with
  | none => false
  | some a =>
    match m a with
    | none => false
    | some C =>
      it.iteratorState_.current_.vec == vector_storage a C.InternalData
        && decide (0 ≤ it.iteratorState_.current_.idx)
        && decide (it.iteratorState_.current_.idx ≤ C.InternalData.length)
        && decide ((C.InternalData.length : Int) ≤ PTRDIFF_MAX)

/-- The memory of the tests: at address `1` the container `{1,2,3,4,5,6,7,8}`, at address
`2` the empty container, at address `3` the container `{1,2}`. -/
def test_mem : CustomMem := fun p =>
  if p = 1 then some (CustomContainerBase.of_values [1, 2, 3, 4, 5, 6, 7, 8])
  else if p = 2 then some (CustomContainerBase.of_values [])
  else if p = 3 then some (CustomContainerBase.of_values [1, 2])
  else none

/-- The element type `SampleElement`. -/
structure SampleElement where
  member_ : Int
  deriving DecidableEq, Repr

/-- The class `SampleContainer`: `elements_` is the array the pointer of that name refers
to, `elementCount_` the stored count (a `size_t`). -/
structure SampleContainer where
  elements_ : List SampleElement
  elementCount_ : Nat
  deriving DecidableEq, Repr

/-- The memory holding sample containers. -/
abbrev SampleMem := Nat → Option SampleContainer

namespace SampleContainer

/-- The state `SampleContainer::iterator_state<is_const>`; `current_` is a
`ptrdiff_t` with default member initialiser `-1`. -/
structure iterator_state (is_const : Bool) where
  container_ : ContainerPtr
  current_ : Int
  deriving DecidableEq, Repr

namespace iterator_state

variable {c d : Bool}

/-- Default construction: `iterator_state(): container_(nullptr) {}`. -/
def default_state (c : Bool) : iterator_state c := ⟨none, -1⟩

/-- Construction with connected container. -/
def connect (c : Bool) (container : ContainerPtr) (m : SampleMem) :
    Option (iterator_state c × SampleMem) :=
  some (⟨container, -1⟩, m)

/-- Copy construction from the changeable and const variants. -/
def copy (source : iterator_state c) : iterator_state d :=
  ⟨source.container_, source.current_⟩

/-- The destructor: `current_ = -1; container_ = nullptr;`, assignments to members of the
object whose lifetime ends. -/
def destroy (_s : iterator_state c) (m : SampleMem) : Option SampleMem :=
  some m

/-- The member `begin()`: `current_ = 0`. -/
def begin (s : iterator_state c) (_m : SampleMem) : Option (iterator_state c) :=
  some ⟨s.container_, 0⟩

/-- The member `end()`: `current_ = container_->elementCount_`, converted to
`ptrdiff_t`. -/
def end_ (s : iterator_state c) (m : SampleMem) : Option (iterator_state c) :=
  match s.container_ with
  | none => none
  | some a =>
    match m a with
    | none => none
    | some C => some ⟨s.container_, wrap_ptrdiff C.elementCount_⟩

/-- The member `is_connected()`: `container_ != nullptr`. -/
def is_connected (s : iterator_state c) : Bool :=
  s.container_ != none

/-- The members `is_equal`: `current_ == other.current_`. -/
def is_equal (s : iterator_state c) (other : iterator_state d) : Bool :=
  s.current_ == other.current_

/-- The member `next()`: `++current_`. -/
def next (s : iterator_state c) : iterator_state c :=
  ⟨s.container_, wrap_ptrdiff (s.current_ + 1)⟩

/-- The members `get`: `container_->elements_[current_]`. -/
def get (s : iterator_state c) (m : SampleMem) : Option (ElementRef × iterator_state c) :=
  match s.container_ with
  | none => none
  | some a =>
    match m a with
    | none => none
    | some C =>
      if 0 ≤ s.current_ ∧ s.current_ < C.elements_.length then
        some (⟨a, s.current_.toNat⟩, s)
      else none

/-- Reading the element a reference designates. -/
def load (m : SampleMem) (r : ElementRef) : Option SampleElement :=
  match m r.container with
  | none => none
  | some C => C.elements_[r.index]?

/-- Assigning to the element a reference designates. -/
def store (m : SampleMem) (r : ElementRef) (v : SampleElement) : Option SampleMem :=
  match m r.container with
  | none => none
  | some C =>
    if r.index < C.elements_.length then
      some (fun p =>
        if p = r.container then some { C with elements_ := C.elements_.set r.index v }
        else m p)
    else none

/-- The member `prev()`: `--current_`. -/
def prev (s : iterator_state c) : iterator_state c :=
  ⟨s.container_, wrap_ptrdiff (s.current_ - 1)⟩

end iterator_state

instance instSampleState :
    BidirectionalState iterator_state SampleMem ElementRef SampleElement where
  iterator_category := .random_access_iterator_tag
  default_state := iterator_state.default_state
  connect := iterator_state.connect
  copy := iterator_state.copy
  destroy := iterator_state.destroy
  begin := iterator_state.begin
  end_ := iterator_state.end_
  is_connected := iterator_state.is_connected
  is_equal := iterator_state.is_equal
  next := iterator_state.next
  get := iterator_state.get
  load := iterator_state.load
  store := iterator_state.store
  prev := iterator_state.prev

/-- The iterator types `SampleContainer::iterator` and `SampleContainer::const_iterator`. -/
abbrev Iterator (is_const : Bool) := custom_iterator_template iterator_state is_const

end SampleContainer

/-- A memory with two sample containers: at address `1` one element, at address `2` two
elements. -/
def sample_mem : SampleMem := fun p =>
  if p = 1 then some ⟨[⟨1⟩], 1⟩
  else if p = 2 then some ⟨[⟨7⟩, ⟨8⟩], 2⟩
  else none

/-! ## Declarations: conversions, overloads, optional members, category -/

namespace custom_iterator_template

/-- The variants of the iterators a `custom_iterator_template<TIteratorState, is_const>` is
constructed from: the copy constructor takes the same variant; the constructor
`custom_iterator_template(typename std::enable_if<is_const, T>::type source)`, with
`T = const custom_iterator_template<TIteratorState, false> &`, exists for `is_const` only and
takes the changeable variant. -/
def constructor_sources (is_const : Bool) : List Bool :=
  is_const :: (if is_const then [false] else [])

/-- An iterator of the variant `source` initialises an iterator of the variant `target`, or
binds to a parameter `const custom_iterator_template<TIteratorState, target> &`. -/
def converts_to (source target : Bool) : Bool :=
  (constructor_sources target).contains source

/-- The operators of the adaptor whose right operand is an iterator. -/
inductive BinaryOperator where
  | ne
  | eq
  | lt
  | le
  | gt
  | ge
  | difference
  deriving DecidableEq, Repr

/-- The variants of the parameter in the overloads the adaptor of the variant `is_const`
declares for an operator: `operator!=` and `operator==` for `true` and for `false`, the four
relations for `false`, `operator-(const custom_iterator_template &)` for `is_const`. -/
def declared_parameters (is_const : Bool) : BinaryOperator → List Bool
  | .ne => [true, false]
  | .eq => [true, false]
  | .lt => [false]
  | .le => [false]
  | .gt => [false]
  | .ge => [false]
  | .difference => [is_const]

/-- The expression `a op b`, with `a` of the variant `lhs` and `b` of the variant `rhs`,
has a viable overload: a declared overload of the operator of `a` whose parameter `b`
binds to. -/
def accepted (op : BinaryOperator) (lhs rhs : Bool) : Bool :=
  (declared_parameters lhs op).any (converts_to rhs)

/-- The typedef `iterator_category` of the adaptor: the one of the state. -/
def iterator_category (S : Bool → Type) {Mem Ref Val : Type} [IteratorState S Mem Ref Val] :
    Category :=
  IteratorState.iterator_category S

/-- The assignment `*self = v` through a changeable iterator: the dereference, then the
assignment to the element referred to. -/
def assign_element {S : Bool → Type} {Mem Ref Val : Type} [IteratorState S Mem Ref Val]
    (self : custom_iterator_template S false) (v : Val) (m : Mem) :
    Option (custom_iterator_template S false × Mem) :=
  match deref self m with
  | none => none
  | some (r, self1) =>
    match IteratorState.store S m r v with
    | none => none
    | some m1 => some (self1, m1)

end custom_iterator_template

/-- The tags a tag is or derives from, in `<iterator>`. -/
def Category.bases : Category → List Category
  | .input_iterator_tag => [.input_iterator_tag]
  | .output_iterator_tag => [.output_iterator_tag]
  | .forward_iterator_tag => [.forward_iterator_tag, .input_iterator_tag]
  | .bidirectional_iterator_tag =>
    [.bidirectional_iterator_tag, .forward_iterator_tag, .input_iterator_tag]
  | .random_access_iterator_tag =>
    [.random_access_iterator_tag, .bidirectional_iterator_tag, .forward_iterator_tag,
      .input_iterator_tag]

/-- The value of `std::is_base_of<base, derived>` on the tags. -/
def Category.is_base_of (base derived : Category) : Bool :=
  derived.bases.contains base

/-- The members of a state that only some categories define. -/
inductive OptionalMember where
  | prev
  | move
  | at_
  | distance
  deriving DecidableEq, Repr

/-- The operations of the adaptor that forward to an optional member of the state. -/
inductive OptionalOperation where
  | decrement
  | offset_move
  | index
  | difference
  | ordering
  deriving DecidableEq, Repr

/-- The member of the state an operation of the adaptor forwards to: `operator--` to `prev`,
`operator+=`, `-=`, `+`, `-` by an offset to `move`, `operator[]` to `at`, the difference of
iterators and the four relations to `distance`. -/
def OptionalOperation.forwards_to : OptionalOperation → OptionalMember
  | .decrement => .prev
  | .offset_move => .move
  | .index => .at_
  | .difference => .distance
  | .ordering => .distance

/-- An operation of the adaptor compiles on a state: the member it forwards to is defined
(the members of the adaptor are instantiated where they are used). -/
def operation_usable (defines : OptionalMember → Bool) (op : OptionalOperation) : Bool :=
  defines op.forwards_to

/-- The contract in the comments of the adaptor: `prev` "must be implemented in state for
bidirectional and random access iterators", `move`, `at` and `distance` "must be implemented
in state for random access iterators". -/
def Category.must_implement : Category → OptionalMember → Bool
  | .bidirectional_iterator_tag, .prev => true
  | .random_access_iterator_tag, _ => true
  | _, _ => false

/-- The optional members the state of the test container of a category defines: none for
`CustomContainerWithInputIterator` and `CustomContainerWithForwardIterator`, `prev` for
`CustomContainerWithBidirectionalIterator`, all four for
`CustomContainerWithRandomAccessIterator`. -/
def iterator_state.defines : Category → OptionalMember → Bool
  | .bidirectional_iterator_tag, .prev => true
  | .random_access_iterator_tag, .prev => true
  | .random_access_iterator_tag, .move => true
  | .random_access_iterator_tag, .at_ => true
  | .random_access_iterator_tag, .distance => true
  | _, _ => false

/-- The optional members `SampleContainer::iterator_state` defines: `prev` only. -/
def SampleContainer.iterator_state.defines : OptionalMember → Bool
  | .prev => true
  | _ => false

/-! ## Iterator objects -/

/-- The iterator objects of a program, by address. -/
abbrev IteratorObjects (S : Bool → Type) (c : Bool) := Nat → Option (custom_iterator_template S c)

namespace IteratorObjects

variable {S : Bool → Type} {Mem Ref Val : Type} {c : Bool}

/-- The objects with the one at the address `x` replaced. -/
def set (σ : IteratorObjects S c) (x : Nat) (it : custom_iterator_template S c) :
    IteratorObjects S c :=
  fun y => if y = x then some it else σ y

/-- The declaration `iterator dst(src)`: the object at `dst` is copy-constructed from the
one at `src`. -/
def copy_construct [IteratorState S Mem Ref Val] (σ : IteratorObjects S c) (dst src : Nat) :
    Option (IteratorObjects S c) :=
  match σ src with
  | none => none
  | some it => some (σ.set dst (custom_iterator_template.copy_constructed it))

/-- A statement that moves the object at `x` by an operation the adaptor defines on it
(`++x`, `--x`, `x += n`, `x -= n`): the operation changes the members of that object. -/
def move_object (σ : IteratorObjects S c) (x : Nat)
    (operation : custom_iterator_template S c → custom_iterator_template S c) :
    Option (IteratorObjects S c) :=
  match σ x with
  | none => none
  | some it => some (σ.set x (operation it))

/-- The statement `dst = src`: the implicitly declared copy assignment of the object at
`dst` from the one at `src`. -/
def copy_assign (σ : IteratorObjects S c) (dst src : Nat) : Option (IteratorObjects S c) :=
  match σ dst, σ src with
  | some target, some source =>
    some (σ.set dst (custom_iterator_template.copy_assigned target source))
  | _, _ => none

/-- The call `std::swap(a, b)`, by the definition of the standard: `T tmp(std::move(a));
a = std::move(b); b = std::move(tmp);`, with `tmp` at a fresh address; the adaptor declares
a copy constructor, so it has no move operations and the copy operations are taken. -/
def std_swap [IteratorState S Mem Ref Val] (σ : IteratorObjects S c) (a b tmp : Nat) :
    Option (IteratorObjects S c) :=
  match σ.copy_construct tmp a with
  | none => none
  | some σ1 =>
    match σ1.copy_assign a b with
    | none => none
    | some σ2 => σ2.copy_assign b tmp

/-- The body of the member `operator+(difference_type offset)` of the object at `x`, and of
the friend `operator+` with `x` its right operand, the result being the object at `res`:
`custom_iterator_template result = *this; result += offset; return result;`. -/
def operator_plus [RandomAccessState S Mem Ref Val] (σ : IteratorObjects S c) (res x : Nat)
    (offset : Int) : Option (IteratorObjects S c) :=
  match σ.copy_construct res x with
  | none => none
  | some σ1 =>
    σ1.move_object res (fun result => custom_iterator_template.add_assign result offset)

/-- The body of the member `operator-(difference_type offset) const` of the object at `x`,
the result being the object at `res`:
`custom_iterator_template result = *this; result -= offset; return result;`. -/
def operator_minus [RandomAccessState S Mem Ref Val] (σ : IteratorObjects S c) (res x : Nat)
    (offset : Int) : Option (IteratorObjects S c) :=
  match σ.copy_construct res x with
  | none => none
  | some σ1 =>
    σ1.move_object res (fun result => custom_iterator_template.sub_assign result offset)

/-- The evaluation of an operator that is a `const` member of its left operand and takes its
right operand by reference to `const` (the difference `a - b`, `==`, `!=`, `<`, `<=`, `>`,
`>=`), on the object at `x` of the objects `σ` and the object at `y` of the objects `τ`: the
value of the operator on the two objects, and the objects afterwards.  The bodies of these
members call `const` members of the states only and assign to no member of an operand. -/
def const_member {α : Type} {d : Bool} (σ : IteratorObjects S c) (τ : IteratorObjects S d)
    (x y : Nat) (op : custom_iterator_template S c → custom_iterator_template S d → α) :
    Option (α × IteratorObjects S c × IteratorObjects S d) :=
  match σ x, τ y with
  | some a, some b => some (op a b, σ, τ)
  | _, _ => none

end IteratorObjects

/-! ## Destruction and the control flow of `is_equal` -/

/-- The implicitly declared destructor of the adaptor: it destroys `iteratorState_`.  The
result is the memory it leaves; the lifetime of the iterator ends with it. -/
def custom_iterator_template.destruct {S : Bool → Type} {Mem Ref Val : Type}
    [IteratorState S Mem Ref Val] {c : Bool} (self : custom_iterator_template S c) (m : Mem) :
    Option Mem :=
  IteratorState.destroy self.iteratorState_ m

/-- The static factory `begin(container_type *ref)` when the returned object is not the
local iterator `it` itself but a copy of it (`return it;` names a local, so the elision of
the copy is permitted, not required): the returned object is copy-constructed from `it`,
and `it` is destroyed at the end of the body. -/
def custom_iterator_template.begin_returning_copy {S : Bool → Type} {Mem Ref Val : Type}
    [IteratorState S Mem Ref Val] (c : Bool) (ref : ContainerPtr) (m : Mem) :
    Option (custom_iterator_template S c × Mem) :=
  match custom_iterator_template.connected (S := S) c ref m with
  | none => none
  | some (it, m1) =>
    match IteratorState.begin it.iteratorState_ m1 with
    | none => none
    | some s =>
      match custom_iterator_template.destruct (⟨s⟩ : custom_iterator_template S c) m1 with
      | none => none
      | some m2 =>
        some (custom_iterator_template.copy_constructed (⟨s⟩ : custom_iterator_template S c),
          m2)

/-- The control flow of both overloads of the private `is_equal` of the adaptor, on the two
connectivity flags, with the call of the state's `is_equal` as a computation that may have
no result (`none`): it is the operand of the last `return` only. -/
def custom_iterator_template.is_equal_flow (this_connected other_connected : Bool)
    (state_is_equal : Option Bool) : Option Bool :=
  if !this_connected then
    if other_connected then some false else some true
  else if !other_connected && this_connected then
    some false
  else
    state_is_equal

/-- Equality of two iterators in the words of the specification: both are unbound, or both
are bound and the state's `is_equal` holds. -/
def custom_iterator_template.is_equal_spec (this_connected other_connected : Bool)
    (state_is_equal : Bool) : Bool :=
  (!this_connected && !other_connected)
    || (this_connected && other_connected && state_is_equal)

/-! ## Equality -/

section equality

open custom_iterator_template

variable {S : Bool → Type} {Mem Ref Val : Type}

/-- Both overloads of the adaptor's `is_equal` as one function of the states: unbound
operands are equal to each other and to nothing else, bound operands are compared by the
state. -/
theorem eq_unfold [IteratorState S Mem Ref Val] {c d : Bool}
    (a : custom_iterator_template S c) (b : custom_iterator_template S d) :
    eq a b =
      if IteratorState.is_connected a.iteratorState_ then
        (IteratorState.is_connected b.iteratorState_
          && IteratorState.is_equal a.iteratorState_ b.iteratorState_)
      else !IteratorState.is_connected b.iteratorState_ := by
  cases d <;>
    simp only [eq, eq_const, eq_mutable, is_equal_const, is_equal_mutable] <;>
    cases IteratorState.is_connected a.iteratorState_ <;>
    cases IteratorState.is_connected b.iteratorState_ <;> simp

/-- The expression `a != b` is the negation of `a == b`. -/
theorem ne_unfold [IteratorState S Mem Ref Val] {c d : Bool}
    (a : custom_iterator_template S c) (b : custom_iterator_template S d) :
    ne a b = !eq a b := by
  cases d <;> rfl

/-- C1: in each of the four variant combinations, two unbound iterators compare equal and an
unbound iterator never compares equal to a bound one, whatever the states carry. -/
theorem C1_unbound_equality [IteratorState S Mem Ref Val] {c d : Bool}
    (a : custom_iterator_template S c) (b : custom_iterator_template S d) :
    (a.is_connected = false → b.is_connected = false → eq a b = true) ∧
    (a.is_connected = true → b.is_connected = false → eq a b = false) ∧
    (a.is_connected = false → b.is_connected = true → eq a b = false) := by
  rw [eq_unfold]
  simp only [is_connected]
  refine ⟨?_, ?_, ?_⟩ <;> intro ha hb <;> simp [ha, hb]

/-- Witness of C1 on the forward test state: default-constructed iterators against each
other and against an iterator at the start of the container at address `1`. -/
theorem C1_unbound_equality_witness :
    eq (default_constructed (S := iterator_state .forward_iterator_tag) false)
        (default_constructed (S := iterator_state .forward_iterator_tag) true) = true ∧
    eq (S := iterator_state .forward_iterator_tag) (c := true) (d := false)
        ⟨⟨some 1, ⟨some 1, 0⟩⟩⟩ (default_constructed false) = false ∧
    eq (S := iterator_state .forward_iterator_tag) (c := false) (d := true)
        (default_constructed false) ⟨⟨some 1, ⟨some 1, 0⟩⟩⟩ = false :=
  ⟨(C1_unbound_equality _ _).1 rfl rfl, (C1_unbound_equality _ _).2.1 rfl rfl,
    (C1_unbound_equality _ _).2.2 rfl rfl⟩

/-- Equality of two bound iterators is the state's `is_equal`. -/
theorem eq_of_connected [IteratorState S Mem Ref Val] {c d : Bool}
    (a : custom_iterator_template S c) (b : custom_iterator_template S d)
    (ha : a.is_connected = true) (hb : b.is_connected = true) :
    eq a b = IteratorState.is_equal a.iteratorState_ b.iteratorState_ := by
  rw [eq_unfold]
  simp only [is_connected] at ha hb
  simp [ha, hb]

/-- Equality of two bound iterators of a test container compares the positions. -/
theorem test_eq_iff {cat : Category} {c d : Bool} (a : TestIterator cat c)
    (b : TestIterator cat d) (ha : a.is_connected = true) (hb : b.is_connected = true) :
    eq a b = true ↔ a.iteratorState_.current_ = b.iteratorState_.current_ := by
  rw [eq_of_connected a b ha hb]
  show iterator_state.is_equal _ _ = true ↔ _
  simp [iterator_state.is_equal]

/-- Equality of two bound iterators of the sample container compares the positions. -/
theorem sample_eq_iff {c d : Bool} (a : SampleContainer.Iterator c)
    (b : SampleContainer.Iterator d) (ha : a.is_connected = true)
    (hb : b.is_connected = true) :
    eq a b = true ↔ a.iteratorState_.current_ = b.iteratorState_.current_ := by
  rw [eq_of_connected a b ha hb]
  show SampleContainer.iterator_state.is_equal _ _ = true ↔ _
  simp [SampleContainer.iterator_state.is_equal]

/-! ## Start and end positions of the test containers -/

/-- A vector with elements has its own storage. -/
theorem vector_storage_of_pos (a : Nat) (InternalData : List CustomElement)
    (h : 0 < InternalData.length) : vector_storage a InternalData = some a := by
  cases InternalData with
  | nil => simp at h
  | cons x xs => rfl

/-- A vector without elements has no storage. -/
theorem vector_storage_of_zero (a : Nat) (InternalData : List CustomElement)
    (h : InternalData.length = 0) : vector_storage a InternalData = none := by
  cases InternalData with
  | nil => rfl
  | cons x xs => simp at h

/-- The factory `begin` on a live test container: the iterator is bound to the container
and positioned at index `0` of the storage of its vector; the container has counted one more
connection. -/
theorem test_begin_eq (cat : Category) (c : Bool) (m : CustomMem) (a : Nat)
    (C : CustomContainerBase) (h : m a = some C) :
    begin (S := iterator_state cat) c (some a) m =
      some (⟨⟨some a, ⟨vector_storage a C.InternalData, 0⟩⟩⟩,
        m.update a { C with IteratorConnectCount := wrap_uint (C.IteratorConnectCount + 1) }) := by
  simp [begin, connected, instTestState, iterator_state.base_ops,
    iterator_state.connect, iterator_state.begin, h, CustomMem.update]

/-- The factory `end` on a live test container: the iterator is bound to the container and
positioned at the index `size` of the storage of its vector; the container has counted one
more connection. -/
theorem test_end_eq (cat : Category) (c : Bool) (m : CustomMem) (a : Nat)
    (C : CustomContainerBase) (h : m a = some C) :
    end_ (S := iterator_state cat) c (some a) m =
      some (⟨⟨some a, ⟨vector_storage a C.InternalData, C.InternalData.length⟩⟩⟩,
        m.update a { C with IteratorConnectCount := wrap_uint (C.IteratorConnectCount + 1) }) := by
  simp [end_, connected, instTestState, iterator_state.base_ops,
    iterator_state.connect, iterator_state.end_, h, CustomMem.update]

/-- The factory `begin` on a live test container with elements: index `0` of its storage. -/
theorem test_begin_eq_of_pos (cat : Category) (c : Bool) (m : CustomMem) (a : Nat)
    (C : CustomContainerBase) (h : m a = some C) (hpos : 0 < C.InternalData.length) :
    begin (S := iterator_state cat) c (some a) m =
      some (⟨⟨some a, ⟨some a, 0⟩⟩⟩,
        m.update a { C with IteratorConnectCount := wrap_uint (C.IteratorConnectCount + 1) }) := by
  rw [test_begin_eq cat c m a C h, vector_storage_of_pos a _ hpos]

/-- The factory `end` on a live test container with elements: index `size` of its
storage. -/
theorem test_end_eq_of_pos (cat : Category) (c : Bool) (m : CustomMem) (a : Nat)
    (C : CustomContainerBase) (h : m a = some C) (hpos : 0 < C.InternalData.length) :
    end_ (S := iterator_state cat) c (some a) m =
      some (⟨⟨some a, ⟨some a, C.InternalData.length⟩⟩⟩,
        m.update a { C with IteratorConnectCount := wrap_uint (C.IteratorConnectCount + 1) }) := by
  rw [test_end_eq cat c m a C h, vector_storage_of_pos a _ hpos]

/-- The factory `begin` on a live test container without elements: the value-initialised
position. -/
theorem test_begin_eq_of_zero (cat : Category) (c : Bool) (m : CustomMem) (a : Nat)
    (C : CustomContainerBase) (h : m a = some C) (h0 : C.InternalData.length = 0) :
    begin (S := iterator_state cat) c (some a) m =
      some (⟨⟨some a, ⟨none, 0⟩⟩⟩,
        m.update a { C with IteratorConnectCount := wrap_uint (C.IteratorConnectCount + 1) }) := by
  rw [test_begin_eq cat c m a C h, vector_storage_of_zero a _ h0]

/-- The factory `end` on a live test container without elements: the value-initialised
position. -/
theorem test_end_eq_of_zero (cat : Category) (c : Bool) (m : CustomMem) (a : Nat)
    (C : CustomContainerBase) (h : m a = some C) (h0 : C.InternalData.length = 0) :
    end_ (S := iterator_state cat) c (some a) m =
      some (⟨⟨some a, ⟨none, 0⟩⟩⟩,
        m.update a { C with IteratorConnectCount := wrap_uint (C.IteratorConnectCount + 1) }) := by
  rw [test_end_eq cat c m a C h, vector_storage_of_zero a _ h0, h0]
  rfl

/-- Replacing the object at `a` makes it the object at `a`. -/
theorem update_same (m : CustomMem) (a : Nat) (C : CustomContainerBase) :
    m.update a C a = some C := by
  simp [CustomMem.update]

/-- What `in_range` says of the members of the iterator. -/
theorem in_range_iff {cat : Category} {c : Bool} (m : CustomMem) (p : ContainerPtr)
    (v : Option Nat) (i : Int) :
    in_range m (⟨⟨p, ⟨v, i⟩⟩⟩ : TestIterator cat c) = true ↔
      ∃ a C, p = some a ∧ m a = some C ∧ v = vector_storage a C.InternalData ∧ 0 ≤ i ∧
        i ≤ C.InternalData.length ∧ (C.InternalData.length : Int) ≤ PTRDIFF_MAX := by
  simp only [in_range]
  cases p with
  | none => simp
  | some a =>
    cases hm : m a with
    | none => simp [hm]
    | some C =>
      simp only [hm, Bool.and_eq_true, beq_iff_eq, decide_eq_true_eq, Option.some.injEq]
      constructor
      · rintro ⟨⟨⟨h1, h2⟩, h3⟩, h4⟩
        exact ⟨a, C, rfl, hm, h1, h2, h3, h4⟩
      · rintro ⟨a1, C1, h0, hC, h1, h2, h3, h4⟩
        cases h0
        rw [hm] at hC
        cases hC
        exact ⟨⟨⟨h1, h2⟩, h3⟩, h4⟩

/-! ## Equality of bound iterators -/

/-- The factory `begin` on a sample container: position `0`, memory unchanged. -/
theorem sample_begin_eq (c : Bool) (m : SampleMem) (p : ContainerPtr) :
    begin (S := SampleContainer.iterator_state) c p m = some (⟨⟨p, 0⟩⟩, m) :=
  rfl

/-- The factory `end` on a live sample container: the position is the stored count. -/
theorem sample_end_eq (c : Bool) (m : SampleMem) (a : Nat) (C : SampleContainer)
    (h : m a = some C) :
    end_ (S := SampleContainer.iterator_state) c (some a) m =
      some (⟨⟨some a, wrap_ptrdiff C.elementCount_⟩⟩, m) := by
  simp [end_, connected, SampleContainer.instSampleState,
    SampleContainer.iterator_state.connect, SampleContainer.iterator_state.end_, h]

/-- C3: for every live test container (any category, either variant) `begin() == end()`
holds if and only if `InternalData` is empty, and for every live sample container if and
only if its `elementCount_` (a `size_t`) is zero. -/
theorem C3_begin_eq_end_iff_empty :
    (∀ (cat : Category) (c : Bool) (m : CustomMem) (a : Nat) (C : CustomContainerBase),
      m a = some C →
      ∃ b m1 e m2, begin (S := iterator_state cat) c (some a) m = some (b, m1) ∧
        end_ (S := iterator_state cat) c (some a) m1 = some (e, m2) ∧
        (eq b e = true ↔ C.InternalData = [])) ∧
    (∀ (c : Bool) (m : SampleMem) (a : Nat) (C : SampleContainer),
      m a = some C → C.elementCount_ < 18446744073709551616 →
      ∃ b m1 e m2, begin (S := SampleContainer.iterator_state) c (some a) m = some (b, m1) ∧
        end_ (S := SampleContainer.iterator_state) c (some a) m1 = some (e, m2) ∧
        (eq b e = true ↔ C.elementCount_ = 0)) := by
  constructor
  · intro cat c m a C h
    refine ⟨_, _, _, _, test_begin_eq cat c m a C h,
      test_end_eq cat c _ a _ (update_same m a _), ?_⟩
    rw [test_eq_iff _ _ (by rfl) (by rfl)]
    simp only [vector_iterator.mk.injEq, true_and]
    constructor
    · intro h0
      exact List.length_eq_zero.mp (by exact_mod_cast h0.symm)
    · intro h0
      simp [h0]
  · intro c m a C h hsz
    refine ⟨_, _, _, _, sample_begin_eq c m (some a), sample_end_eq c m a C h, ?_⟩
    rw [sample_eq_iff _ _ (by rfl) (by rfl)]
    simp only [wrap_ptrdiff]
    omega

/-- Witness of C3: the empty test container at address `2` and the one-element sample
container at address `1`. -/
theorem C3_begin_eq_end_iff_empty_witness :
    (∃ b m1 e m2,
      begin (S := iterator_state .random_access_iterator_tag) false (some 2) test_mem
        = some (b, m1) ∧
      end_ (S := iterator_state .random_access_iterator_tag) false (some 2) m1
        = some (e, m2) ∧
      (eq b e = true ↔ (CustomContainerBase.of_values []).InternalData = [])) ∧
    (∃ b m1 e m2,
      begin (S := SampleContainer.iterator_state) true (some 1) sample_mem = some (b, m1) ∧
      end_ (S := SampleContainer.iterator_state) true (some 1) m1 = some (e, m2) ∧
      (eq b e = true ↔ (SampleContainer.mk [⟨1⟩] 1).elementCount_ = 0)) :=
  ⟨C3_begin_eq_end_iff_empty.1 .random_access_iterator_tag false test_mem 2 _ rfl,
   C3_begin_eq_end_iff_empty.2 true sample_mem 1 _ rfl (by decide)⟩

/-! ## Traversal -/

/-- The test iterator after `k` increments: the index has grown by `k`. -/
theorem test_increments {cat : Category} {c : Bool} (k : Nat) (p : ContainerPtr)
    (v : Option Nat) (i : Int) :
    increments k (⟨⟨p, ⟨v, i⟩⟩⟩ : TestIterator cat c) = ⟨⟨p, ⟨v, i + k⟩⟩⟩ := by
  induction k generalizing i with
  | zero => simp [increments]
  | succ k ih =>
    have h1 : pre_increment (⟨⟨p, ⟨v, i⟩⟩⟩ : TestIterator cat c) = ⟨⟨p, ⟨v, i + 1⟩⟩⟩ := rfl
    rw [increments, h1, ih]
    push_cast
    congr 3
    omega

/-- Dereferencing a test iterator that points at the element `k` of a live container. -/
theorem test_deref {cat : Category} {c : Bool} (m : CustomMem) (a : Nat)
    (C : CustomContainerBase) (h : m a = some C) (p : ContainerPtr) (k : Nat)
    (hk : k < C.InternalData.length) :
    deref (⟨⟨p, ⟨some a, k⟩⟩⟩ : TestIterator cat c) m = some (⟨a, k⟩, ⟨⟨p, ⟨some a, k⟩⟩⟩) := by
  simp [deref, instTestState, iterator_state.base_ops, iterator_state.get,
    vector_iterator.deref, h, hk]

/-- Reading the element `k` of a live test container. -/
theorem test_load {cat : Category} (m : CustomMem) (a : Nat) (C : CustomContainerBase)
    (h : m a = some C) (k : Nat) (hk : k < C.InternalData.length) :
    IteratorState.load (iterator_state cat) m ⟨a, k⟩ = some (C.InternalData.get ⟨k, hk⟩) := by
  simp [instTestState, iterator_state.base_ops, iterator_state.load, h,
    List.getElem?_eq_getElem hk]

/-- The loop from the index `j` to the end of a live test container collects the elements
from `j` on, provided the fuel exceeds the number of elements left. -/
theorem test_for_loop (cat : Category) (c d : Bool) (m : CustomMem) (a : Nat)
    (C : CustomContainerBase) (h : m a = some C) (fuel : Nat) :
    ∀ (j : Nat) (content : List CustomElement), j ≤ C.InternalData.length →
      C.InternalData.length - j < fuel →
      for_loop m fuel (⟨⟨some a, ⟨some a, j⟩⟩⟩ : TestIterator cat c)
        (⟨⟨some a, ⟨some a, C.InternalData.length⟩⟩⟩ : TestIterator cat d) content
        = some (content ++ C.InternalData.drop j) := by
  induction fuel with
  | zero => intro j content _ hf; omega
  | succ fuel ih =>
    intro j content hj hf
    rw [for_loop, ne_unfold]
    by_cases hlt : j < C.InternalData.length
    · have hne : eq (⟨⟨some a, ⟨some a, (j : Int)⟩⟩⟩ : TestIterator cat c)
          (⟨⟨some a, ⟨some a, C.InternalData.length⟩⟩⟩ : TestIterator cat d) = false := by
        rw [Bool.eq_false_iff, Ne, test_eq_iff _ _ (by rfl) (by rfl)]
        simp only [vector_iterator.mk.injEq, true_and]
        omega
      simp only [hne, Bool.not_false, if_true]
      rw [test_deref m a C h _ j hlt]
      simp only
      rw [test_load m a C h j hlt]
      simp only
      have h1 : pre_increment (⟨⟨some a, ⟨some a, (j : Int)⟩⟩⟩ : TestIterator cat c)
          = ⟨⟨some a, ⟨some a, ((j + 1 : Nat) : Int)⟩⟩⟩ := rfl
      rw [h1, ih (j + 1) _ hlt (by omega), List.append_assoc]
      congr 2
      rw [List.singleton_append]
      exact (List.drop_eq_getElem_cons hlt).symm
    · have he : j = C.InternalData.length := by omega
      have heq : eq (⟨⟨some a, ⟨some a, (j : Int)⟩⟩⟩ : TestIterator cat c)
          (⟨⟨some a, ⟨some a, C.InternalData.length⟩⟩⟩ : TestIterator cat d) = true := by
        rw [test_eq_iff _ _ (by rfl) (by rfl), he]
      rw [heq]
      simp only [Bool.not_true, Bool.false_eq_true, if_false, he, List.drop_length,
        List.append_nil]

/-- The loop runs out of fuel when the fuel does not exceed the number of elements left. -/
theorem test_for_loop_fuel (cat : Category) (c d : Bool) (m : CustomMem) (a : Nat)
    (C : CustomContainerBase) (h : m a = some C) (fuel : Nat) :
    ∀ (j : Nat) (content : List CustomElement), j ≤ C.InternalData.length →
      fuel ≤ C.InternalData.length - j →
      for_loop m fuel (⟨⟨some a, ⟨some a, j⟩⟩⟩ : TestIterator cat c)
        (⟨⟨some a, ⟨some a, C.InternalData.length⟩⟩⟩ : TestIterator cat d) content
        = none := by
  induction fuel with
  | zero => intro j content _ _; rfl
  | succ fuel ih =>
    intro j content hj hf
    have hlt : j < C.InternalData.length := by omega
    rw [for_loop, ne_unfold]
    have hne : eq (⟨⟨some a, ⟨some a, (j : Int)⟩⟩⟩ : TestIterator cat c)
        (⟨⟨some a, ⟨some a, C.InternalData.length⟩⟩⟩ : TestIterator cat d) = false := by
      rw [Bool.eq_false_iff, Ne, test_eq_iff _ _ (by rfl) (by rfl)]
      simp only [vector_iterator.mk.injEq, true_and]
      omega
    simp only [hne, Bool.not_false, if_true]
    rw [test_deref m a C h _ j hlt]
    simp only
    rw [test_load m a C h j hlt]
    simp only
    have h1 : pre_increment (⟨⟨some a, ⟨some a, (j : Int)⟩⟩⟩ : TestIterator cat c)
        = ⟨⟨some a, ⟨some a, ((j + 1 : Nat) : Int)⟩⟩⟩ := rfl
    rw [h1, ih (j + 1) _ hlt (by omega)]

/-- C4: for a live test container with elements `e_0 .. e_(n-1)` (any category, either
variant) the iterator reached by `k < n` increments from `begin()` dereferences to `e_k` and
is unequal to `end()`, the one reached by `n` increments is equal to `end()`, and the loop
`for (i = begin; i != end; ++i)` ends after exactly `n` passes (the fuel `n + 1` suffices,
the fuel `n` does not) having collected `e_0 .. e_(n-1)` in order. -/
theorem C4_traversal (cat : Category) (c : Bool) (m : CustomMem) (a : Nat)
    (C : CustomContainerBase) (h : m a = some C) :
    ∃ b m1 e m2, begin (S := iterator_state cat) c (some a) m = some (b, m1) ∧
      end_ (S := iterator_state cat) c (some a) m1 = some (e, m2) ∧
      (∀ (k : Nat) (hk : k < C.InternalData.length),
        (∃ r it, deref (increments k b) m2 = some (r, it) ∧
          IteratorState.load (iterator_state cat) m2 r = some (C.InternalData.get ⟨k, hk⟩)) ∧
        ne (increments k b) e = true) ∧
      eq (increments C.InternalData.length b) e = true ∧
      (∀ fuel : Nat, C.InternalData.length < fuel →
        for_loop m2 fuel b e [] = some C.InternalData) ∧
      (∀ fuel : Nat, fuel ≤ C.InternalData.length → for_loop m2 fuel b e [] = none) := by
  have h1 := update_same m a
    { C with IteratorConnectCount := wrap_uint (C.IteratorConnectCount + 1) }
  have h2 := update_same
    (m.update a { C with IteratorConnectCount := wrap_uint (C.IteratorConnectCount + 1) }) a
    { C with IteratorConnectCount := wrap_uint (wrap_uint (C.IteratorConnectCount + 1) + 1) }
  rcases Nat.eq_zero_or_pos C.InternalData.length with h0 | hpos
  · refine ⟨_, _, _, _, test_begin_eq_of_zero cat c m a C h h0,
      test_end_eq_of_zero cat c _ a _ h1 h0, ?_, ?_, ?_, ?_⟩
    · intro k hk
      omega
    · rw [h0, test_increments, test_eq_iff _ _ (by rfl) (by rfl)]
      simp
    · intro fuel hf
      cases fuel with
      | zero => omega
      | succ fuel =>
        have heq : eq (⟨⟨some a, ⟨none, 0⟩⟩⟩ : TestIterator cat c)
            (⟨⟨some a, ⟨none, 0⟩⟩⟩ : TestIterator cat c) = true := by
          rw [test_eq_iff _ _ (by rfl) (by rfl)]
        rw [for_loop, ne_unfold, heq, List.length_eq_zero.mp h0]
        rfl
    · intro fuel hf
      have hfuel : fuel = 0 := by omega
      subst hfuel
      rfl
  refine ⟨_, _, _, _, test_begin_eq_of_pos cat c m a C h hpos,
    test_end_eq_of_pos cat c _ a _ h1 hpos, ?_, ?_, ?_, ?_⟩
  · intro k hk
    rw [test_increments, ne_unfold]
    simp only [zero_add]
    refine ⟨⟨_, _, test_deref _ a _ h2 _ k hk, test_load _ a _ h2 k hk⟩, ?_⟩
    have hne : eq (⟨⟨some a, ⟨some a, (k : Int)⟩⟩⟩ : TestIterator cat c)
        (⟨⟨some a, ⟨some a, C.InternalData.length⟩⟩⟩ : TestIterator cat c) = false := by
      rw [Bool.eq_false_iff, Ne, test_eq_iff _ _ (by rfl) (by rfl)]
      simp only [vector_iterator.mk.injEq, true_and]
      omega
    simp only [Bool.not_eq_true']
    exact hne
  · rw [test_increments, test_eq_iff _ _ (by rfl) (by rfl)]
    simp
  · intro fuel hf
    have := test_for_loop cat c c _ a _ h2 fuel 0 [] (Nat.zero_le _)
      (by simpa using hf)
    simpa using this
  · intro fuel hf
    exact test_for_loop_fuel cat c c _ a _ h2 fuel 0 []
      (Nat.zero_le _) (by simpa using hf)

/-- Witness of C4: the test container `{1,2}` at address `3`. -/
theorem C4_traversal_witness :
    ∃ b m1 e m2,
      begin (S := iterator_state .random_access_iterator_tag) false (some 3) test_mem
        = some (b, m1) ∧
      end_ (S := iterator_state .random_access_iterator_tag) false (some 3) m1
        = some (e, m2) ∧
      (∀ (k : Nat) (hk : k < (CustomContainerBase.of_values [1, 2]).InternalData.length),
        (∃ r it, deref (increments k b) m2 = some (r, it) ∧
          IteratorState.load (iterator_state .random_access_iterator_tag) m2 r
            = some ((CustomContainerBase.of_values [1, 2]).InternalData.get ⟨k, hk⟩)) ∧
        ne (increments k b) e = true) ∧
      eq (increments (CustomContainerBase.of_values [1, 2]).InternalData.length b) e = true ∧
      (∀ fuel : Nat, (CustomContainerBase.of_values [1, 2]).InternalData.length < fuel →
        for_loop m2 fuel b e [] = some (CustomContainerBase.of_values [1, 2]).InternalData) ∧
      (∀ fuel : Nat, fuel ≤ (CustomContainerBase.of_values [1, 2]).InternalData.length →
        for_loop m2 fuel b e [] = none) :=
  C4_traversal .random_access_iterator_tag false test_mem 3 _ rfl


/-! ## Conversion from the changeable to the const variant -/

/-- C5: for every changeable iterator `m` of a test container or of the sample container,
bound or unbound, the const iterator converted from it is equal to `m` in both directions
(and unequal in neither), has the connectivity of `m`, and, when `m` can be dereferenced,
dereferences to the element `m` dereferences to. -/
theorem C5_const_conversion :
    (∀ (cat : Category) (m : TestIterator cat false) (mem : CustomMem),
      eq m (cast_to_const m) = true ∧ eq (cast_to_const m) m = true ∧
      ne m (cast_to_const m) = false ∧ ne (cast_to_const m) m = false ∧
      (cast_to_const m).is_connected = m.is_connected ∧
      (∀ r it, deref m mem = some (r, it) →
        deref (cast_to_const m) mem = some (r, cast_to_const m))) ∧
    (∀ (m : SampleContainer.Iterator false) (mem : SampleMem),
      eq m (cast_to_const m) = true ∧ eq (cast_to_const m) m = true ∧
      ne m (cast_to_const m) = false ∧ ne (cast_to_const m) m = false ∧
      (cast_to_const m).is_connected = m.is_connected ∧
      (∀ r it, deref m mem = some (r, it) →
        deref (cast_to_const m) mem = some (r, cast_to_const m))) := by
  constructor
  · intro cat m mem
    obtain ⟨⟨p, cur⟩⟩ := m
    have hc : (cast_to_const (⟨⟨p, cur⟩⟩ : TestIterator cat false)) = ⟨⟨p, cur⟩⟩ := rfl
    have e1 : eq (⟨⟨p, cur⟩⟩ : TestIterator cat false) (⟨⟨p, cur⟩⟩ : TestIterator cat true)
        = true := by
      rw [eq_unfold]
      show (if iterator_state.is_connected _ then
        (iterator_state.is_connected _ && iterator_state.is_equal _ _)
        else !iterator_state.is_connected _) = true
      cases p <;> simp [iterator_state.is_connected, iterator_state.is_equal]
    have e2 : eq (⟨⟨p, cur⟩⟩ : TestIterator cat true) (⟨⟨p, cur⟩⟩ : TestIterator cat false)
        = true := by
      rw [eq_unfold]
      show (if iterator_state.is_connected _ then
        (iterator_state.is_connected _ && iterator_state.is_equal _ _)
        else !iterator_state.is_connected _) = true
      cases p <;> simp [iterator_state.is_connected, iterator_state.is_equal]
    rw [hc, ne_unfold, ne_unfold, e1, e2]
    refine ⟨rfl, rfl, rfl, rfl, rfl, ?_⟩
    intro r it hd
    simp only [deref, instTestState, iterator_state.base_ops, iterator_state.get] at hd ⊢
    cases hv : cur.deref mem with
    | none => simp [hv] at hd
    | some r1 =>
      simp only [hv, Option.some.injEq, Prod.mk.injEq] at hd ⊢
      exact ⟨hd.1, trivial⟩
  · intro m mem
    obtain ⟨⟨p, cur⟩⟩ := m
    have hc : (cast_to_const (⟨⟨p, cur⟩⟩ : SampleContainer.Iterator false)) = ⟨⟨p, cur⟩⟩ := rfl
    have e1 : eq (⟨⟨p, cur⟩⟩ : SampleContainer.Iterator false)
        (⟨⟨p, cur⟩⟩ : SampleContainer.Iterator true) = true := by
      rw [eq_unfold]
      show (if SampleContainer.iterator_state.is_connected _ then
        (SampleContainer.iterator_state.is_connected _
          && SampleContainer.iterator_state.is_equal _ _)
        else !SampleContainer.iterator_state.is_connected _) = true
      cases p <;> simp [SampleContainer.iterator_state.is_connected,
        SampleContainer.iterator_state.is_equal]
    have e2 : eq (⟨⟨p, cur⟩⟩ : SampleContainer.Iterator true)
        (⟨⟨p, cur⟩⟩ : SampleContainer.Iterator false) = true := by
      rw [eq_unfold]
      show (if SampleContainer.iterator_state.is_connected _ then
        (SampleContainer.iterator_state.is_connected _
          && SampleContainer.iterator_state.is_equal _ _)
        else !SampleContainer.iterator_state.is_connected _) = true
      cases p <;> simp [SampleContainer.iterator_state.is_connected,
        SampleContainer.iterator_state.is_equal]
    rw [hc, ne_unfold, ne_unfold, e1, e2]
    refine ⟨rfl, rfl, rfl, rfl, rfl, ?_⟩
    intro r it hd
    simp only [deref, SampleContainer.instSampleState, SampleContainer.iterator_state.get]
      at hd ⊢
    cases p with
    | none => simp at hd
    | some a =>
      cases hm : mem a with
      | none => simp [hm] at hd
      | some C =>
        simp only [hm] at hd ⊢
        by_cases hr : 0 ≤ cur ∧ cur < C.elements_.length
        · simp only [hr, and_self, if_true, Option.some.injEq, Prod.mk.injEq] at hd ⊢
          exact ⟨hd.1, trivial⟩
        · simp [hr] at hd

/-- Witness of C5: the changeable iterator at index `2` of the test container at address
`1`, and the one at position `0` of the sample container at address `2`. -/
theorem C5_const_conversion_witness :
    deref (cast_to_const (⟨⟨some 1, ⟨some 1, 2⟩⟩⟩ : RandomAccessIterator false)) test_mem
      = some (⟨1, 2⟩, cast_to_const ⟨⟨some 1, ⟨some 1, 2⟩⟩⟩) ∧
    deref (cast_to_const (⟨⟨some 2, 0⟩⟩ : SampleContainer.Iterator false)) sample_mem
      = some (⟨2, 0⟩, cast_to_const ⟨⟨some 2, 0⟩⟩) :=
  ⟨(C5_const_conversion.1 .random_access_iterator_tag ⟨⟨some 1, ⟨some 1, 2⟩⟩⟩ test_mem).2.2.2.2.2
      ⟨1, 2⟩ ⟨⟨some 1, ⟨some 1, 2⟩⟩⟩ rfl,
   (C5_const_conversion.2 ⟨⟨some 2, 0⟩⟩ sample_mem).2.2.2.2.2 ⟨2, 0⟩ ⟨⟨some 2, 0⟩⟩ rfl⟩


/-! ## Random access -/

/-- A value within the range of `std::ptrdiff_t` is not changed by the reduction. -/
theorem wrap_ptrdiff_of_range (x : Int) (h1 : PTRDIFF_MIN ≤ x) (h2 : x ≤ PTRDIFF_MAX) :
    wrap_ptrdiff x = x := by
  simp only [PTRDIFF_MIN, PTRDIFF_MAX] at h1 h2
  simp only [wrap_ptrdiff]
  omega

/-- The member `operator+` on a random access test iterator adds to the index. -/
theorem test_add {c : Bool} (p : ContainerPtr) (v : Option Nat) (i n : Int) :
    add (⟨⟨p, ⟨v, i⟩⟩⟩ : RandomAccessIterator c) n = ⟨⟨p, ⟨v, i + n⟩⟩⟩ :=
  rfl

/-- The member `operator-` on a random access test iterator adds the negated offset, the
negation being computed in `ptrdiff_t`. -/
theorem test_sub {c : Bool} (p : ContainerPtr) (v : Option Nat) (i n : Int) :
    sub (⟨⟨p, ⟨v, i⟩⟩⟩ : RandomAccessIterator c) n = ⟨⟨p, ⟨v, i + wrap_ptrdiff (-n)⟩⟩⟩ :=
  rfl

/-- The difference of two random access test iterators is the difference of the indices. -/
theorem test_diff {c : Bool} (a b : RandomAccessIterator c) :
    diff a b = a.iteratorState_.current_.idx - b.iteratorState_.current_.idx := by
  cases c <;> rfl

/-- The relation `<` on random access test iterators compares the indices. -/
theorem test_lt {c : Bool} (a : RandomAccessIterator c) (b : RandomAccessIterator false) :
    lt a b = true ↔ a.iteratorState_.current_.idx < b.iteratorState_.current_.idx := by
  show decide (a.iteratorState_.current_.idx - b.iteratorState_.current_.idx < 0) = true ↔ _
  simp

/-- C6: for a bound random access test iterator `it` and an offset `n` such that `it` and
`it + n` are within `[begin, end]` of the container, `(it + n) - n == it`. -/
theorem C6_add_sub_roundtrip (c : Bool) (it : RandomAccessIterator c) (m : CustomMem)
    (n : Int) (h1 : in_range m it = true) (h2 : in_range m (it.add n) = true) :
    eq ((it.add n).sub n) it = true := by
  obtain ⟨⟨p, ⟨v, i⟩⟩⟩ := it
  rw [test_add] at h2 ⊢
  rw [test_sub]
  obtain ⟨a, C, hp, hC, hv, h0, hl, hmax⟩ := (in_range_iff m p v i).mp h1
  obtain ⟨a1, C1, hp1, hC1, -, h01, hl1, -⟩ := (in_range_iff m p v (i + n)).mp h2
  subst hp
  cases hp1
  rw [hC] at hC1
  cases hC1
  rw [test_eq_iff _ _ (by rfl) (by rfl)]
  have hw : wrap_ptrdiff (-n) = -n := by
    apply wrap_ptrdiff_of_range <;> simp only [PTRDIFF_MIN, PTRDIFF_MAX] at * <;> omega
  simp only [hw, vector_iterator.mk.injEq, true_and]
  omega

/-- Witness of C6: the iterator at index `5` of the test container `{1,..,8}` and the
offset `-3`. -/
theorem C6_add_sub_roundtrip_witness :
    eq (((⟨⟨some 1, ⟨some 1, 5⟩⟩⟩ : RandomAccessIterator false).add (-3)).sub (-3))
      (⟨⟨some 1, ⟨some 1, 5⟩⟩⟩ : RandomAccessIterator false) = true :=
  C6_add_sub_roundtrip false ⟨⟨some 1, ⟨some 1, 5⟩⟩⟩ test_mem (-3) (by decide) (by decide)

/-- C7: for bound random access test iterators over one container the difference `a - b` is
the signed number of increments from `b` to `a`: `(it + n) - it == n` for every offset `n`
that keeps `it + n` within `[begin, end]`, and when `a - b == n >= 0`, incrementing `b`
exactly `n` times gives an iterator equal to `a`. -/
theorem C7_difference_counts_increments (c : Bool) (m : CustomMem) :
    (∀ (it : RandomAccessIterator c) (n : Int), in_range m it = true →
      in_range m (it.add n) = true → diff (it.add n) it = n) ∧
    (∀ (a b : RandomAccessIterator c) (n : Int), in_range m a = true → in_range m b = true →
      a.iteratorState_.container_ = b.iteratorState_.container_ → diff a b = n → 0 ≤ n →
      eq (increments n.toNat b) a = true) := by
  constructor
  · intro it n _ _
    obtain ⟨⟨p, ⟨v, i⟩⟩⟩ := it
    rw [test_add, test_diff]
    show i + n - i = n
    omega
  · intro a b n ha hb hab hd hn
    obtain ⟨⟨p, ⟨v, i⟩⟩⟩ := a
    obtain ⟨⟨q, ⟨w, j⟩⟩⟩ := b
    obtain ⟨a1, C1, hp, hC1, hv, -⟩ := (in_range_iff m p v i).mp ha
    obtain ⟨a2, C2, hq, hC2, hw, -⟩ := (in_range_iff m q w j).mp hb
    rw [test_diff] at hd
    simp only at hd hab
    subst hp hq
    cases hab
    rw [hC1] at hC2
    cases hC2
    subst hv hw
    rw [test_increments, test_eq_iff _ _ (by rfl) (by rfl)]
    simp only [vector_iterator.mk.injEq, true_and]
    rw [Int.toNat_of_nonneg hn]
    omega

/-- Witness of C7: in the test container `{1,..,8}`, index `2` moved by `3`, and the
iterators at the indices `5` and `2`. -/
theorem C7_difference_counts_increments_witness :
    diff ((⟨⟨some 1, ⟨some 1, 2⟩⟩⟩ : RandomAccessIterator false).add 3)
      ⟨⟨some 1, ⟨some 1, 2⟩⟩⟩ = 3 ∧
    eq (increments (3 : Int).toNat (⟨⟨some 1, ⟨some 1, 2⟩⟩⟩ : RandomAccessIterator false))
      (⟨⟨some 1, ⟨some 1, 5⟩⟩⟩ : RandomAccessIterator false) = true :=
  ⟨(C7_difference_counts_increments false test_mem).1 ⟨⟨some 1, ⟨some 1, 2⟩⟩⟩ 3
      (by decide) (by decide),
   (C7_difference_counts_increments false test_mem).2 ⟨⟨some 1, ⟨some 1, 5⟩⟩⟩
      ⟨⟨some 1, ⟨some 1, 2⟩⟩⟩ 3 (by decide) (by decide) rfl rfl (by decide)⟩

/-- C8: for a random access test iterator `it` of either variant and an offset `n` such that
`it + n` can be dereferenced, `it[n]` is the element `*(it + n)` is, and evaluating `it[n]`
leaves `it` as it was. -/
theorem C8_index_is_deref_of_sum (c : Bool) (it : RandomAccessIterator c) (n : Int)
    (m : CustomMem) (r : ElementRef) (it1 : RandomAccessIterator c)
    (h : deref (it.add n) m = some (r, it1)) :
    index it n m = some (r, it) := by
  obtain ⟨⟨p, ⟨v, i⟩⟩⟩ := it
  rw [test_add] at h
  simp only [deref, instTestState, iterator_state.base_ops, iterator_state.get] at h
  simp only [index, instRandomAccessState, iterator_state.random_access_ops,
    iterator_state.at_]
  cases hv : (vector_iterator.mk v (i + n)).deref m with
  | none => simp [hv] at h
  | some r1 =>
    simp only [hv, Option.some.injEq, Prod.mk.injEq] at h ⊢
    exact ⟨h.1, trivial⟩

/-- Witness of C8: the const iterator at index `3` of the test container `{1,..,8}` and the
offset `-2`. -/
theorem C8_index_is_deref_of_sum_witness :
    index (⟨⟨some 1, ⟨some 1, 3⟩⟩⟩ : RandomAccessIterator true) (-2) test_mem
      = some (⟨1, 1⟩, ⟨⟨some 1, ⟨some 1, 3⟩⟩⟩) :=
  C8_index_is_deref_of_sum true ⟨⟨some 1, ⟨some 1, 3⟩⟩⟩ (-2) test_mem ⟨1, 1⟩
    ⟨⟨some 1, ⟨some 1, 1⟩⟩⟩ rfl

/-- C9: on bound random access test iterators over one container, with positions within
`[begin, end]`, `operator<` is a strict total order: irreflexive, transitive, and of
`a < b`, `a == b`, `b < a` exactly one holds.  (`operator<` takes a changeable right operand,
so the iterators are changeable ones.) -/
theorem C9_lt_strict_total_order (m : CustomMem) (a b c : RandomAccessIterator false)
    (ha : in_range m a = true) (hb : in_range m b = true) (hc : in_range m c = true)
    (hab : a.iteratorState_.container_ = b.iteratorState_.container_)
    (hbc : b.iteratorState_.container_ = c.iteratorState_.container_) :
    lt a a = false ∧
    (lt a b = true → lt b c = true → lt a c = true) ∧
    (lt a b = true ∨ eq a b = true ∨ lt b a = true) ∧
    ¬ (lt a b = true ∧ eq a b = true) ∧
    ¬ (lt a b = true ∧ lt b a = true) ∧
    ¬ (eq a b = true ∧ lt b a = true) := by
  obtain ⟨⟨p, ⟨v, i⟩⟩⟩ := a
  obtain ⟨⟨q, ⟨w, j⟩⟩⟩ := b
  obtain ⟨⟨s, ⟨x, k⟩⟩⟩ := c
  obtain ⟨a1, C1, hp, hC1, hv, -⟩ := (in_range_iff m p v i).mp ha
  obtain ⟨a2, C2, hq, hC2, hw, -⟩ := (in_range_iff m q w j).mp hb
  simp only at hab hbc
  subst hp hq
  cases hab
  rw [hC1] at hC2
  cases hC2
  subst hv hw
  rw [Bool.eq_false_iff, Ne, test_lt, test_lt, test_lt, test_lt, test_lt,
    test_eq_iff _ _ (by rfl) (by rfl)]
  simp only [vector_iterator.mk.injEq, true_and]
  omega

/-- Witness of C9: the iterators at the indices `2`, `5` and `7` of the test container
`{1,..,8}`. -/
theorem C9_lt_strict_total_order_witness :
    lt (⟨⟨some 1, ⟨some 1, 2⟩⟩⟩ : RandomAccessIterator false)
      (⟨⟨some 1, ⟨some 1, 2⟩⟩⟩ : RandomAccessIterator false) = false ∧
    (lt (⟨⟨some 1, ⟨some 1, 2⟩⟩⟩ : RandomAccessIterator false)
      (⟨⟨some 1, ⟨some 1, 5⟩⟩⟩ : RandomAccessIterator false) = true →
     lt (⟨⟨some 1, ⟨some 1, 5⟩⟩⟩ : RandomAccessIterator false)
      (⟨⟨some 1, ⟨some 1, 7⟩⟩⟩ : RandomAccessIterator false) = true →
     lt (⟨⟨some 1, ⟨some 1, 2⟩⟩⟩ : RandomAccessIterator false)
      (⟨⟨some 1, ⟨some 1, 7⟩⟩⟩ : RandomAccessIterator false) = true) :=
  ⟨(C9_lt_strict_total_order test_mem ⟨⟨some 1, ⟨some 1, 2⟩⟩⟩ ⟨⟨some 1, ⟨some 1, 5⟩⟩⟩
      ⟨⟨some 1, ⟨some 1, 7⟩⟩⟩ (by decide) (by decide) (by decide) rfl rfl).1,
   (C9_lt_strict_total_order test_mem ⟨⟨some 1, ⟨some 1, 2⟩⟩⟩ ⟨⟨some 1, ⟨some 1, 5⟩⟩⟩
      ⟨⟨some 1, ⟨some 1, 7⟩⟩⟩ (by decide) (by decide) (by decide) rfl rfl).2.1⟩

/-- C10: for a live random access test container and offsets `m`, `n` between `0` and its
size, `begin() + m < begin() + n` holds if and only if `m < n` (the left operand of either
variant, the right one changeable). -/
theorem C10_lt_follows_offsets (c : Bool) (mem : CustomMem) (a : Nat)
    (C : CustomContainerBase) (h : mem a = some C) :
    ∃ l mem1 r mem2,
      begin (S := iterator_state .random_access_iterator_tag) c (some a) mem
        = some (l, mem1) ∧
      begin (S := iterator_state .random_access_iterator_tag) false (some a) mem1
        = some (r, mem2) ∧
      ∀ m n : Int, 0 ≤ m → m ≤ C.InternalData.length → 0 ≤ n → n ≤ C.InternalData.length →
        (lt (l.add m) (r.add n) = true ↔ m < n) := by
  refine ⟨_, _, _, _, test_begin_eq _ c mem a C h,
    test_begin_eq _ false _ a _ (update_same mem a _), ?_⟩
  intro m n _ _ _ _
  rw [test_add, test_add, test_lt]
  show 0 + m < 0 + n ↔ m < n
  omega

/-- Witness of C10: the test container `{1,..,8}` at address `1`. -/
theorem C10_lt_follows_offsets_witness :
    ∃ l mem1 r mem2,
      begin (S := iterator_state .random_access_iterator_tag) false (some 1) test_mem
        = some (l, mem1) ∧
      begin (S := iterator_state .random_access_iterator_tag) false (some 1) mem1
        = some (r, mem2) ∧
      ∀ m n : Int, 0 ≤ m →
        m ≤ (CustomContainerBase.of_values [1, 2, 3, 4, 5, 6, 7, 8]).InternalData.length →
        0 ≤ n →
        n ≤ (CustomContainerBase.of_values [1, 2, 3, 4, 5, 6, 7, 8]).InternalData.length →
        (lt (l.add m) (r.add n) = true ↔ m < n) :=
  C10_lt_follows_offsets false test_mem 1 _ rfl


/-! ## Ordering relations -/

/-- C11: for changeable random access test iterators `a`, `b` over one container, within
`[begin, end]`, the four relations are decided by the sign of the difference and agree with
each other: `a < b` iff `a - b < 0`, `a <= b` iff `a - b <= 0`, `a > b` iff `b < a`,
`a >= b` iff `b <= a`, `a <= b` iff not `b < a`, and `a <= a`, `a >= a`. -/
theorem C11_relations_by_sign_of_difference (m : CustomMem)
    (a b : RandomAccessIterator false) (ha : in_range m a = true)
    (hb : in_range m b = true)
    (hab : a.iteratorState_.container_ = b.iteratorState_.container_) :
    (lt a b = true ↔ diff a b < 0) ∧
    (le a b = true ↔ diff a b ≤ 0) ∧
    (gt a b = true ↔ lt b a = true) ∧
    (ge a b = true ↔ le b a = true) ∧
    (le a b = true ↔ ¬ (lt b a = true)) ∧
    le a a = true ∧ ge a a = true := by
  have hlt : ∀ x y : RandomAccessIterator false, lt x y = decide (diff x y < 0) :=
    fun _ _ => rfl
  have hle : ∀ x y : RandomAccessIterator false, le x y = decide (diff x y ≤ 0) :=
    fun _ _ => rfl
  have hgt : ∀ x y : RandomAccessIterator false, gt x y = decide (diff x y > 0) :=
    fun _ _ => rfl
  have hge : ∀ x y : RandomAccessIterator false, ge x y = decide (diff x y ≥ 0) :=
    fun _ _ => rfl
  obtain ⟨⟨p, ⟨v, i⟩⟩⟩ := a
  obtain ⟨⟨q, ⟨w, j⟩⟩⟩ := b
  simp only [hlt, hle, hgt, hge, test_diff, decide_eq_true_eq]
  refine ⟨trivial, trivial, ?_, ?_, ?_, ?_, ?_⟩ <;> omega

/-- Witness of C11: the iterators at the indices `2` and `5` of the test container
`{1,..,8}`. -/
theorem C11_relations_by_sign_of_difference_witness :
    (lt (⟨⟨some 1, ⟨some 1, 2⟩⟩⟩ : RandomAccessIterator false)
        (⟨⟨some 1, ⟨some 1, 5⟩⟩⟩ : RandomAccessIterator false) = true ↔
      diff (⟨⟨some 1, ⟨some 1, 2⟩⟩⟩ : RandomAccessIterator false) ⟨⟨some 1, ⟨some 1, 5⟩⟩⟩ < 0) ∧
    (le (⟨⟨some 1, ⟨some 1, 2⟩⟩⟩ : RandomAccessIterator false)
        (⟨⟨some 1, ⟨some 1, 5⟩⟩⟩ : RandomAccessIterator false) = true ↔
      diff (⟨⟨some 1, ⟨some 1, 2⟩⟩⟩ : RandomAccessIterator false) ⟨⟨some 1, ⟨some 1, 5⟩⟩⟩ ≤ 0) :=
  ⟨(C11_relations_by_sign_of_difference test_mem ⟨⟨some 1, ⟨some 1, 2⟩⟩⟩
      ⟨⟨some 1, ⟨some 1, 5⟩⟩⟩ (by decide) (by decide) rfl).1,
   (C11_relations_by_sign_of_difference test_mem ⟨⟨some 1, ⟨some 1, 2⟩⟩⟩
      ⟨⟨some 1, ⟨some 1, 5⟩⟩⟩ (by decide) (by decide) rfl).2.1⟩

/-! ## Construction -/

/-- C12: a default-constructed iterator of a test container of any category, or of the
sample container, of either variant, is unbound: `is_connected()` is `false`. -/
theorem C12_default_constructed_unbound :
    (∀ (cat : Category) (c : Bool),
      (default_constructed (S := iterator_state cat) c).is_connected = false) ∧
    (∀ c : Bool,
      (default_constructed (S := SampleContainer.iterator_state) c).is_connected = false) :=
  ⟨fun _ _ => rfl, fun _ => rfl⟩

/-- C13: for every live test container (any category) and every live sample container the
iterators the factories `begin` and `end` produce, of either variant, are bound:
`is_connected()` is `true`, and neither is equal to a default-constructed iterator of either
variant, on either side of `==`. -/
theorem C13_factories_produce_bound :
    (∀ (cat : Category) (c : Bool) (m : CustomMem) (a : Nat) (C : CustomContainerBase),
      m a = some C →
      ∃ b m1 e m2, begin (S := iterator_state cat) c (some a) m = some (b, m1) ∧
        end_ (S := iterator_state cat) c (some a) m1 = some (e, m2) ∧
        b.is_connected = true ∧ e.is_connected = true ∧
        ∀ d : Bool, eq b (default_constructed (S := iterator_state cat) d) = false ∧
          eq (default_constructed (S := iterator_state cat) d) b = false ∧
          eq e (default_constructed (S := iterator_state cat) d) = false ∧
          eq (default_constructed (S := iterator_state cat) d) e = false) ∧
    (∀ (c : Bool) (m : SampleMem) (a : Nat) (C : SampleContainer),
      m a = some C →
      ∃ b m1 e m2, begin (S := SampleContainer.iterator_state) c (some a) m = some (b, m1) ∧
        end_ (S := SampleContainer.iterator_state) c (some a) m1 = some (e, m2) ∧
        b.is_connected = true ∧ e.is_connected = true ∧
        ∀ d : Bool, eq b (default_constructed (S := SampleContainer.iterator_state) d) = false ∧
          eq (default_constructed (S := SampleContainer.iterator_state) d) b = false ∧
          eq e (default_constructed (S := SampleContainer.iterator_state) d) = false ∧
          eq (default_constructed (S := SampleContainer.iterator_state) d) e = false) := by
  constructor
  · intro cat c m a C h
    refine ⟨_, _, _, _, test_begin_eq cat c m a C h,
      test_end_eq cat c _ a _ (update_same m a _), rfl, rfl, fun d => ?_⟩
    simp only [eq_unfold]
    exact ⟨rfl, rfl, rfl, rfl⟩
  · intro c m a C h
    refine ⟨_, _, _, _, sample_begin_eq c m (some a), sample_end_eq c m a C h, rfl, rfl,
      fun d => ?_⟩
    simp only [eq_unfold]
    exact ⟨rfl, rfl, rfl, rfl⟩

/-- Witness of C13: the test container `{1,2}` at address `3` and the sample container at
address `2`. -/
theorem C13_factories_produce_bound_witness :
    (∃ b m1 e m2,
      begin (S := iterator_state .forward_iterator_tag) false (some 3) test_mem
        = some (b, m1) ∧
      end_ (S := iterator_state .forward_iterator_tag) false (some 3) m1 = some (e, m2) ∧
      b.is_connected = true ∧ e.is_connected = true ∧
      ∀ d : Bool,
        eq b (default_constructed (S := iterator_state .forward_iterator_tag) d) = false ∧
        eq (default_constructed (S := iterator_state .forward_iterator_tag) d) b = false ∧
        eq e (default_constructed (S := iterator_state .forward_iterator_tag) d) = false ∧
        eq (default_constructed (S := iterator_state .forward_iterator_tag) d) e = false) ∧
    (∃ b m1 e m2,
      begin (S := SampleContainer.iterator_state) true (some 2) sample_mem = some (b, m1) ∧
      end_ (S := SampleContainer.iterator_state) true (some 2) m1 = some (e, m2) ∧
      b.is_connected = true ∧ e.is_connected = true ∧
      ∀ d : Bool,
        eq b (default_constructed (S := SampleContainer.iterator_state) d) = false ∧
        eq (default_constructed (S := SampleContainer.iterator_state) d) b = false ∧
        eq e (default_constructed (S := SampleContainer.iterator_state) d) = false ∧
        eq (default_constructed (S := SampleContainer.iterator_state) d) e = false) :=
  ⟨C13_factories_produce_bound.1 .forward_iterator_tag false test_mem 3 _ rfl,
   C13_factories_produce_bound.2 true sample_mem 2 _ rfl⟩


/-! ## Multi-pass and single steps -/

/-- The pre-increment of a test iterator adds one to the index. -/
theorem test_pre_increment {cat : Category} {c : Bool} (p : ContainerPtr) (v : Option Nat)
    (i : Int) :
    pre_increment (⟨⟨p, ⟨v, i⟩⟩⟩ : TestIterator cat c) = ⟨⟨p, ⟨v, i + 1⟩⟩⟩ :=
  rfl

/-- Equality of two test iterators, bound or not, written out. -/
theorem test_eq_unfold {cat : Category} {c d : Bool} (a : TestIterator cat c)
    (b : TestIterator cat d) :
    eq a b = if a.iteratorState_.container_ != none then
        (b.iteratorState_.container_ != none
          && a.iteratorState_.current_ == b.iteratorState_.current_)
      else !(b.iteratorState_.container_ != none) := by
  rw [eq_unfold]
  rfl

/-- C14: two independently obtained `begin()` iterators of a live test container (of the
forward, bidirectional or random access category, and of either variant each) compare equal,
also after each has been incremented once; and any two equal test iterators are still equal
after each has been incremented once. -/
theorem C14_multipass (cat : Category)
    (_hcat : cat = .forward_iterator_tag ∨ cat = .bidirectional_iterator_tag
      ∨ cat = .random_access_iterator_tag) (c d : Bool) :
    (∀ (m : CustomMem) (a : Nat) (C : CustomContainerBase), m a = some C →
      ∃ b1 m1 b2 m2, begin (S := iterator_state cat) c (some a) m = some (b1, m1) ∧
        begin (S := iterator_state cat) d (some a) m1 = some (b2, m2) ∧
        eq b1 b2 = true ∧ eq (pre_increment b1) (pre_increment b2) = true) ∧
    (∀ (x : TestIterator cat c) (y : TestIterator cat d), eq x y = true →
      eq (pre_increment x) (pre_increment y) = true) := by
  have hstep : ∀ (x : TestIterator cat c) (y : TestIterator cat d), eq x y = true →
      eq (pre_increment x) (pre_increment y) = true := by
    intro x y hxy
    obtain ⟨⟨p, ⟨v, i⟩⟩⟩ := x
    obtain ⟨⟨q, ⟨w, j⟩⟩⟩ := y
    rw [test_pre_increment, test_pre_increment, test_eq_unfold]
    rw [test_eq_unfold] at hxy
    cases p <;> cases q <;> simp_all
  refine ⟨fun m a C h => ?_, hstep⟩
  have hb : eq (⟨⟨some a, ⟨vector_storage a C.InternalData, 0⟩⟩⟩ : TestIterator cat c)
      (⟨⟨some a, ⟨vector_storage a C.InternalData, 0⟩⟩⟩ : TestIterator cat d) = true := by
    rw [test_eq_iff _ _ (by rfl) (by rfl)]
  exact ⟨_, _, _, _, test_begin_eq cat c m a C h,
    test_begin_eq cat d _ a _ (update_same m a _), hb, hstep _ _ hb⟩

/-- Witness of C14: the forward test container `{1,2}` at address `3`. -/
theorem C14_multipass_witness :
    (∃ b1 m1 b2 m2,
      begin (S := iterator_state .forward_iterator_tag) false (some 3) test_mem
        = some (b1, m1) ∧
      begin (S := iterator_state .forward_iterator_tag) false (some 3) m1
        = some (b2, m2) ∧
      eq b1 b2 = true ∧ eq (pre_increment b1) (pre_increment b2) = true) ∧
    eq (pre_increment (⟨⟨some 3, ⟨some 3, 1⟩⟩⟩ : TestIterator .forward_iterator_tag false))
      (pre_increment (⟨⟨some 3, ⟨some 3, 1⟩⟩⟩ : TestIterator .forward_iterator_tag false))
      = true :=
  ⟨(C14_multipass .forward_iterator_tag (Or.inl rfl) false false).1 test_mem 3 _ rfl,
   (C14_multipass .forward_iterator_tag (Or.inl rfl) false false).2
      ⟨⟨some 3, ⟨some 3, 1⟩⟩⟩ ⟨⟨some 3, ⟨some 3, 1⟩⟩⟩ rfl⟩

/-- C15: for a test iterator `it` (any category, either variant) positioned at the element
`e_k` of a live container, with a successor `e_(k+1)`: `it++` returns an iterator equal to
the former `it`, dereferencing to `e_k`; `++it` returns the advanced iterator, dereferencing
to `e_(k+1)`; and both leave `it` at the same position, one further. -/
theorem C15_increment_results (cat : Category) (c : Bool) (it : TestIterator cat c)
    (m : CustomMem) (a : Nat) (C : CustomContainerBase) (k : Nat) (hm : m a = some C)
    (hpos : it.iteratorState_.current_ = ⟨some a, k⟩)
    (hk : k + 1 < C.InternalData.length) :
    eq (post_increment it).1 it = true ∧
    deref (post_increment it).1 m = some (⟨a, k⟩, (post_increment it).1) ∧
    IteratorState.load (iterator_state cat) m ⟨a, k⟩
      = some (C.InternalData.get ⟨k, Nat.lt_of_succ_lt hk⟩) ∧
    (post_increment it).2 = pre_increment it ∧
    (pre_increment it).iteratorState_.current_ = ⟨some a, k + 1⟩ ∧
    deref (pre_increment it) m = some (⟨a, k + 1⟩, pre_increment it) ∧
    IteratorState.load (iterator_state cat) m ⟨a, k + 1⟩
      = some (C.InternalData.get ⟨k + 1, hk⟩) := by
  obtain ⟨⟨p, cur⟩⟩ := it
  simp only at hpos
  subst hpos
  have hpost : (post_increment (⟨⟨p, ⟨some a, k⟩⟩⟩ : TestIterator cat c)).1
      = ⟨⟨p, ⟨some a, k⟩⟩⟩ := rfl
  have hpre : pre_increment (⟨⟨p, ⟨some a, (k : Int)⟩⟩⟩ : TestIterator cat c)
      = ⟨⟨p, ⟨some a, ((k + 1 : Nat) : Int)⟩⟩⟩ := rfl
  have hpost2 : (post_increment (⟨⟨p, ⟨some a, (k : Int)⟩⟩⟩ : TestIterator cat c)).2
      = ⟨⟨p, ⟨some a, ((k + 1 : Nat) : Int)⟩⟩⟩ := rfl
  rw [hpost, hpre, hpost2]
  refine ⟨?_, test_deref m a C hm p k (Nat.lt_of_succ_lt hk),
    test_load m a C hm k (Nat.lt_of_succ_lt hk), rfl, ?_,
    test_deref m a C hm p (k + 1) hk, test_load m a C hm (k + 1) hk⟩
  · rw [test_eq_unfold]
    cases p <;> simp
  · simp

/-- Witness of C15: the iterator at the element `1` of the test container `{1,2,3,..,8}` at
address `1`. -/
theorem C15_increment_results_witness :
    eq (post_increment (⟨⟨some 1, ⟨some 1, 1⟩⟩⟩ : TestIterator .input_iterator_tag false)).1
      (⟨⟨some 1, ⟨some 1, 1⟩⟩⟩ : TestIterator .input_iterator_tag false) = true ∧
    deref (post_increment (⟨⟨some 1, ⟨some 1, 1⟩⟩⟩ : TestIterator .input_iterator_tag false)).1
      test_mem = some (⟨1, 1⟩,
        (post_increment (⟨⟨some 1, ⟨some 1, 1⟩⟩⟩ : TestIterator .input_iterator_tag false)).1) ∧
    IteratorState.load (iterator_state .input_iterator_tag) test_mem ⟨1, 1⟩
      = some ⟨2⟩ ∧
    deref (pre_increment (⟨⟨some 1, ⟨some 1, 1⟩⟩⟩ : TestIterator .input_iterator_tag false))
      test_mem = some (⟨1, 2⟩,
        pre_increment (⟨⟨some 1, ⟨some 1, 1⟩⟩⟩ : TestIterator .input_iterator_tag false)) ∧
    IteratorState.load (iterator_state .input_iterator_tag) test_mem ⟨1, 2⟩
      = some ⟨3⟩ :=
  have h := C15_increment_results .input_iterator_tag false ⟨⟨some 1, ⟨some 1, 1⟩⟩⟩ test_mem 1
    (CustomContainerBase.of_values [1, 2, 3, 4, 5, 6, 7, 8]) 1 rfl rfl (by decide)
  ⟨h.1, h.2.1, h.2.2.1, h.2.2.2.2.2.1, h.2.2.2.2.2.2⟩

/-- The pre-decrement of a bidirectional test iterator subtracts one from the index. -/
theorem test_pre_decrement_bidirectional {c : Bool} (p : ContainerPtr) (v : Option Nat)
    (i : Int) :
    pre_decrement (⟨⟨p, ⟨v, i⟩⟩⟩ : TestIterator .bidirectional_iterator_tag c)
      = ⟨⟨p, ⟨v, i - 1⟩⟩⟩ :=
  rfl

/-- The pre-decrement of a random access test iterator subtracts one from the index. -/
theorem test_pre_decrement_random_access {c : Bool} (p : ContainerPtr) (v : Option Nat)
    (i : Int) :
    pre_decrement (⟨⟨p, ⟨v, i⟩⟩⟩ : RandomAccessIterator c) = ⟨⟨p, ⟨v, i - 1⟩⟩⟩ :=
  rfl

/-- A test iterator is equal to itself. -/
theorem test_eq_self {cat : Category} {c : Bool} (it : TestIterator cat c) :
    eq it it = true := by
  rw [test_eq_unfold]
  cases it.iteratorState_.container_ <;> simp

/-- C16: for a bidirectional or random access test iterator `it` (either variant) that can
be dereferenced, `++it` followed by `--it` leaves `it` equal to its original value and
dereferencing to the original element. -/
theorem C16_increment_then_decrement (c : Bool) (m : CustomMem) :
    (∀ (it : TestIterator .bidirectional_iterator_tag c) (r : ElementRef)
        (it1 : TestIterator .bidirectional_iterator_tag c), deref it m = some (r, it1) →
      eq (pre_decrement (pre_increment it)) it = true ∧
      deref (pre_decrement (pre_increment it)) m
        = some (r, pre_decrement (pre_increment it))) ∧
    (∀ (it : RandomAccessIterator c) (r : ElementRef) (it1 : RandomAccessIterator c),
      deref it m = some (r, it1) →
      eq (pre_decrement (pre_increment it)) it = true ∧
      deref (pre_decrement (pre_increment it)) m
        = some (r, pre_decrement (pre_increment it))) := by
  have hderef : ∀ (cat : Category) (it it1 : TestIterator cat c) (r : ElementRef),
      deref it m = some (r, it1) → deref it m = some (r, it) := by
    intro cat it it1 r h
    simp only [deref, instTestState, iterator_state.base_ops, iterator_state.get] at h ⊢
    cases hv : it.iteratorState_.current_.deref m with
    | none => simp [hv] at h
    | some r1 =>
      simp only [hv, Option.some.injEq, Prod.mk.injEq] at h ⊢
      exact ⟨h.1, trivial⟩
  constructor
  · intro it r it1 h
    obtain ⟨⟨p, ⟨v, i⟩⟩⟩ := it
    have hback : pre_decrement (pre_increment
        (⟨⟨p, ⟨v, i⟩⟩⟩ : TestIterator .bidirectional_iterator_tag c)) = ⟨⟨p, ⟨v, i⟩⟩⟩ := by
      rw [test_pre_increment, test_pre_decrement_bidirectional, Int.add_sub_cancel]
    rw [hback]
    exact ⟨test_eq_self _, hderef _ _ _ _ h⟩
  · intro it r it1 h
    obtain ⟨⟨p, ⟨v, i⟩⟩⟩ := it
    have hback : pre_decrement (pre_increment
        (⟨⟨p, ⟨v, i⟩⟩⟩ : RandomAccessIterator c)) = ⟨⟨p, ⟨v, i⟩⟩⟩ := by
      rw [test_pre_increment, test_pre_decrement_random_access, Int.add_sub_cancel]
    rw [hback]
    exact ⟨test_eq_self _, hderef _ _ _ _ h⟩

/-- Witness of C16: the iterators at the element `0` of the test container `{1,2}` at
address `3`. -/
theorem C16_increment_then_decrement_witness :
    (eq (pre_decrement (pre_increment
        (⟨⟨some 3, ⟨some 3, 0⟩⟩⟩ : TestIterator .bidirectional_iterator_tag false)))
      (⟨⟨some 3, ⟨some 3, 0⟩⟩⟩ : TestIterator .bidirectional_iterator_tag false) = true ∧
     deref (pre_decrement (pre_increment
        (⟨⟨some 3, ⟨some 3, 0⟩⟩⟩ : TestIterator .bidirectional_iterator_tag false))) test_mem
      = some (⟨3, 0⟩, pre_decrement (pre_increment ⟨⟨some 3, ⟨some 3, 0⟩⟩⟩))) ∧
    (eq (pre_decrement (pre_increment (⟨⟨some 3, ⟨some 3, 0⟩⟩⟩ : RandomAccessIterator true)))
      (⟨⟨some 3, ⟨some 3, 0⟩⟩⟩ : RandomAccessIterator true) = true ∧
     deref (pre_decrement (pre_increment
        (⟨⟨some 3, ⟨some 3, 0⟩⟩⟩ : RandomAccessIterator true))) test_mem
      = some (⟨3, 0⟩, pre_decrement (pre_increment ⟨⟨some 3, ⟨some 3, 0⟩⟩⟩))) :=
  ⟨(C16_increment_then_decrement false test_mem).1 ⟨⟨some 3, ⟨some 3, 0⟩⟩⟩ ⟨3, 0⟩
      ⟨⟨some 3, ⟨some 3, 0⟩⟩⟩ rfl,
   (C16_increment_then_decrement true test_mem).2 ⟨⟨some 3, ⟨some 3, 0⟩⟩⟩ ⟨3, 0⟩
      ⟨⟨some 3, ⟨some 3, 0⟩⟩⟩ rfl⟩


/-! ## Reverse iteration over the test containers -/

/-- The dereference of a reverse iterator over a live test container that can move back,
with base index `j + 1`, is the element `j`. -/
theorem test_reverse_deref (cat : Category) (c : Bool) (p : ContainerPtr) (m : CustomMem)
    (a : Nat) (C : CustomContainerBase) (h : m a = some C) (j : Nat)
    (hj : j < C.InternalData.length) :
    @reverse_iterator.deref (iterator_state cat) CustomMem ElementRef CustomElement
        (iterator_state.bidirectional_ops cat) c ⟨⟨⟨p, ⟨some a, ((j + 1 : Nat) : Int)⟩⟩⟩⟩ m
      = some ⟨a, j⟩ := by
  have hd : @pre_decrement (iterator_state cat) CustomMem ElementRef CustomElement
      (iterator_state.bidirectional_ops cat) c
      (copy_constructed (⟨⟨p, ⟨some a, ((j + 1 : Nat) : Int)⟩⟩⟩ : TestIterator cat c))
      = ⟨⟨p, ⟨some a, ((j + 1 : Nat) : Int) - 1⟩⟩⟩ := rfl
  have e : ((j + 1 : Nat) : Int) - 1 = (j : Int) := by push_cast; omega
  unfold reverse_iterator.deref
  simp only
  rw [hd, e, test_deref m a C h p j hj]

/-- The pre-increment of a reverse iterator over a test container that can move back
subtracts one from the index of its base. -/
theorem test_reverse_pre_increment (cat : Category) (c : Bool) (p : ContainerPtr)
    (v : Option Nat) (i : Int) :
    @reverse_iterator.pre_increment (iterator_state cat) CustomMem ElementRef CustomElement
        (iterator_state.bidirectional_ops cat) c ⟨⟨⟨p, ⟨v, i⟩⟩⟩⟩
      = ⟨⟨⟨p, ⟨v, i - 1⟩⟩⟩⟩ :=
  rfl

/-- Reverse iterators over a test container are compared by their bases. -/
theorem test_reverse_eq (cat : Category) (c d : Bool) (x : TestIterator cat c)
    (y : TestIterator cat d) :
    reverse_iterator.eq (⟨x⟩ : reverse_iterator (iterator_state cat) c) ⟨y⟩ = eq x y :=
  rfl

/-- Reverse iterators over a test container are distinguished by their bases. -/
theorem test_reverse_ne (cat : Category) (c d : Bool) (x : TestIterator cat c)
    (y : TestIterator cat d) :
    reverse_iterator.ne (⟨x⟩ : reverse_iterator (iterator_state cat) c) ⟨y⟩ = !eq x y := by
  rw [← ne_unfold]
  rfl

/-- The reverse loop over a live test container that can move back, from the reverse
iterator with base index `j` to the one with base index `0`, collects the elements below
`j` from the last to the first, provided the fuel exceeds `j`. -/
theorem test_reverse_for_loop (cat : Category) (c d : Bool) (m : CustomMem) (a : Nat)
    (C : CustomContainerBase) (h : m a = some C) (fuel : Nat) :
    ∀ (j : Nat) (content : List CustomElement), j ≤ C.InternalData.length → j < fuel →
      @reverse_for_loop (iterator_state cat) CustomMem ElementRef CustomElement
        (iterator_state.bidirectional_ops cat) c d m fuel
        ⟨⟨⟨some a, ⟨some a, j⟩⟩⟩⟩ ⟨⟨⟨some a, ⟨some a, 0⟩⟩⟩⟩ content
        = some (content ++ (C.InternalData.take j).reverse) := by
  induction fuel with
  | zero => intro j content _ hf; omega
  | succ fuel ih =>
    intro j content hj hf
    unfold reverse_for_loop
    rw [test_reverse_ne]
    cases j with
    | zero =>
      have heq : eq (⟨⟨some a, ⟨some a, ((0 : Nat) : Int)⟩⟩⟩ : TestIterator cat c)
          (⟨⟨some a, ⟨some a, 0⟩⟩⟩ : TestIterator cat d) = true := by
        rw [test_eq_iff _ _ (by rfl) (by rfl)]
        simp
      rw [heq]
      simp
    | succ j =>
      have hne : eq (⟨⟨some a, ⟨some a, ((j + 1 : Nat) : Int)⟩⟩⟩ : TestIterator cat c)
          (⟨⟨some a, ⟨some a, 0⟩⟩⟩ : TestIterator cat d) = false := by
        rw [Bool.eq_false_iff, Ne, test_eq_iff _ _ (by rfl) (by rfl)]
        simp only [vector_iterator.mk.injEq, true_and]
        omega
      have hj1 : j < C.InternalData.length := by omega
      have e : ((j + 1 : Nat) : Int) - 1 = (j : Int) := by push_cast; omega
      rw [hne, test_reverse_deref cat c _ m a C h j hj1, test_reverse_pre_increment, e]
      simp only [Bool.not_false, if_true]
      rw [test_load m a C h j hj1]
      simp only
      rw [ih j _ (by omega) (by omega), List.append_assoc]
      congr 2
      rw [List.take_succ, List.getElem?_eq_getElem hj1, List.reverse_append]
      rfl

/-- The reverse loop runs out of fuel when the fuel does not exceed the base index. -/
theorem test_reverse_for_loop_fuel (cat : Category) (c d : Bool) (m : CustomMem) (a : Nat)
    (C : CustomContainerBase) (h : m a = some C) (fuel : Nat) :
    ∀ (j : Nat) (content : List CustomElement), j ≤ C.InternalData.length → fuel ≤ j →
      @reverse_for_loop (iterator_state cat) CustomMem ElementRef CustomElement
        (iterator_state.bidirectional_ops cat) c d m fuel
        ⟨⟨⟨some a, ⟨some a, j⟩⟩⟩⟩ ⟨⟨⟨some a, ⟨some a, 0⟩⟩⟩⟩ content
        = none := by
  induction fuel with
  | zero => intro j content _ _; rfl
  | succ fuel ih =>
    intro j content hj hf
    unfold reverse_for_loop
    rw [test_reverse_ne]
    cases j with
    | zero => omega
    | succ j =>
      have hne : eq (⟨⟨some a, ⟨some a, ((j + 1 : Nat) : Int)⟩⟩⟩ : TestIterator cat c)
          (⟨⟨some a, ⟨some a, 0⟩⟩⟩ : TestIterator cat d) = false := by
        rw [Bool.eq_false_iff, Ne, test_eq_iff _ _ (by rfl) (by rfl)]
        simp only [vector_iterator.mk.injEq, true_and]
        omega
      have hj1 : j < C.InternalData.length := by omega
      have e : ((j + 1 : Nat) : Int) - 1 = (j : Int) := by push_cast; omega
      rw [hne, test_reverse_deref cat c _ m a C h j hj1, test_reverse_pre_increment, e]
      simp only [Bool.not_false, if_true]
      rw [test_load m a C h j hj1]
      simp only
      rw [ih j _ (by omega) (by omega)]

/-- The member `rbegin()` of a live test container: the base is the `end()` iterator. -/
theorem test_rbegin_eq (cat : Category) (c : Bool) (m : CustomMem) (a : Nat)
    (C : CustomContainerBase) (h : m a = some C) :
    rbegin (S := iterator_state cat) c (some a) m =
      some (⟨⟨⟨some a, ⟨vector_storage a C.InternalData, C.InternalData.length⟩⟩⟩⟩,
        m.update a { C with IteratorConnectCount := wrap_uint (C.IteratorConnectCount + 1) }) := by
  unfold rbegin
  rw [test_end_eq cat c m a C h]
  rfl

/-- The member `rend()` of a live test container: the base is the `begin()` iterator. -/
theorem test_rend_eq (cat : Category) (c : Bool) (m : CustomMem) (a : Nat)
    (C : CustomContainerBase) (h : m a = some C) :
    rend (S := iterator_state cat) c (some a) m =
      some (⟨⟨⟨some a, ⟨vector_storage a C.InternalData, 0⟩⟩⟩⟩,
        m.update a { C with IteratorConnectCount := wrap_uint (C.IteratorConnectCount + 1) }) := by
  unfold rend
  rw [test_begin_eq cat c m a C h]
  rfl

/-- Reverse iteration over a live test container that can move back: the loop from
`rbegin()` to `rend()` collects the elements from the last to the first in exactly `size`
passes, and `rbegin() == rend()` if and only if the container is empty. -/
theorem test_reverse_iteration (cat : Category) (c : Bool) (m : CustomMem) (a : Nat)
    (C : CustomContainerBase) (h : m a = some C) :
    ∃ rb m1 re m2, rbegin (S := iterator_state cat) c (some a) m = some (rb, m1) ∧
      rend (S := iterator_state cat) c (some a) m1 = some (re, m2) ∧
      (∀ fuel : Nat, C.InternalData.length < fuel →
        @reverse_for_loop (iterator_state cat) CustomMem ElementRef CustomElement
          (iterator_state.bidirectional_ops cat) c c m2 fuel rb re []
          = some C.InternalData.reverse) ∧
      (∀ fuel : Nat, fuel ≤ C.InternalData.length →
        @reverse_for_loop (iterator_state cat) CustomMem ElementRef CustomElement
          (iterator_state.bidirectional_ops cat) c c m2 fuel rb re [] = none) ∧
      (reverse_iterator.eq rb re = true ↔ C.InternalData = []) := by
  have h1 := update_same m a
    { C with IteratorConnectCount := wrap_uint (C.IteratorConnectCount + 1) }
  have h2 := update_same
    (m.update a { C with IteratorConnectCount := wrap_uint (C.IteratorConnectCount + 1) }) a
    { C with IteratorConnectCount := wrap_uint (wrap_uint (C.IteratorConnectCount + 1) + 1) }
  refine ⟨_, _, _, _, test_rbegin_eq cat c m a C h, test_rend_eq cat c _ a _ h1, ?_, ?_, ?_⟩
  · intro fuel hf
    rcases Nat.eq_zero_or_pos C.InternalData.length with h0 | hpos
    · cases fuel with
      | zero => omega
      | succ fuel =>
        have heq : eq (⟨⟨some a, ⟨vector_storage a C.InternalData,
            (C.InternalData.length : Int)⟩⟩⟩ : TestIterator cat c)
            (⟨⟨some a, ⟨vector_storage a C.InternalData, 0⟩⟩⟩ : TestIterator cat c)
            = true := by
          rw [test_eq_iff _ _ (by rfl) (by rfl), h0]
          rfl
        unfold reverse_for_loop
        rw [test_reverse_ne, heq, List.length_eq_zero.mp h0]
        rfl
    · have := test_reverse_for_loop cat c c _ a _ h2 fuel C.InternalData.length []
        (Nat.le_refl _) hf
      simp only [vector_storage_of_pos a _ hpos]
      simpa using this
  · intro fuel hf
    rcases Nat.eq_zero_or_pos C.InternalData.length with h0 | hpos
    · have hfuel : fuel = 0 := by omega
      subst hfuel
      rfl
    · simp only [vector_storage_of_pos a _ hpos]
      exact test_reverse_for_loop_fuel cat c c _ a _ h2 fuel C.InternalData.length []
        (Nat.le_refl _) hf
  · rw [test_reverse_eq, test_eq_iff _ _ (by rfl) (by rfl)]
    simp only [vector_iterator.mk.injEq, true_and]
    constructor
    · intro h0
      exact List.length_eq_zero.mp (by exact_mod_cast h0)
    · intro h0
      simp [h0]

/-! ## Reverse iteration over the sample container -/

/-- Reverse iterators over the sample container are distinguished by their bases. -/
theorem sample_reverse_ne (c d : Bool) (x : SampleContainer.Iterator c)
    (y : SampleContainer.Iterator d) :
    reverse_iterator.ne (⟨x⟩ : reverse_iterator SampleContainer.iterator_state c) ⟨y⟩
      = !eq x y := by
  rw [← ne_unfold]
  rfl

/-- The dereference of a reverse iterator over a live sample container, with base position
`j + 1`, is the element `j`. -/
theorem sample_reverse_deref (c : Bool) (m : SampleMem) (a : Nat) (C : SampleContainer)
    (h : m a = some C) (hmax : (C.elements_.length : Int) ≤ PTRDIFF_MAX) (j : Nat)
    (hj : j < C.elements_.length) :
    reverse_iterator.deref
        (⟨⟨⟨some a, ((j + 1 : Nat) : Int)⟩⟩⟩ : reverse_iterator SampleContainer.iterator_state c)
        m = some ⟨a, j⟩ := by
  have hd : pre_decrement
      (copy_constructed (⟨⟨some a, ((j + 1 : Nat) : Int)⟩⟩ : SampleContainer.Iterator c))
      = ⟨⟨some a, wrap_ptrdiff (((j + 1 : Nat) : Int) - 1)⟩⟩ := rfl
  have e : wrap_ptrdiff (((j + 1 : Nat) : Int) - 1) = (j : Int) := by
    simp only [PTRDIFF_MAX] at hmax
    simp only [wrap_ptrdiff]
    push_cast
    omega
  unfold reverse_iterator.deref
  simp only
  rw [hd, e]
  simp [deref, SampleContainer.instSampleState, SampleContainer.iterator_state.get, h, hj]

/-- The pre-increment of a reverse iterator over the sample container with base position
`j + 1` leaves the base at the position `j`. -/
theorem sample_reverse_pre_increment (c : Bool) (a : Nat) (j : Nat)
    (hmax : (j : Int) < PTRDIFF_MAX) :
    reverse_iterator.pre_increment
        (⟨⟨⟨some a, ((j + 1 : Nat) : Int)⟩⟩⟩ : reverse_iterator SampleContainer.iterator_state c)
      = ⟨⟨⟨some a, (j : Int)⟩⟩⟩ := by
  have hd : reverse_iterator.pre_increment
      (⟨⟨⟨some a, ((j + 1 : Nat) : Int)⟩⟩⟩ : reverse_iterator SampleContainer.iterator_state c)
      = ⟨⟨⟨some a, wrap_ptrdiff (((j + 1 : Nat) : Int) - 1)⟩⟩⟩ := rfl
  have e : wrap_ptrdiff (((j + 1 : Nat) : Int) - 1) = (j : Int) := by
    simp only [PTRDIFF_MAX] at hmax
    simp only [wrap_ptrdiff]
    push_cast
    omega
  rw [hd, e]

/-- Reading the element `k` of a live sample container. -/
theorem sample_load (m : SampleMem) (a : Nat) (C : SampleContainer) (h : m a = some C)
    (k : Nat) (hk : k < C.elements_.length) :
    IteratorState.load SampleContainer.iterator_state m ⟨a, k⟩
      = some (C.elements_.get ⟨k, hk⟩) := by
  simp [SampleContainer.instSampleState, SampleContainer.iterator_state.load, h,
    List.getElem?_eq_getElem hk]

/-- The reverse loop over a live sample container, from the reverse iterator with base
position `j` to the one with base position `0`, collects the elements below `j` from the
last to the first, provided the fuel exceeds `j`. -/
theorem sample_reverse_for_loop (c d : Bool) (m : SampleMem) (a : Nat) (C : SampleContainer)
    (h : m a = some C) (hmax : (C.elements_.length : Int) ≤ PTRDIFF_MAX) (fuel : Nat) :
    ∀ (j : Nat) (content : List SampleElement), j ≤ C.elements_.length → j < fuel →
      reverse_for_loop m fuel
        (⟨⟨⟨some a, (j : Int)⟩⟩⟩ : reverse_iterator SampleContainer.iterator_state c)
        (⟨⟨⟨some a, 0⟩⟩⟩ : reverse_iterator SampleContainer.iterator_state d) content
        = some (content ++ (C.elements_.take j).reverse) := by
  induction fuel with
  | zero => intro j content _ hf; omega
  | succ fuel ih =>
    intro j content hj hf
    unfold reverse_for_loop
    rw [sample_reverse_ne]
    cases j with
    | zero =>
      have heq : eq (⟨⟨some a, ((0 : Nat) : Int)⟩⟩ : SampleContainer.Iterator c)
          (⟨⟨some a, 0⟩⟩ : SampleContainer.Iterator d) = true := by
        rw [sample_eq_iff _ _ (by rfl) (by rfl)]
        simp
      rw [heq]
      simp
    | succ j =>
      have hne : eq (⟨⟨some a, ((j + 1 : Nat) : Int)⟩⟩ : SampleContainer.Iterator c)
          (⟨⟨some a, 0⟩⟩ : SampleContainer.Iterator d) = false := by
        rw [Bool.eq_false_iff, Ne, sample_eq_iff _ _ (by rfl) (by rfl)]
        show ¬ (((j + 1 : Nat) : Int) = 0)
        omega
      have hj1 : j < C.elements_.length := by omega
      have hjm : (j : Int) < PTRDIFF_MAX := by omega
      rw [hne, sample_reverse_deref c m a C h hmax j hj1,
        sample_reverse_pre_increment c a j hjm]
      simp only [Bool.not_false, if_true]
      rw [sample_load m a C h j hj1]
      simp only
      rw [ih j _ (by omega) (by omega), List.append_assoc]
      congr 2
      rw [List.take_succ, List.getElem?_eq_getElem hj1, List.reverse_append]
      rfl

/-- The reverse loop over the sample container runs out of fuel when the fuel does not
exceed the base position. -/
theorem sample_reverse_for_loop_fuel (c d : Bool) (m : SampleMem) (a : Nat)
    (C : SampleContainer) (h : m a = some C)
    (hmax : (C.elements_.length : Int) ≤ PTRDIFF_MAX) (fuel : Nat) :
    ∀ (j : Nat) (content : List SampleElement), j ≤ C.elements_.length → fuel ≤ j →
      reverse_for_loop m fuel
        (⟨⟨⟨some a, (j : Int)⟩⟩⟩ : reverse_iterator SampleContainer.iterator_state c)
        (⟨⟨⟨some a, 0⟩⟩⟩ : reverse_iterator SampleContainer.iterator_state d) content
        = none := by
  induction fuel with
  | zero => intro j content _ _; rfl
  | succ fuel ih =>
    intro j content hj hf
    unfold reverse_for_loop
    rw [sample_reverse_ne]
    cases j with
    | zero => omega
    | succ j =>
      have hne : eq (⟨⟨some a, ((j + 1 : Nat) : Int)⟩⟩ : SampleContainer.Iterator c)
          (⟨⟨some a, 0⟩⟩ : SampleContainer.Iterator d) = false := by
        rw [Bool.eq_false_iff, Ne, sample_eq_iff _ _ (by rfl) (by rfl)]
        show ¬ (((j + 1 : Nat) : Int) = 0)
        omega
      have hj1 : j < C.elements_.length := by omega
      have hjm : (j : Int) < PTRDIFF_MAX := by omega
      rw [hne, sample_reverse_deref c m a C h hmax j hj1,
        sample_reverse_pre_increment c a j hjm]
      simp only [Bool.not_false, if_true]
      rw [sample_load m a C h j hj1]
      simp only
      rw [ih j _ (by omega) (by omega)]

/-- C17: for a live container with elements `e_0 .. e_(n-1)` (the bidirectional and the
random access test container, and a sample container whose `elementCount_` is the length of
its array), of either variant, the loop from `rbegin()` to `rend()` collects exactly
`e_(n-1), .., e_0` (the fuel `n + 1` suffices, the fuel `n` does not), and
`rbegin() == rend()` if and only if the container is empty. -/
theorem C17_reverse_iteration (c : Bool) :
    (∀ (m : CustomMem) (a : Nat) (C : CustomContainerBase), m a = some C →
      ∃ rb m1 re m2,
        rbegin (S := iterator_state .bidirectional_iterator_tag) c (some a) m
          = some (rb, m1) ∧
        rend (S := iterator_state .bidirectional_iterator_tag) c (some a) m1
          = some (re, m2) ∧
        (∀ fuel : Nat, C.InternalData.length < fuel →
          reverse_for_loop m2 fuel rb re [] = some C.InternalData.reverse) ∧
        (∀ fuel : Nat, fuel ≤ C.InternalData.length →
          reverse_for_loop m2 fuel rb re [] = none) ∧
        (reverse_iterator.eq rb re = true ↔ C.InternalData = [])) ∧
    (∀ (m : CustomMem) (a : Nat) (C : CustomContainerBase), m a = some C →
      ∃ rb m1 re m2,
        rbegin (S := iterator_state .random_access_iterator_tag) c (some a) m
          = some (rb, m1) ∧
        rend (S := iterator_state .random_access_iterator_tag) c (some a) m1
          = some (re, m2) ∧
        (∀ fuel : Nat, C.InternalData.length < fuel →
          reverse_for_loop m2 fuel rb re [] = some C.InternalData.reverse) ∧
        (∀ fuel : Nat, fuel ≤ C.InternalData.length →
          reverse_for_loop m2 fuel rb re [] = none) ∧
        (reverse_iterator.eq rb re = true ↔ C.InternalData = [])) ∧
    (∀ (m : SampleMem) (a : Nat) (C : SampleContainer), m a = some C →
      C.elementCount_ = C.elements_.length → (C.elements_.length : Int) ≤ PTRDIFF_MAX →
      ∃ rb m1 re m2,
        rbegin (S := SampleContainer.iterator_state) c (some a) m = some (rb, m1) ∧
        rend (S := SampleContainer.iterator_state) c (some a) m1 = some (re, m2) ∧
        (∀ fuel : Nat, C.elements_.length < fuel →
          reverse_for_loop m2 fuel rb re [] = some C.elements_.reverse) ∧
        (∀ fuel : Nat, fuel ≤ C.elements_.length →
          reverse_for_loop m2 fuel rb re [] = none) ∧
        (reverse_iterator.eq rb re = true ↔ C.elements_ = [])) := by
  refine ⟨fun m a C h => test_reverse_iteration _ c m a C h,
    fun m a C h => test_reverse_iteration _ c m a C h, ?_⟩
  intro m a C h hcount hmax
  have hw : wrap_ptrdiff (C.elementCount_ : Int) = (C.elements_.length : Int) := by
    rw [hcount]
    apply wrap_ptrdiff_of_range
    · simp only [PTRDIFF_MIN]
      omega
    · exact hmax
  have hrb : rbegin (S := SampleContainer.iterator_state) c (some a) m
      = some (⟨⟨⟨some a, (C.elements_.length : Int)⟩⟩⟩, m) := by
    unfold rbegin
    rw [sample_end_eq c m a C h, hw]
    rfl
  have hre : rend (S := SampleContainer.iterator_state) c (some a) m
      = some (⟨⟨⟨some a, 0⟩⟩⟩, m) := by
    unfold rend
    rw [sample_begin_eq c m (some a)]
    rfl
  refine ⟨_, _, _, _, hrb, hre, ?_, ?_, ?_⟩
  · intro fuel hf
    have := sample_reverse_for_loop c c m a C h hmax fuel C.elements_.length []
      (Nat.le_refl _) hf
    simpa using this
  · intro fuel hf
    exact sample_reverse_for_loop_fuel c c m a C h hmax fuel C.elements_.length []
      (Nat.le_refl _) hf
  · have hq : reverse_iterator.eq
        (⟨⟨⟨some a, (C.elements_.length : Int)⟩⟩⟩ :
          reverse_iterator SampleContainer.iterator_state c)
        (⟨⟨⟨some a, 0⟩⟩⟩ : reverse_iterator SampleContainer.iterator_state c)
        = eq (⟨⟨some a, (C.elements_.length : Int)⟩⟩ : SampleContainer.Iterator c)
          (⟨⟨some a, 0⟩⟩ : SampleContainer.Iterator c) := rfl
    rw [hq, sample_eq_iff _ _ (by rfl) (by rfl)]
    show ((C.elements_.length : Int) = 0) ↔ _
    constructor
    · intro h0
      exact List.length_eq_zero.mp (by exact_mod_cast h0)
    · intro h0
      simp [h0]

/-- Witness of C17: the random access test container `{1,2}` at address `3`, iterated in
reverse, gives `[2,1]`; the sample container at address `2` gives its two elements in
reverse. -/
theorem C17_reverse_iteration_witness :
    (∃ rb m1 re m2,
      rbegin (S := iterator_state .random_access_iterator_tag) false (some 3) test_mem
        = some (rb, m1) ∧
      rend (S := iterator_state .random_access_iterator_tag) false (some 3) m1
        = some (re, m2) ∧
      (∀ fuel : Nat, 2 < fuel → reverse_for_loop m2 fuel rb re [] = some [⟨2⟩, ⟨1⟩]) ∧
      (∀ fuel : Nat, fuel ≤ 2 → reverse_for_loop m2 fuel rb re [] = none) ∧
      (reverse_iterator.eq rb re = true ↔
        (CustomContainerBase.of_values [1, 2]).InternalData = [])) ∧
    (∃ rb m1 re m2,
      rbegin (S := SampleContainer.iterator_state) true (some 2) sample_mem
        = some (rb, m1) ∧
      rend (S := SampleContainer.iterator_state) true (some 2) m1 = some (re, m2) ∧
      (∀ fuel : Nat, 2 < fuel → reverse_for_loop m2 fuel rb re [] = some [⟨8⟩, ⟨7⟩]) ∧
      (∀ fuel : Nat, fuel ≤ 2 → reverse_for_loop m2 fuel rb re [] = none) ∧
      (reverse_iterator.eq rb re = true ↔
        (SampleContainer.mk [⟨7⟩, ⟨8⟩] 2).elements_ = [])) :=
  ⟨(C17_reverse_iteration false).2.1 test_mem 3 _ rfl,
   (C17_reverse_iteration true).2.2 sample_mem 2 _ rfl rfl (by decide)⟩


/-! ## Offset movement and single steps -/

/-- The random access test iterator after `k` decrements: the index has dropped by `k`. -/
theorem test_decrements {c : Bool} (k : Nat) (p : ContainerPtr) (v : Option Nat) (i : Int) :
    decrements k (⟨⟨p, ⟨v, i⟩⟩⟩ : RandomAccessIterator c) = ⟨⟨p, ⟨v, i - k⟩⟩⟩ := by
  induction k generalizing i with
  | zero => simp [decrements]
  | succ k ih =>
    rw [decrements, test_pre_decrement_random_access, ih]
    push_cast
    congr 3
    omega

/-- The compound addition on a random access test iterator adds to the index. -/
theorem test_add_assign {c : Bool} (p : ContainerPtr) (v : Option Nat) (i n : Int) :
    add_assign (⟨⟨p, ⟨v, i⟩⟩⟩ : RandomAccessIterator c) n = ⟨⟨p, ⟨v, i + n⟩⟩⟩ :=
  rfl

/-- The compound subtraction on a random access test iterator adds the negated offset, the
negation being computed in `ptrdiff_t`. -/
theorem test_sub_assign {c : Bool} (p : ContainerPtr) (v : Option Nat) (i n : Int) :
    sub_assign (⟨⟨p, ⟨v, i⟩⟩⟩ : RandomAccessIterator c) n
      = ⟨⟨p, ⟨v, i + wrap_ptrdiff (-n)⟩⟩⟩ :=
  rfl

/-- C18: on a random access test iterator `it` within `[begin, end]`, and for an offset `n`
that keeps it there, `it += n` leaves `it` where `n` successive `++it` would for `n >= 0`
and where `|n|` successive `--it` would for `n < 0`; `it += 1` is `++it` and `it -= 1` is
`--it`. -/
theorem C18_add_assign_agrees_with_steps (c : Bool) (m : CustomMem)
    (it : RandomAccessIterator c) (n : Int) (_h1 : in_range m it = true)
    (_h2 : in_range m (add_assign it n) = true) :
    (0 ≤ n → add_assign it n = increments n.toNat it) ∧
    (n < 0 → add_assign it n = decrements (-n).toNat it) ∧
    add_assign it 1 = pre_increment it ∧
    sub_assign it 1 = pre_decrement it := by
  obtain ⟨⟨p, ⟨v, i⟩⟩⟩ := it
  refine ⟨fun hn => ?_, fun hn => ?_, rfl, ?_⟩
  · rw [test_add_assign, test_increments, Int.toNat_of_nonneg hn]
  · rw [test_add_assign, test_decrements, Int.toNat_of_nonneg (by omega)]
    congr 3
    omega
  · rw [test_sub_assign, test_pre_decrement_random_access]
    have hw : wrap_ptrdiff (-1) = -1 := by decide
    rw [hw]
    rfl

/-- Witness of C18: the iterator at index `5` of the test container `{1,..,8}` moved by
`-3`, and the one at index `0` moved by `5`. -/
theorem C18_add_assign_agrees_with_steps_witness :
    add_assign (⟨⟨some 1, ⟨some 1, 5⟩⟩⟩ : RandomAccessIterator false) (-3)
      = decrements (-(-3 : Int)).toNat ⟨⟨some 1, ⟨some 1, 5⟩⟩⟩ ∧
    add_assign (⟨⟨some 1, ⟨some 1, 0⟩⟩⟩ : RandomAccessIterator false) 5
      = increments (5 : Int).toNat ⟨⟨some 1, ⟨some 1, 0⟩⟩⟩ :=
  ⟨(C18_add_assign_agrees_with_steps false test_mem ⟨⟨some 1, ⟨some 1, 5⟩⟩⟩ (-3)
      (by decide) (by decide)).2.1 (by decide),
   (C18_add_assign_agrees_with_steps false test_mem ⟨⟨some 1, ⟨some 1, 0⟩⟩⟩ 5
      (by decide) (by decide)).1 (by decide)⟩

/-- The friend `operator+` on a random access test iterator adds to the index. -/
theorem test_add_left {c : Bool} (p : ContainerPtr) (v : Option Nat) (i n : Int) :
    add_left n (⟨⟨p, ⟨v, i⟩⟩⟩ : RandomAccessIterator c) = ⟨⟨p, ⟨v, i + n⟩⟩⟩ :=
  rfl

/-- C19: for a random access test iterator `it` of either variant and an offset `n`,
`n + it == it + n`, and when `it` is at the element `k` of a live container and `k + n` is
the index of an element, both dereference to that element. -/
theorem C19_offset_addition_commutes (c : Bool) (it : RandomAccessIterator c) (n : Int)
    (m : CustomMem) :
    eq (add_left n it) (add it n) = true ∧
    (∀ (a : Nat) (C : CustomContainerBase) (k j : Nat), m a = some C →
      it.iteratorState_.current_ = ⟨some a, k⟩ → (k : Int) + n = j →
      ∀ hj : j < C.InternalData.length,
        deref (add_left n it) m = some (⟨a, j⟩, add_left n it) ∧
        deref (add it n) m = some (⟨a, j⟩, add it n) ∧
        IteratorState.load (iterator_state .random_access_iterator_tag) m ⟨a, j⟩
          = some (C.InternalData.get ⟨j, hj⟩)) := by
  obtain ⟨⟨p, cur⟩⟩ := it
  constructor
  · exact test_eq_self _
  · intro a C k j hm hpos hkn hj
    simp only at hpos
    subst hpos
    rw [test_add_left, test_add, hkn]
    exact ⟨test_deref m a C hm p j hj, test_deref m a C hm p j hj, test_load m a C hm j hj⟩

/-- Witness of C19: in the test container `{1,..,8}`, `5 + begin()` and `begin() + 5`
dereference to the element at index `5`, of value `6`. -/
theorem C19_offset_addition_commutes_witness :
    deref (add_left 5 (⟨⟨some 1, ⟨some 1, 0⟩⟩⟩ : RandomAccessIterator false)) test_mem
      = some (⟨1, 5⟩, add_left 5 ⟨⟨some 1, ⟨some 1, 0⟩⟩⟩) ∧
    deref (add (⟨⟨some 1, ⟨some 1, 0⟩⟩⟩ : RandomAccessIterator false) 5) test_mem
      = some (⟨1, 5⟩, add ⟨⟨some 1, ⟨some 1, 0⟩⟩⟩ 5) ∧
    IteratorState.load (iterator_state .random_access_iterator_tag) test_mem ⟨1, 5⟩
      = some ⟨6⟩ :=
  (C19_offset_addition_commutes false ⟨⟨some 1, ⟨some 1, 0⟩⟩⟩ 5 test_mem).2 1
    (CustomContainerBase.of_values [1, 2, 3, 4, 5, 6, 7, 8]) 0 5 rfl rfl rfl (by decide)


/-! ## Copies -/

/-- A sample iterator is equal to itself. -/
theorem sample_eq_self {c : Bool} (it : SampleContainer.Iterator c) : eq it it = true := by
  rw [eq_unfold]
  show (if SampleContainer.iterator_state.is_connected _ then
    (SampleContainer.iterator_state.is_connected _
      && SampleContainer.iterator_state.is_equal _ _)
    else !SampleContainer.iterator_state.is_connected _) = true
  cases h : SampleContainer.iterator_state.is_connected it.iteratorState_ <;>
    simp [SampleContainer.iterator_state.is_equal]

/-- Dereferencing a test iterator leaves the iterator as it was. -/
theorem test_deref_self {cat : Category} {c : Bool} (it it1 : TestIterator cat c)
    (m : CustomMem) (r : ElementRef) (h : deref it m = some (r, it1)) :
    deref it m = some (r, it) := by
  simp only [deref, instTestState, iterator_state.base_ops, iterator_state.get] at h ⊢
  cases hv : it.iteratorState_.current_.deref m with
  | none => simp [hv] at h
  | some r1 =>
    simp only [hv, Option.some.injEq, Prod.mk.injEq] at h ⊢
    exact ⟨h.1, trivial⟩

/-- Dereferencing a sample iterator leaves the iterator as it was. -/
theorem sample_deref_self {c : Bool} (it it1 : SampleContainer.Iterator c) (m : SampleMem)
    (r : ElementRef) (h : deref it m = some (r, it1)) :
    deref it m = some (r, it) := by
  obtain ⟨⟨p, cur⟩⟩ := it
  simp only [deref, SampleContainer.instSampleState, SampleContainer.iterator_state.get]
    at h ⊢
  cases p with
  | none => simp at h
  | some a =>
    cases hm : m a with
    | none => simp [hm] at h
    | some C =>
      simp only [hm] at h ⊢
      by_cases hr : 0 ≤ cur ∧ cur < C.elements_.length
      · simp only [hr, and_self, if_true, Option.some.injEq, Prod.mk.injEq] at h ⊢
        exact ⟨h.1, trivial⟩
      · simp [hr] at h

/-- C20: for iterators of one variant of a test container (any category) or of the sample
container, the copy-constructed `b` from `a`, and `b` after the copy assignment `b = a`
whatever `b` was before (bound or unbound), has the binding and the cursor of `a`:
`b == a`, `b.is_connected() == a.is_connected()`, and when `a` can be dereferenced `*b` is
the element `*a` is. -/
theorem C20_copies_duplicate_cursor_and_binding (c : Bool) :
    (∀ (cat : Category) (a b0 : TestIterator cat c) (m : CustomMem),
      (copy_constructed a).iteratorState_ = a.iteratorState_ ∧
      (copy_assigned b0 a).iteratorState_ = a.iteratorState_ ∧
      eq (copy_constructed a) a = true ∧ eq (copy_assigned b0 a) a = true ∧
      (copy_constructed a).is_connected = a.is_connected ∧
      (copy_assigned b0 a).is_connected = a.is_connected ∧
      (∀ r it1, deref a m = some (r, it1) →
        deref (copy_constructed a) m = some (r, copy_constructed a) ∧
        deref (copy_assigned b0 a) m = some (r, copy_assigned b0 a))) ∧
    (∀ (a b0 : SampleContainer.Iterator c) (m : SampleMem),
      (copy_constructed a).iteratorState_ = a.iteratorState_ ∧
      (copy_assigned b0 a).iteratorState_ = a.iteratorState_ ∧
      eq (copy_constructed a) a = true ∧ eq (copy_assigned b0 a) a = true ∧
      (copy_constructed a).is_connected = a.is_connected ∧
      (copy_assigned b0 a).is_connected = a.is_connected ∧
      (∀ r it1, deref a m = some (r, it1) →
        deref (copy_constructed a) m = some (r, copy_constructed a) ∧
        deref (copy_assigned b0 a) m = some (r, copy_assigned b0 a))) := by
  constructor
  · intro cat a b0 m
    have hc : copy_constructed a = a := rfl
    have hs : copy_assigned b0 a = a := rfl
    rw [hc, hs]
    exact ⟨rfl, rfl, test_eq_self a, test_eq_self a, rfl, rfl,
      fun r it1 h => ⟨test_deref_self a it1 m r h, test_deref_self a it1 m r h⟩⟩
  · intro a b0 m
    have hc : copy_constructed a = a := rfl
    have hs : copy_assigned b0 a = a := rfl
    rw [hc, hs]
    exact ⟨rfl, rfl, sample_eq_self a, sample_eq_self a, rfl, rfl,
      fun r it1 h => ⟨sample_deref_self a it1 m r h, sample_deref_self a it1 m r h⟩⟩

/-- Witness of C20: copies of the iterator at the start of the test container `{1,..,8}`,
the assigned one default-constructed before; and of the iterator at the start of the sample
container at address `2`. -/
theorem C20_copies_duplicate_cursor_and_binding_witness :
    (deref (copy_constructed (⟨⟨some 1, ⟨some 1, 0⟩⟩⟩ : TestIterator .input_iterator_tag false))
        test_mem = some (⟨1, 0⟩, copy_constructed ⟨⟨some 1, ⟨some 1, 0⟩⟩⟩) ∧
     deref (copy_assigned (default_constructed false)
        (⟨⟨some 1, ⟨some 1, 0⟩⟩⟩ : TestIterator .input_iterator_tag false)) test_mem
      = some (⟨1, 0⟩, copy_assigned (default_constructed false) ⟨⟨some 1, ⟨some 1, 0⟩⟩⟩)) ∧
    (deref (copy_constructed (⟨⟨some 2, 0⟩⟩ : SampleContainer.Iterator false)) sample_mem
        = some (⟨2, 0⟩, copy_constructed ⟨⟨some 2, 0⟩⟩) ∧
     deref (copy_assigned (default_constructed false)
        (⟨⟨some 2, 0⟩⟩ : SampleContainer.Iterator false)) sample_mem
      = some (⟨2, 0⟩, copy_assigned (default_constructed false) ⟨⟨some 2, 0⟩⟩)) :=
  ⟨((C20_copies_duplicate_cursor_and_binding false).1 .input_iterator_tag
      ⟨⟨some 1, ⟨some 1, 0⟩⟩⟩ (default_constructed false) test_mem).2.2.2.2.2.2
      ⟨1, 0⟩ ⟨⟨some 1, ⟨some 1, 0⟩⟩⟩ rfl,
   ((C20_copies_duplicate_cursor_and_binding false).2
      ⟨⟨some 2, 0⟩⟩ (default_constructed false) sample_mem).2.2.2.2.2.2
      ⟨2, 0⟩ ⟨⟨some 2, 0⟩⟩ rfl⟩


/-! ## Availability of operators, conversions and optional operations -/

/-- C21: `==` and `!=` have a viable overload for all four combinations of variants, but the
relations `<`, `<=`, `>`, `>=` have none when the right operand is const (whatever the left
one), and the difference has none for a changeable left and a const right operand; with a
changeable right operand all of them are viable, and the difference of two const iterators is
viable; where they are viable they give, on the random access test iterators, the result
they give on the converted operands. -/
theorem C21_relations_and_difference_not_for_all_variants :
    (∀ lhs rhs : Bool, accepted .eq lhs rhs = true ∧ accepted .ne lhs rhs = true) ∧
    (∀ lhs : Bool, accepted .lt lhs true = false ∧ accepted .le lhs true = false ∧
      accepted .gt lhs true = false ∧ accepted .ge lhs true = false) ∧
    accepted .difference false true = false ∧
    (∀ lhs : Bool, accepted .lt lhs false = true ∧ accepted .le lhs false = true ∧
      accepted .gt lhs false = true ∧ accepted .ge lhs false = true ∧
      accepted .difference lhs false = true) ∧
    accepted .difference true true = true ∧
    (∀ a b : RandomAccessIterator false,
      lt (cast_to_const a) b = lt a b ∧ le (cast_to_const a) b = le a b ∧
      gt (cast_to_const a) b = gt a b ∧ ge (cast_to_const a) b = ge a b ∧
      diff (cast_to_const a) (cast_to_const b) = diff a b) := by
  refine ⟨by decide, by decide, by decide, by decide, by decide, fun _ _ => ?_⟩
  exact ⟨rfl, rfl, rfl, rfl, rfl⟩

/-- C22: of the two cross-variant conversions the adaptor declares only changeable to const:
an iterator is constructed from one of the other variant if and only if the source is
changeable and the target const; every variant is constructed from itself; and the
conversion that exists yields an iterator for every source. -/
theorem C22_only_changeable_to_const_conversion :
    converts_to false true = true ∧ converts_to true false = false ∧
    (∀ source target : Bool, source ≠ target →
      (converts_to source target = true ↔ source = false ∧ target = true)) ∧
    (∀ variant : Bool, converts_to variant variant = true) ∧
    (∀ (cat : Category) (it : TestIterator cat false),
      (cast_to_const it).iteratorState_.container_ = it.iteratorState_.container_ ∧
      (cast_to_const it).iteratorState_.current_ = it.iteratorState_.current_) := by
  refine ⟨by decide, by decide, by decide, by decide, fun _ _ => ⟨rfl, rfl⟩⟩

/-- Witness of C22: the const source and the changeable target. -/
theorem C22_only_changeable_to_const_conversion_witness :
    (converts_to true false = true ↔ true = false ∧ false = true) :=
  C22_only_changeable_to_const_conversion.2.2.1 true false (by decide)

/-- C23: the test states define exactly the optional members the contract asks of
their category, so each optional operation is usable on them exactly as the category says;
the sample state declares `random_access_iterator_tag`, for which the contract asks all four
members, and defines `prev` only: on it the decrement is usable and the offset movement, the
indexed access, the difference and the relations are not. -/
theorem C23_sample_state_lacks_random_access_members :
    (∀ (cat : Category) (member : OptionalMember),
      iterator_state.defines cat member = cat.must_implement member) ∧
    (∀ (cat : Category) (op : OptionalOperation),
      operation_usable (iterator_state.defines cat) op = cat.must_implement op.forwards_to) ∧
    iterator_category SampleContainer.iterator_state = .random_access_iterator_tag ∧
    operation_usable SampleContainer.iterator_state.defines .decrement = true ∧
    operation_usable SampleContainer.iterator_state.defines .offset_move = false ∧
    operation_usable SampleContainer.iterator_state.defines .index = false ∧
    operation_usable SampleContainer.iterator_state.defines .difference = false ∧
    operation_usable SampleContainer.iterator_state.defines .ordering = false ∧
    Category.must_implement .random_access_iterator_tag .move = true := by
  refine ⟨fun cat member => ?_, fun cat op => ?_, rfl, rfl, rfl, rfl, rfl, rfl, rfl⟩
  · cases cat <;> cases member <;> rfl
  · cases cat <;> cases op <;> rfl

/-- C24: the static check of the adaptor on the category, `std::is_base_of` with base
`input_iterator_tag`, accepts exactly the tags input, forward, bidirectional and random
access, and rejects the other one; and the `iterator_category` of the adaptor is the tag the
state declares: the one of its category for a test state (input for the input state, random
access for the random access state), random access for the sample state. -/
theorem C24_category_check_and_typedef :
    (∀ tag : Category, category_accepted tag = Category.is_base_of .input_iterator_tag tag) ∧
    (∀ tag : Category, category_accepted tag = true ↔
      tag = .input_iterator_tag ∨ tag = .forward_iterator_tag ∨
      tag = .bidirectional_iterator_tag ∨ tag = .random_access_iterator_tag) ∧
    category_accepted .output_iterator_tag = false ∧
    (∀ cat : Category, iterator_category (iterator_state cat) = cat) ∧
    iterator_category (iterator_state .input_iterator_tag) = .input_iterator_tag ∧
    iterator_category (iterator_state .random_access_iterator_tag)
      = .random_access_iterator_tag ∧
    iterator_category SampleContainer.iterator_state = .random_access_iterator_tag := by
  refine ⟨fun tag => ?_, fun tag => ?_, rfl, fun _ => rfl, rfl, rfl, rfl⟩
  · cases tag <;> rfl
  · cases tag <;> simp [category_accepted]

/-! ## Decrement, inequality, difference -/

/-- The post-decrement of a bidirectional test iterator: the copy and the iterator one
index lower. -/
theorem test_post_decrement_bidirectional {c : Bool} (p : ContainerPtr) (v : Option Nat)
    (i : Int) :
    post_decrement (⟨⟨p, ⟨v, i⟩⟩⟩ : TestIterator .bidirectional_iterator_tag c)
      = (⟨⟨p, ⟨v, i⟩⟩⟩, ⟨⟨p, ⟨v, i - 1⟩⟩⟩) :=
  rfl

/-- The post-decrement of a random access test iterator: the copy and the iterator one
index lower. -/
theorem test_post_decrement_random_access {c : Bool} (p : ContainerPtr) (v : Option Nat)
    (i : Int) :
    post_decrement (⟨⟨p, ⟨v, i⟩⟩⟩ : RandomAccessIterator c)
      = (⟨⟨p, ⟨v, i⟩⟩⟩, ⟨⟨p, ⟨v, i - 1⟩⟩⟩) :=
  rfl

/-- C25: for a bidirectional or random access test iterator `it` (either variant) positioned
at the element `e_(k+1)` of a live container: `it--` returns an iterator equal to the former
`it`, dereferencing to `e_(k+1)`; `--it` returns the moved iterator, dereferencing to `e_k`;
and both leave `it` at the same position, one back. -/
theorem C25_decrement_results (c : Bool) (m : CustomMem) (a : Nat) (C : CustomContainerBase)
    (k : Nat) (hm : m a = some C) (hk : k + 1 < C.InternalData.length) :
    (∀ it : TestIterator .bidirectional_iterator_tag c,
      it.iteratorState_.current_ = ⟨some a, ((k + 1 : Nat) : Int)⟩ →
      eq (post_decrement it).1 it = true ∧
      deref (post_decrement it).1 m = some (⟨a, k + 1⟩, (post_decrement it).1) ∧
      IteratorState.load (iterator_state .bidirectional_iterator_tag) m ⟨a, k + 1⟩
        = some (C.InternalData.get ⟨k + 1, hk⟩) ∧
      (post_decrement it).2 = pre_decrement it ∧
      (pre_decrement it).iteratorState_.current_ = ⟨some a, k⟩ ∧
      deref (pre_decrement it) m = some (⟨a, k⟩, pre_decrement it) ∧
      IteratorState.load (iterator_state .bidirectional_iterator_tag) m ⟨a, k⟩
        = some (C.InternalData.get ⟨k, Nat.lt_of_succ_lt hk⟩)) ∧
    (∀ it : RandomAccessIterator c,
      it.iteratorState_.current_ = ⟨some a, ((k + 1 : Nat) : Int)⟩ →
      eq (post_decrement it).1 it = true ∧
      deref (post_decrement it).1 m = some (⟨a, k + 1⟩, (post_decrement it).1) ∧
      IteratorState.load (iterator_state .random_access_iterator_tag) m ⟨a, k + 1⟩
        = some (C.InternalData.get ⟨k + 1, hk⟩) ∧
      (post_decrement it).2 = pre_decrement it ∧
      (pre_decrement it).iteratorState_.current_ = ⟨some a, k⟩ ∧
      deref (pre_decrement it) m = some (⟨a, k⟩, pre_decrement it) ∧
      IteratorState.load (iterator_state .random_access_iterator_tag) m ⟨a, k⟩
        = some (C.InternalData.get ⟨k, Nat.lt_of_succ_lt hk⟩)) := by
  have e : ((k + 1 : Nat) : Int) - 1 = (k : Int) := by push_cast; omega
  constructor
  · intro it hpos
    obtain ⟨⟨p, cur⟩⟩ := it
    simp only at hpos
    subst hpos
    rw [test_post_decrement_bidirectional, test_pre_decrement_bidirectional, e]
    exact ⟨test_eq_self _, test_deref m a C hm p (k + 1) hk, test_load m a C hm (k + 1) hk,
      rfl, rfl, test_deref m a C hm p k (Nat.lt_of_succ_lt hk),
      test_load m a C hm k (Nat.lt_of_succ_lt hk)⟩
  · intro it hpos
    obtain ⟨⟨p, cur⟩⟩ := it
    simp only at hpos
    subst hpos
    rw [test_post_decrement_random_access, test_pre_decrement_random_access, e]
    exact ⟨test_eq_self _, test_deref m a C hm p (k + 1) hk, test_load m a C hm (k + 1) hk,
      rfl, rfl, test_deref m a C hm p k (Nat.lt_of_succ_lt hk),
      test_load m a C hm k (Nat.lt_of_succ_lt hk)⟩

/-- Witness of C25: the bidirectional iterator at the element `1` (value `2`) of the test
container `{1,..,8}` at address `1`. -/
theorem C25_decrement_results_witness :
    eq (post_decrement
        (⟨⟨some 1, ⟨some 1, 1⟩⟩⟩ : TestIterator .bidirectional_iterator_tag false)).1
      (⟨⟨some 1, ⟨some 1, 1⟩⟩⟩ : TestIterator .bidirectional_iterator_tag false) = true ∧
    deref (post_decrement
        (⟨⟨some 1, ⟨some 1, 1⟩⟩⟩ : TestIterator .bidirectional_iterator_tag false)).1 test_mem
      = some (⟨1, 1⟩, (post_decrement ⟨⟨some 1, ⟨some 1, 1⟩⟩⟩).1) ∧
    IteratorState.load (iterator_state .bidirectional_iterator_tag) test_mem ⟨1, 1⟩
      = some ⟨2⟩ ∧
    deref (pre_decrement
        (⟨⟨some 1, ⟨some 1, 1⟩⟩⟩ : TestIterator .bidirectional_iterator_tag false)) test_mem
      = some (⟨1, 0⟩, pre_decrement ⟨⟨some 1, ⟨some 1, 1⟩⟩⟩) ∧
    IteratorState.load (iterator_state .bidirectional_iterator_tag) test_mem ⟨1, 0⟩
      = some ⟨1⟩ :=
  have h := (C25_decrement_results false test_mem 1
    (CustomContainerBase.of_values [1, 2, 3, 4, 5, 6, 7, 8]) 0 rfl (by decide)).1
    ⟨⟨some 1, ⟨some 1, 1⟩⟩⟩ rfl
  ⟨h.1, h.2.1, h.2.2.1, h.2.2.2.2.2.1, h.2.2.2.2.2.2⟩

/-- C27: for every pair of iterators over any state, bound or unbound, and in each of the
four variant combinations, `a != b` is the negation of `a == b`; so are the two overloads of
`operator!=` of the corresponding overloads of `operator==`. -/
theorem C27_ne_is_negation_of_eq [IteratorState S Mem Ref Val] {c d : Bool}
    (a : custom_iterator_template S c) (b : custom_iterator_template S d)
    (bc : custom_iterator_template S true) (bm : custom_iterator_template S false) :
    ne a b = !eq a b ∧ ne_const a bc = !eq_const a bc ∧ ne_mutable a bm = !eq_mutable a bm :=
  ⟨ne_unfold a b, rfl, rfl⟩

/-- C28: for random access test iterators `a`, `b` of one variant over one container,
within `[begin, end]`, `a - b == -(b - a)`, the negation being one `ptrdiff_t` has, and
`a - a == 0`. -/
theorem C28_difference_antisymmetric (c : Bool) (m : CustomMem) (a b : RandomAccessIterator c)
    (ha : in_range m a = true) (hb : in_range m b = true)
    (_hab : a.iteratorState_.container_ = b.iteratorState_.container_) :
    diff a b = -(diff b a) ∧ diff a b = wrap_ptrdiff (-(diff b a)) ∧ diff a a = 0 := by
  obtain ⟨⟨p, ⟨v, i⟩⟩⟩ := a
  obtain ⟨⟨q, ⟨w, j⟩⟩⟩ := b
  obtain ⟨a1, C1, -, -, -, hi0, hi1, hC1⟩ := (in_range_iff m p v i).mp ha
  obtain ⟨a2, C2, -, -, -, hj0, hj1, hC2⟩ := (in_range_iff m q w j).mp hb
  simp only [test_diff]
  have hw : wrap_ptrdiff (-(j - i)) = -(j - i) := by
    apply wrap_ptrdiff_of_range <;> simp only [PTRDIFF_MIN, PTRDIFF_MAX] at * <;> omega
  rw [hw]
  omega

/-- Witness of C28: the iterators at the indices `5` and `2` of the test container
`{1,..,8}`; the differences are `3`, `-3` and `0`. -/
theorem C28_difference_antisymmetric_witness :
    diff (⟨⟨some 1, ⟨some 1, 5⟩⟩⟩ : RandomAccessIterator false) ⟨⟨some 1, ⟨some 1, 2⟩⟩⟩
      = -(diff (⟨⟨some 1, ⟨some 1, 2⟩⟩⟩ : RandomAccessIterator false)
        ⟨⟨some 1, ⟨some 1, 5⟩⟩⟩) ∧
    diff (⟨⟨some 1, ⟨some 1, 5⟩⟩⟩ : RandomAccessIterator false) ⟨⟨some 1, ⟨some 1, 2⟩⟩⟩ = 3 ∧
    diff (⟨⟨some 1, ⟨some 1, 2⟩⟩⟩ : RandomAccessIterator false) ⟨⟨some 1, ⟨some 1, 5⟩⟩⟩ = -3 ∧
    diff (⟨⟨some 1, ⟨some 1, 2⟩⟩⟩ : RandomAccessIterator false) ⟨⟨some 1, ⟨some 1, 2⟩⟩⟩ = 0 :=
  ⟨(C28_difference_antisymmetric false test_mem ⟨⟨some 1, ⟨some 1, 5⟩⟩⟩
      ⟨⟨some 1, ⟨some 1, 2⟩⟩⟩ (by decide) (by decide) rfl).1, by decide, by decide, by decide⟩

/-! ## Compound subtraction -/

/-- C29: iterators are independent objects: after the object at `dst` has been
copy-constructed from the one at `src` and then moved (by `++`, or by any other operation of
the adaptor on that object), the object at `src`, and every object other than the one at
`dst`, has the position and the binding it had, so it dereferences to the element it
dereferenced to; the object at `dst` is the moved copy. -/
theorem C29_moving_a_copy_leaves_the_original [IteratorState S Mem Ref Val] {c : Bool}
    (σ : IteratorObjects S c) (src dst : Nat) (it : custom_iterator_template S c)
    (operation : custom_iterator_template S c → custom_iterator_template S c)
    (hsrc : σ src = some it) (hne : dst ≠ src) :
    ∃ σ1 σ2, σ.copy_construct dst src = some σ1 ∧
      σ1.move_object dst pre_increment = some σ2 ∧
      σ2 src = some it ∧
      σ2 dst = some (pre_increment (copy_constructed it)) ∧
      (∀ y, y ≠ dst → σ2 y = σ y) ∧
      (∀ m : Mem, (σ2 src).bind (fun x => deref x m) = deref it m) ∧
      ∃ σ3, σ1.move_object dst operation = some σ3 ∧ σ3 src = some it ∧
        σ3 dst = some (operation (copy_constructed it)) ∧ (∀ y, y ≠ dst → σ3 y = σ y) := by
  have h1 : σ.copy_construct dst src = some (σ.set dst (copy_constructed it)) := by
    simp [IteratorObjects.copy_construct, hsrc]
  have hd : (σ.set dst (copy_constructed it)) dst = some (copy_constructed it) := by
    simp [IteratorObjects.set]
  have hmove : ∀ f : custom_iterator_template S c → custom_iterator_template S c,
      (σ.set dst (copy_constructed it)).move_object dst f
        = some ((σ.set dst (copy_constructed it)).set dst (f (copy_constructed it))) := by
    intro f
    simp [IteratorObjects.move_object, hd]
  have hframe : ∀ (x : custom_iterator_template S c) (y : Nat), y ≠ dst →
      ((σ.set dst (copy_constructed it)).set dst x) y = σ y := by
    intro x y hy
    simp [IteratorObjects.set, hy]
  have hat : ∀ x : custom_iterator_template S c,
      ((σ.set dst (copy_constructed it)).set dst x) dst = some x := by
    intro x
    simp [IteratorObjects.set]
  have hs : ∀ x : custom_iterator_template S c,
      ((σ.set dst (copy_constructed it)).set dst x) src = some it := by
    intro x
    rw [hframe x src (Ne.symm hne), hsrc]
  refine ⟨_, _, h1, hmove pre_increment, hs _, hat _, hframe _, fun m => ?_,
    _, hmove operation, hs _, hat _, hframe _⟩
  rw [hs]
  rfl

/-- Witness of C29: the forward test iterator at the start of `{1,..,8}` held at the
address `0`, copied to the address `1`; the copy is incremented, the original still
dereferences to the first element. -/
theorem C29_moving_a_copy_leaves_the_original_witness :
    ∃ σ1 σ2 : IteratorObjects (iterator_state .forward_iterator_tag) false,
      IteratorObjects.copy_construct
        (fun x => if x = 0 then some ⟨⟨some 1, ⟨some 1, 0⟩⟩⟩ else none) 1 0 = some σ1 ∧
      σ1.move_object 1 pre_increment = some σ2 ∧
      σ2 0 = some ⟨⟨some 1, ⟨some 1, 0⟩⟩⟩ ∧
      σ2 1 = some (pre_increment (copy_constructed ⟨⟨some 1, ⟨some 1, 0⟩⟩⟩)) ∧
      (σ2 0).bind (fun x => deref x test_mem)
        = deref (⟨⟨some 1, ⟨some 1, 0⟩⟩⟩ : TestIterator .forward_iterator_tag false)
          test_mem :=
  have h := C29_moving_a_copy_leaves_the_original
    (fun x => if x = 0 then some (⟨⟨some 1, ⟨some 1, 0⟩⟩⟩ :
      TestIterator .forward_iterator_tag false) else none) 0 1 ⟨⟨some 1, ⟨some 1, 0⟩⟩⟩
    pre_increment rfl (by decide)
  match h with
  | ⟨σ1, σ2, h1, h2, h3, h4, _, h6, _⟩ => ⟨σ1, σ2, h1, h2, h3, h4, h6 test_mem⟩


/-! ## Assignment through an iterator -/

/-- What the dereference of a test iterator yields says of its position and of the memory. -/
theorem test_deref_iff {cat : Category} {c : Bool} (it it1 : TestIterator cat c)
    (m : CustomMem) (r : ElementRef) :
    deref it m = some (r, it1) ↔
      it1 = it ∧ ∃ C, m r.container = some C ∧ r.index < C.InternalData.length ∧
        it.iteratorState_.current_ = ⟨some r.container, r.index⟩ := by
  obtain ⟨⟨p, ⟨v, i⟩⟩⟩ := it
  obtain ⟨a, k⟩ := r
  simp only [deref, instTestState, iterator_state.base_ops, iterator_state.get,
    vector_iterator.deref]
  cases v with
  | none => simp
  | some b =>
    simp only [vector_iterator.mk.injEq, Option.some.injEq]
    cases hm : m b with
    | none =>
      simp only []
      constructor
      · intro h
        cases h
      · rintro ⟨-, C, hC, -, hb, -⟩
        rw [← hb, hm] at hC
        cases hC
    | some C =>
      simp only []
      by_cases hr : 0 ≤ i ∧ i < C.InternalData.length
      · simp only [hr, and_self, if_true, Option.some.injEq, Prod.mk.injEq,
          ElementRef.mk.injEq]
        constructor
        · rintro ⟨⟨hb, hk⟩, h1⟩
          subst hb
          refine ⟨h1.symm, C, hm, ?_, rfl, ?_⟩ <;> omega
        · rintro ⟨h1, C1, hC1, hk, hb, hi⟩
          subst hb
          exact ⟨⟨rfl, by omega⟩, h1.symm⟩
      · simp only [hr, if_false]
        constructor
        · intro h
          cases h
        · rintro ⟨-, C1, hC1, hk, hb, hi⟩
          rw [← hb, hm] at hC1
          cases hC1
          omega

/-- C30: for a changeable test iterator `it` (any category) at a position that can be
dereferenced, the assignment `*it = v` leaves `it` as it was and changes the memory so that
the element `it` refers to is `v` and every other element of every container is what it
was; every iterator of either variant that could be dereferenced before still refers to the
element it referred to, unchanged in position and binding, so every iterator at the position
of `it`, `it` included, dereferences to `v`. -/
theorem C30_assignment_through_iterator (cat : Category) (it it1 : TestIterator cat false)
    (m : CustomMem) (r : ElementRef) (v : CustomElement) (h : deref it m = some (r, it1)) :
    ∃ m1, assign_element it v m = some (it, m1) ∧
      IteratorState.load (iterator_state cat) m1 r = some v ∧
      (∀ r1 : ElementRef, r1 ≠ r →
        IteratorState.load (iterator_state cat) m1 r1
          = IteratorState.load (iterator_state cat) m r1) ∧
      (∀ (d : Bool) (j j1 : TestIterator cat d) (r1 : ElementRef),
        deref j m = some (r1, j1) → deref j m1 = some (r1, j)) ∧
      deref it m1 = some (r, it) := by
  obtain ⟨h1, C, hC, hk, hpos⟩ := (test_deref_iff it it1 m r).mp h
  subst h1
  have hstore : IteratorState.store (iterator_state cat) m r v
      = some (m.update r.container { C with InternalData := C.InternalData.set r.index v }) := by
    simp [instTestState, iterator_state.base_ops, iterator_state.store, hC, hk]
  have hderef : ∀ (d : Bool) (j j1 : TestIterator cat d) (r1 : ElementRef),
      deref j m = some (r1, j1) →
      deref j (m.update r.container { C with InternalData := C.InternalData.set r.index v })
        = some (r1, j) := by
    intro d j j1 r1 hj
    obtain ⟨-, C1, hC1, hk1, hpos1⟩ := (test_deref_iff j j1 m r1).mp hj
    rw [test_deref_iff]
    by_cases hc : r1.container = r.container
    · rw [hc] at hC1
      rw [hC] at hC1
      cases hC1
      exact ⟨rfl, _, by rw [hc]; exact update_same _ _ _, by simpa using hk1, hpos1⟩
    · exact ⟨rfl, C1, by simp [CustomMem.update, hc, hC1], hk1, hpos1⟩
  refine ⟨_, ?_, ?_, ?_, hderef, hderef false it1 it1 r h⟩
  · simp only [assign_element, h, hstore]
  · simp [instTestState, iterator_state.base_ops, iterator_state.load, CustomMem.update, hk]
  · intro r1 hr1
    simp only [instTestState, iterator_state.base_ops, iterator_state.load, CustomMem.update]
    by_cases hc : r1.container = r.container
    · have hi : r.index ≠ r1.index := by
        intro hi
        apply hr1
        cases r1
        cases r
        simp_all
      simp [hc, hC, List.getElem?_set_ne hi]
    · simp [hc]

/-- Witness of C30: in the test container `{1,..,8}` at address `1`, `*begin() = 10`; the
first element is `10` afterwards and a second `begin()` iterator dereferences to it. -/
theorem C30_assignment_through_iterator_witness :
    ∃ m1, assign_element (⟨⟨some 1, ⟨some 1, 0⟩⟩⟩ : TestIterator .forward_iterator_tag false)
        ⟨10⟩ test_mem = some (⟨⟨some 1, ⟨some 1, 0⟩⟩⟩, m1) ∧
      IteratorState.load (iterator_state .forward_iterator_tag) m1 ⟨1, 0⟩ = some ⟨10⟩ ∧
      deref (⟨⟨some 1, ⟨some 1, 0⟩⟩⟩ : TestIterator .forward_iterator_tag false) m1
        = some (⟨1, 0⟩, ⟨⟨some 1, ⟨some 1, 0⟩⟩⟩) :=
  have h := C30_assignment_through_iterator .forward_iterator_tag ⟨⟨some 1, ⟨some 1, 0⟩⟩⟩
    ⟨⟨some 1, ⟨some 1, 0⟩⟩⟩ test_mem ⟨1, 0⟩ ⟨10⟩ rfl
  match h with
  | ⟨m1, h1, h2, _, _, h5⟩ => ⟨m1, h1, h2, h5⟩


/-! ## Swap -/

/-- The call `std::swap(a, b)` on two distinct objects, with a state whose copy constructor
duplicates the state: the objects are exchanged, the others (the temporary apart) are left
as they were. -/
theorem std_swap_exchanges [IteratorState S Mem Ref Val] {c : Bool}
    (σ : IteratorObjects S c) (a b tmp : Nat) (ita itb : custom_iterator_template S c)
    (ha : σ a = some ita) (hb : σ b = some itb) (hab : a ≠ b) (hta : tmp ≠ a)
    (htb : tmp ≠ b) (hcopy : copy_constructed ita = ita) :
    ∃ σ1, σ.std_swap a b tmp = some σ1 ∧ σ1 a = some itb ∧ σ1 b = some ita ∧
      ∀ y, y ≠ a → y ≠ b → y ≠ tmp → σ1 y = σ y := by
  have h1 : σ.copy_construct tmp a = some (σ.set tmp ita) := by
    simp [IteratorObjects.copy_construct, ha, hcopy]
  have h2 : (σ.set tmp ita).copy_assign a b = some ((σ.set tmp ita).set a itb) := by
    simp [IteratorObjects.copy_assign, IteratorObjects.set, hab, hta, ha, hb,
      Ne.symm hta, Ne.symm htb, Ne.symm hab, copy_assigned]
  have h3 : ((σ.set tmp ita).set a itb).copy_assign b tmp
      = some (((σ.set tmp ita).set a itb).set b ita) := by
    simp [IteratorObjects.copy_assign, IteratorObjects.set, hab, hta, htb, ha, hb,
      Ne.symm hta, Ne.symm htb, Ne.symm hab, copy_assigned]
  refine ⟨((σ.set tmp ita).set a itb).set b ita, ?_, ?_, ?_, ?_⟩
  · simp only [IteratorObjects.std_swap, h1, h2, h3]
  · simp [IteratorObjects.set, hab]
  · simp [IteratorObjects.set]
  · intro y hya hyb hyt
    simp [IteratorObjects.set, hya, hyb, hyt]

/-- C31: `std::swap` on two distinct iterator objects of one variant, of a test container
(any category) or of the sample container, exchanges them: afterwards the object at `a` is
the former one at `b` and the object at `b` the former one at `a`, in position and in
binding, and each compares equal to the former other. -/
theorem C31_swap_exchanges (c : Bool) (a b tmp : Nat) (hab : a ≠ b) (hta : tmp ≠ a)
    (htb : tmp ≠ b) :
    (∀ (cat : Category) (σ : IteratorObjects (iterator_state cat) c)
        (ita itb : TestIterator cat c), σ a = some ita → σ b = some itb →
      ∃ σ1, σ.std_swap a b tmp = some σ1 ∧ σ1 a = some itb ∧ σ1 b = some ita ∧
        (∀ y, y ≠ a → y ≠ b → y ≠ tmp → σ1 y = σ y) ∧
        (σ1 a).map (fun x => eq x itb) = some true ∧
        (σ1 b).map (fun x => eq x ita) = some true) ∧
    (∀ (σ : IteratorObjects SampleContainer.iterator_state c)
        (ita itb : SampleContainer.Iterator c), σ a = some ita → σ b = some itb →
      ∃ σ1, σ.std_swap a b tmp = some σ1 ∧ σ1 a = some itb ∧ σ1 b = some ita ∧
        (∀ y, y ≠ a → y ≠ b → y ≠ tmp → σ1 y = σ y) ∧
        (σ1 a).map (fun x => eq x itb) = some true ∧
        (σ1 b).map (fun x => eq x ita) = some true) := by
  constructor
  · intro cat σ ita itb ha hb
    obtain ⟨σ1, h1, h2, h3, h4⟩ := std_swap_exchanges σ a b tmp ita itb ha hb hab hta htb rfl
    refine ⟨σ1, h1, h2, h3, h4, ?_, ?_⟩
    · rw [h2]
      simp [test_eq_self]
    · rw [h3]
      simp [test_eq_self]
  · intro σ ita itb ha hb
    obtain ⟨σ1, h1, h2, h3, h4⟩ := std_swap_exchanges σ a b tmp ita itb ha hb hab hta htb rfl
    refine ⟨σ1, h1, h2, h3, h4, ?_, ?_⟩
    · rw [h2]
      simp [sample_eq_self]
    · rw [h3]
      simp [sample_eq_self]

/-- Witness of C31: the iterators at the indices `0` and `1` of the test container
`{1,..,8}`, held at the addresses `0` and `1`, swapped with the temporary at `2`. -/
theorem C31_swap_exchanges_witness :
    ∃ σ1 : IteratorObjects (iterator_state .input_iterator_tag) false,
      IteratorObjects.std_swap
        (fun x => if x = 0 then some ⟨⟨some 1, ⟨some 1, 0⟩⟩⟩
          else if x = 1 then some ⟨⟨some 1, ⟨some 1, 1⟩⟩⟩ else none) 0 1 2 = some σ1 ∧
      σ1 0 = some ⟨⟨some 1, ⟨some 1, 1⟩⟩⟩ ∧ σ1 1 = some ⟨⟨some 1, ⟨some 1, 0⟩⟩⟩ :=
  have h := (C31_swap_exchanges false 0 1 2 (by decide) (by decide) (by decide)).1
    .input_iterator_tag
    (fun x => if x = 0 then some ⟨⟨some 1, ⟨some 1, 0⟩⟩⟩
      else if x = 1 then some ⟨⟨some 1, ⟨some 1, 1⟩⟩⟩ else none)
    ⟨⟨some 1, ⟨some 1, 0⟩⟩⟩ ⟨⟨some 1, ⟨some 1, 1⟩⟩⟩ rfl rfl
  match h with
  | ⟨σ1, h1, h2, h3, _⟩ => ⟨σ1, h1, h2, h3⟩


/-! ## Connection counters -/

/-- The destructor of a test iterator bound to a live container: the container has counted
one more disconnection. -/
theorem test_destruct_bound {cat : Category} {c : Bool} (it : TestIterator cat c)
    (m : CustomMem) (a : Nat) (C : CustomContainerBase)
    (hit : it.iteratorState_.container_ = some a) (h : m a = some C) :
    it.destruct m = some (m.update a
      { C with IteratorDisconnectCount := wrap_uint (C.IteratorDisconnectCount + 1) }) := by
  simp [custom_iterator_template.destruct, instTestState, iterator_state.base_ops,
    iterator_state.destroy, hit, h]

/-- The destructor of an unbound test iterator: the memory is left as it was. -/
theorem test_destruct_unbound {cat : Category} {c : Bool} (it : TestIterator cat c)
    (m : CustomMem) (hit : it.iteratorState_.container_ = none) :
    it.destruct m = some m := by
  simp [custom_iterator_template.destruct, instTestState, iterator_state.base_ops,
    iterator_state.destroy, hit]

/-- The factory `begin` on a live test container when the returned iterator is a copy of
the local one: the container has counted one connection and, for the destroyed local, one
disconnection. -/
theorem test_begin_returning_copy_eq (cat : Category) (c : Bool) (m : CustomMem) (a : Nat)
    (C : CustomContainerBase) (h : m a = some C) :
    begin_returning_copy (S := iterator_state cat) c (some a) m =
      some (⟨⟨some a, ⟨vector_storage a C.InternalData, 0⟩⟩⟩,
        (m.update a
          { C with IteratorConnectCount := wrap_uint (C.IteratorConnectCount + 1) }).update a
          { C with
            IteratorConnectCount := wrap_uint (C.IteratorConnectCount + 1)
            IteratorDisconnectCount := wrap_uint (C.IteratorDisconnectCount + 1) }) := by
  simp [begin_returning_copy, custom_iterator_template.destruct, connected, copy_constructed,
    instTestState, iterator_state.base_ops, iterator_state.connect, iterator_state.begin,
    iterator_state.destroy, iterator_state.copy, h, CustomMem.update]

/-- C32, as stated, fails when the counter is at the largest value of `unsigned int`:
destroying an iterator bound to a container whose `IteratorDisconnectCount` is `4294967295`
leaves the counter at `0`. -/
theorem C32_counterexample :
    (destruct (⟨⟨some 1, ⟨some 1, 0⟩⟩⟩ : TestIterator .forward_iterator_tag false)
        (fun p => if p = 1 then some ⟨[⟨1⟩], 1, 4294967295⟩ else none)).map (fun m1 => m1 1)
      = some (some ⟨[⟨1⟩], 1, 0⟩) ∧
    (0 : Nat) ≠ 4294967295 + 1 :=
  ⟨rfl, by decide⟩

/-- C32 (amended): for each test container (any category, either variant): `begin()` on a
container whose counters are `0` leaves `IteratorConnectCount` at `1` and, the returned
iterator being the local iterator of the factory itself (copy elision),
`IteratorDisconnectCount` at `0`; when the returned iterator is a copy of the local one, the
destroyed local has counted and `IteratorDisconnectCount` is `1`.  Destroying an iterator
bound to a live container raises `IteratorDisconnectCount` by one in `unsigned int` (by
exactly one below the largest value, to `0` from it) and leaves `IteratorConnectCount`, the
elements and the other containers as they were; destroying an unbound iterator changes
nothing in the memory.  The lifetime of a destroyed iterator has ended: nothing is stated of
destroying it again. -/
theorem C32_connection_counters (cat : Category) (c : Bool) (m : CustomMem) :
    (∀ (a : Nat) (C : CustomContainerBase), m a = some C →
      C.IteratorConnectCount = 0 → C.IteratorDisconnectCount = 0 →
      (∃ it m1 C1, begin (S := iterator_state cat) c (some a) m = some (it, m1) ∧
        m1 a = some C1 ∧ C1.IteratorConnectCount = 1 ∧ C1.IteratorDisconnectCount = 0) ∧
      (∃ it m1 C1,
        begin_returning_copy (S := iterator_state cat) c (some a) m = some (it, m1) ∧
        m1 a = some C1 ∧ C1.IteratorConnectCount = 1 ∧ C1.IteratorDisconnectCount = 1)) ∧
    (∀ (it : TestIterator cat c) (a : Nat) (C : CustomContainerBase),
      it.iteratorState_.container_ = some a → m a = some C →
      ∃ m1 C1, it.destruct m = some m1 ∧ m1 a = some C1 ∧
        C1.IteratorDisconnectCount = wrap_uint (C.IteratorDisconnectCount + 1) ∧
        (C.IteratorDisconnectCount < 4294967295 →
          C1.IteratorDisconnectCount = C.IteratorDisconnectCount + 1) ∧
        C1.IteratorConnectCount = C.IteratorConnectCount ∧
        C1.InternalData = C.InternalData ∧
        (∀ b, b ≠ a → m1 b = m b)) ∧
    (∀ it : TestIterator cat c, it.iteratorState_.container_ = none →
      it.destruct m = some m) := by
  refine ⟨fun a C h h0 h1 => ⟨?_, ?_⟩, fun it a C hit h => ?_, fun it hit => ?_⟩
  · refine ⟨_, _, _, test_begin_eq cat c m a C h, update_same m a _, ?_, h1⟩
    simp [h0, wrap_uint]
  · refine ⟨_, _, _, test_begin_returning_copy_eq cat c m a C h, update_same _ a _, ?_, ?_⟩
    · simp [h0, wrap_uint]
    · simp [h1, wrap_uint]
  · refine ⟨_, _, test_destruct_bound it m a C hit h, update_same m a _, rfl, ?_, rfl, rfl,
      ?_⟩
    · intro hlt
      simp only [wrap_uint]
      omega
    · intro b hb
      simp [CustomMem.update, hb]
  · exact test_destruct_unbound it m hit

/-- Witness of C32 (amended): the test container `{1,..,8}` at address `1`, its counters at
`0`: `begin()`, and the destruction of an iterator bound to it. -/
theorem C32_connection_counters_witness :
    (∃ it m1 C1,
      begin (S := iterator_state .input_iterator_tag) false (some 1) test_mem = some (it, m1) ∧
      m1 1 = some C1 ∧ C1.IteratorConnectCount = 1 ∧ C1.IteratorDisconnectCount = 0) ∧
    (∃ m1 C1,
      destruct (⟨⟨some 1, ⟨some 1, 0⟩⟩⟩ : TestIterator .input_iterator_tag false) test_mem
        = some m1 ∧
      m1 1 = some C1 ∧ C1.IteratorDisconnectCount = 0 + 1) :=
  ⟨((C32_connection_counters .input_iterator_tag false test_mem).1 1 _ rfl rfl rfl).1,
   match (C32_connection_counters .input_iterator_tag false test_mem).2.1
      ⟨⟨some 1, ⟨some 1, 0⟩⟩⟩ 1 (CustomContainerBase.of_values [1, 2, 3, 4, 5, 6, 7, 8])
      rfl rfl with
   | ⟨m1, C1, h1, h2, _, h4, _⟩ => ⟨m1, C1, h1, h2, h4 (by decide)⟩⟩

/-! ## The equality rule of the adaptor -/

/-- C33: when at least one operand is unbound, `==` and `!=` are functions of the two
connectivity flags alone (equal exactly when both are unbound), for any state and each
variant combination; in the control flow of `is_equal` the call of the state's `is_equal` is
reached only with both operands bound, so with an unbound operand the comparison has a
result even where that call has none; and the control flow with the state's answer is the
`is_equal` of the adaptor. -/
theorem C33_unbound_comparison_by_flags [IteratorState S Mem Ref Val] {c d : Bool}
    (a : custom_iterator_template S c) (b : custom_iterator_template S d) :
    ((a.is_connected = false ∨ b.is_connected = false) →
      eq a b = (!a.is_connected && !b.is_connected) ∧
      ne a b = !(!a.is_connected && !b.is_connected)) ∧
    (∀ (this_connected other_connected : Bool) (state_is_equal : Option Bool),
      (this_connected = false ∨ other_connected = false) →
      is_equal_flow this_connected other_connected state_is_equal
        = some (!this_connected && !other_connected)) ∧
    (∀ this_connected other_connected : Bool,
      is_equal_flow this_connected other_connected none = none →
      this_connected = true ∧ other_connected = true) ∧
    is_equal_flow a.is_connected b.is_connected
        (some (IteratorState.is_equal a.iteratorState_ b.iteratorState_))
      = some (eq a b) := by
  refine ⟨fun h => ?_, ?_, ?_, ?_⟩
  · rw [ne_unfold, eq_unfold]
    simp only [is_connected] at h ⊢
    rcases h with h | h <;> simp [h]
  · intro tc oc x h
    cases tc <;> cases oc <;> simp [is_equal_flow] at h ⊢
  · intro tc oc h
    cases tc <;> cases oc <;> simp [is_equal_flow] at h ⊢
  · have key : ∀ (ca cb e : Bool),
        is_equal_flow ca cb (some e) = some (if ca then (cb && e) else !cb) := by
      intro ca cb e
      cases ca <;> cases cb <;> simp [is_equal_flow]
    rw [eq_unfold]
    exact key _ _ _

/-- Witness of C33: a default-constructed forward test iterator compared with an iterator
at the start of the test container `{1,..,8}`. -/
theorem C33_unbound_comparison_by_flags_witness :
    eq (default_constructed (S := iterator_state .forward_iterator_tag) false)
        (⟨⟨some 1, ⟨some 1, 0⟩⟩⟩ : TestIterator .forward_iterator_tag true)
      = (!(default_constructed (S := iterator_state .forward_iterator_tag) false).is_connected
        && !(⟨⟨some 1, ⟨some 1, 0⟩⟩⟩ : TestIterator .forward_iterator_tag true).is_connected) ∧
    is_equal_flow false true none = some (!false && !true) :=
  ⟨((C33_unbound_comparison_by_flags
      (default_constructed (S := iterator_state .forward_iterator_tag) false)
      (⟨⟨some 1, ⟨some 1, 0⟩⟩⟩ : TestIterator .forward_iterator_tag true)).1
      (Or.inl rfl)).1,
   (C33_unbound_comparison_by_flags
      (default_constructed (S := iterator_state .forward_iterator_tag) false)
      (⟨⟨some 1, ⟨some 1, 0⟩⟩⟩ : TestIterator .forward_iterator_tag true)).2.1
      false true none (Or.inl rfl)⟩

/-- C34: over any state whose `is_equal` is reflexive, symmetric and transitive across the
two variants, the equality of the adaptor is an equivalence relation on the iterators of
both variants, bound and unbound together. -/
theorem C34_equality_is_equivalence [IteratorState S Mem Ref Val]
    (hrefl : ∀ (c : Bool) (s : S c), IteratorState.is_equal s s = true)
    (hsymm : ∀ (c d : Bool) (s : S c) (t : S d),
      IteratorState.is_equal s t = true → IteratorState.is_equal t s = true)
    (htrans : ∀ (c d e : Bool) (s : S c) (t : S d) (u : S e),
      IteratorState.is_equal s t = true → IteratorState.is_equal t u = true →
      IteratorState.is_equal s u = true)
    {c d e : Bool} (x : custom_iterator_template S c) (y : custom_iterator_template S d)
    (z : custom_iterator_template S e) :
    eq x x = true ∧ (eq x y = true → eq y x = true) ∧
    (eq x y = true → eq y z = true → eq x z = true) := by
  simp only [eq_unfold]
  have h1 := hrefl c x.iteratorState_
  have h2 := hsymm c d x.iteratorState_ y.iteratorState_
  have h3 := htrans c d e x.iteratorState_ y.iteratorState_ z.iteratorState_
  cases IteratorState.is_connected x.iteratorState_ <;>
    cases IteratorState.is_connected y.iteratorState_ <;>
    cases IteratorState.is_connected z.iteratorState_ <;> simp_all

/-- The `is_equal` of the test states is reflexive. -/
theorem test_state_is_equal_refl (cat : Category) (c : Bool) (s : iterator_state cat c) :
    IteratorState.is_equal s s = true := by
  show iterator_state.is_equal s s = true
  simp [iterator_state.is_equal]

/-- The `is_equal` of the test states is symmetric. -/
theorem test_state_is_equal_symm (cat : Category) (c d : Bool) (s : iterator_state cat c)
    (t : iterator_state cat d) (h : IteratorState.is_equal s t = true) :
    IteratorState.is_equal t s = true := by
  have h1 : iterator_state.is_equal s t = true := h
  show iterator_state.is_equal t s = true
  simp only [iterator_state.is_equal, beq_iff_eq] at h1 ⊢
  exact h1.symm

/-- The `is_equal` of the test states is transitive. -/
theorem test_state_is_equal_trans (cat : Category) (c d e : Bool) (s : iterator_state cat c)
    (t : iterator_state cat d) (u : iterator_state cat e)
    (h : IteratorState.is_equal s t = true) (k : IteratorState.is_equal t u = true) :
    IteratorState.is_equal s u = true := by
  have h1 : iterator_state.is_equal s t = true := h
  have k1 : iterator_state.is_equal t u = true := k
  show iterator_state.is_equal s u = true
  simp only [iterator_state.is_equal, beq_iff_eq] at h1 k1 ⊢
  exact h1.trans k1

/-- Witness of C34: the forward test state; a changeable and a const iterator at the start
of the test container `{1,..,8}` and a default-constructed one. -/
theorem C34_equality_is_equivalence_witness :
    eq (⟨⟨some 1, ⟨some 1, 0⟩⟩⟩ : TestIterator .forward_iterator_tag false)
      (⟨⟨some 1, ⟨some 1, 0⟩⟩⟩ : TestIterator .forward_iterator_tag false) = true ∧
    (eq (⟨⟨some 1, ⟨some 1, 0⟩⟩⟩ : TestIterator .forward_iterator_tag false)
        (⟨⟨some 1, ⟨some 1, 0⟩⟩⟩ : TestIterator .forward_iterator_tag true) = true →
      eq (⟨⟨some 1, ⟨some 1, 0⟩⟩⟩ : TestIterator .forward_iterator_tag true)
        (⟨⟨some 1, ⟨some 1, 0⟩⟩⟩ : TestIterator .forward_iterator_tag false) = true) ∧
    (eq (⟨⟨some 1, ⟨some 1, 0⟩⟩⟩ : TestIterator .forward_iterator_tag false)
        (⟨⟨some 1, ⟨some 1, 0⟩⟩⟩ : TestIterator .forward_iterator_tag true) = true →
      eq (⟨⟨some 1, ⟨some 1, 0⟩⟩⟩ : TestIterator .forward_iterator_tag true)
        (default_constructed (S := iterator_state .forward_iterator_tag) false) = true →
      eq (⟨⟨some 1, ⟨some 1, 0⟩⟩⟩ : TestIterator .forward_iterator_tag false)
        (default_constructed (S := iterator_state .forward_iterator_tag) false) = true) :=
  C34_equality_is_equivalence (test_state_is_equal_refl .forward_iterator_tag)
    (test_state_is_equal_symm .forward_iterator_tag)
    (test_state_is_equal_trans .forward_iterator_tag)
    (⟨⟨some 1, ⟨some 1, 0⟩⟩⟩ : TestIterator .forward_iterator_tag false)
    (⟨⟨some 1, ⟨some 1, 0⟩⟩⟩ : TestIterator .forward_iterator_tag true)
    (default_constructed (S := iterator_state .forward_iterator_tag) false)

/-- C39: the two private overloads of `is_equal` are one function of the connectivity flags
and of the state's `is_equal`, the one the specification words: both unbound, or both bound
and the state's `is_equal` holds; and where the second connectivity test is evaluated (the
first `if` not taken: this iterator is bound) `!other connected && this connected` is
`!other connected`. -/
theorem C39_is_equal_overloads_agree [IteratorState S Mem Ref Val] {c : Bool}
    (self : custom_iterator_template S c) (other_const : custom_iterator_template S true)
    (other_mutable : custom_iterator_template S false) :
    is_equal_const self other_const
      = is_equal_spec (IteratorState.is_connected self.iteratorState_)
          (IteratorState.is_connected other_const.iteratorState_)
          (IteratorState.is_equal self.iteratorState_ other_const.iteratorState_) ∧
    is_equal_mutable self other_mutable
      = is_equal_spec (IteratorState.is_connected self.iteratorState_)
          (IteratorState.is_connected other_mutable.iteratorState_)
          (IteratorState.is_equal self.iteratorState_ other_mutable.iteratorState_) ∧
    (∀ this_connected other_connected : Bool, (!this_connected) = false →
      (!other_connected && this_connected) = !other_connected) := by
  refine ⟨?_, ?_, ?_⟩
  · simp only [is_equal_const, is_equal_spec]
    cases IteratorState.is_connected self.iteratorState_ <;>
      cases IteratorState.is_connected other_const.iteratorState_ <;> simp
  · simp only [is_equal_mutable, is_equal_spec]
    cases IteratorState.is_connected self.iteratorState_ <;>
      cases IteratorState.is_connected other_mutable.iteratorState_ <;> simp
  · intro tc oc h
    cases tc <;> cases oc <;> simp at h ⊢

/-- Witness of C39: a bound iterator against an unbound one. -/
theorem C39_is_equal_overloads_agree_witness :
    (!false && true) = !false :=
  (C39_is_equal_overloads_agree
    (⟨⟨some 1, ⟨some 1, 0⟩⟩⟩ : TestIterator .forward_iterator_tag false)
    (default_constructed (S := iterator_state .forward_iterator_tag) true)
    (default_constructed (S := iterator_state .forward_iterator_tag) false)).2.2
    true false rfl


/-! ## Movement and binding -/

/-- C35: movement never changes the binding: after `++` (pre or post form) on a test
iterator of any category or on a sample iterator, after `--` (pre or post form) on a
bidirectional or random access test iterator or on a sample iterator, and after `+= n` or
`-= n` on a random access test iterator, the iterator is bound to the container it was bound
to and reports the `is_connected()` it reported. -/
theorem C35_movement_keeps_binding (c : Bool) :
    (∀ (cat : Category) (it : TestIterator cat c),
      (pre_increment it).iteratorState_.container_ = it.iteratorState_.container_ ∧
      (pre_increment it).is_connected = it.is_connected ∧
      (post_increment it).2.iteratorState_.container_ = it.iteratorState_.container_ ∧
      (post_increment it).2.is_connected = it.is_connected) ∧
    (∀ it : TestIterator .bidirectional_iterator_tag c,
      (pre_decrement it).iteratorState_.container_ = it.iteratorState_.container_ ∧
      (pre_decrement it).is_connected = it.is_connected ∧
      (post_decrement it).2.iteratorState_.container_ = it.iteratorState_.container_ ∧
      (post_decrement it).2.is_connected = it.is_connected) ∧
    (∀ (it : RandomAccessIterator c) (n : Int),
      (pre_decrement it).iteratorState_.container_ = it.iteratorState_.container_ ∧
      (pre_decrement it).is_connected = it.is_connected ∧
      (post_decrement it).2.iteratorState_.container_ = it.iteratorState_.container_ ∧
      (post_decrement it).2.is_connected = it.is_connected ∧
      (add_assign it n).iteratorState_.container_ = it.iteratorState_.container_ ∧
      (add_assign it n).is_connected = it.is_connected ∧
      (sub_assign it n).iteratorState_.container_ = it.iteratorState_.container_ ∧
      (sub_assign it n).is_connected = it.is_connected) ∧
    (∀ it : SampleContainer.Iterator c,
      (pre_increment it).iteratorState_.container_ = it.iteratorState_.container_ ∧
      (pre_increment it).is_connected = it.is_connected ∧
      (post_increment it).2.iteratorState_.container_ = it.iteratorState_.container_ ∧
      (post_increment it).2.is_connected = it.is_connected ∧
      (pre_decrement it).iteratorState_.container_ = it.iteratorState_.container_ ∧
      (pre_decrement it).is_connected = it.is_connected ∧
      (post_decrement it).2.iteratorState_.container_ = it.iteratorState_.container_ ∧
      (post_decrement it).2.is_connected = it.is_connected) :=
  ⟨fun _ _ => ⟨rfl, rfl, rfl, rfl⟩, fun _ => ⟨rfl, rfl, rfl, rfl⟩,
    fun _ _ => ⟨rfl, rfl, rfl, rfl, rfl, rfl, rfl, rfl⟩,
    fun _ => ⟨rfl, rfl, rfl, rfl, rfl, rfl, rfl, rfl⟩⟩

/-! ## Binary operators and their operands -/

/-- The body of `operator+` or `operator-` by an offset, on the object at `x` with the
result at another address `res`: the object at `x` and every object other than the result
is left as it was, the result is the moved copy. -/
theorem result_of_copy_then_move [IteratorState S Mem Ref Val] {c : Bool}
    (σ : IteratorObjects S c) (res x : Nat) (it : custom_iterator_template S c)
    (operation : custom_iterator_template S c → custom_iterator_template S c)
    (hx : σ x = some it) (hne : res ≠ x) :
    (match σ.copy_construct res x with
      | none => none
      | some σ1 => σ1.move_object res operation)
      = some ((σ.set res (copy_constructed it)).set res (operation (copy_constructed it))) ∧
    ((σ.set res (copy_constructed it)).set res (operation (copy_constructed it))) x
      = some it ∧
    ((σ.set res (copy_constructed it)).set res (operation (copy_constructed it))) res
      = some (operation (copy_constructed it)) ∧
    ∀ y, y ≠ res →
      ((σ.set res (copy_constructed it)).set res (operation (copy_constructed it))) y
        = σ y := by
  refine ⟨?_, ?_, ?_, ?_⟩
  · simp [IteratorObjects.copy_construct, IteratorObjects.move_object, IteratorObjects.set, hx]
  · simp [IteratorObjects.set, Ne.symm hne, hx]
  · simp [IteratorObjects.set]
  · intro y hy
    simp [IteratorObjects.set, hy]

/-- The evaluation of a `const` member operator on two objects: the value of the operator
on them, and the objects as they were. -/
theorem const_member_eq {α : Type} {c d : Bool} (σ : IteratorObjects S c)
    (τ : IteratorObjects S d) (x y : Nat) (a : custom_iterator_template S c)
    (b : custom_iterator_template S d)
    (op : custom_iterator_template S c → custom_iterator_template S d → α)
    (hx : σ x = some a) (hy : τ y = some b) :
    σ.const_member τ x y op = some (op a b, σ, τ) := by
  simp [IteratorObjects.const_member, hx, hy]

/-- C36: on random access test iterators (either variant) held as objects, evaluating
`it + n`, `n + it` or `it - n` with the result in a fresh object leaves the operand, and
every other object, as it was, and the result is an iterator with the binding of `it`
(`it + n` and `n + it` the same one); evaluating the difference `it - b` (operands of one
variant), `it == b`, `it != b` (any variant combination) or `it < b`, `it <= b`, `it > b`,
`it >= b` (changeable right operand) gives the value of the operator on the two operands and
leaves all objects, the operands among them, as they were; so does evaluating `==` and `!=`
on test iterators of any category and on sample iterators. -/
theorem C36_operators_leave_operands (c : Bool)
    (σ : IteratorObjects (iterator_state .random_access_iterator_tag) c) (res x : Nat)
    (it : RandomAccessIterator c) (n : Int) (hx : σ x = some it) (hne : res ≠ x) :
    (∃ σ1, σ.operator_plus res x n = some σ1 ∧ σ1 x = some it ∧
      σ1 res = some (add it n) ∧ σ1 res = some (add_left n it) ∧
      (∀ y, y ≠ res → σ1 y = σ y)) ∧
    (∃ σ1, σ.operator_minus res x n = some σ1 ∧ σ1 x = some it ∧
      σ1 res = some (sub it n) ∧ (∀ y, y ≠ res → σ1 y = σ y)) ∧
    (add it n).iteratorState_.container_ = it.iteratorState_.container_ ∧
    (add_left n it).iteratorState_.container_ = it.iteratorState_.container_ ∧
    (sub it n).iteratorState_.container_ = it.iteratorState_.container_ ∧
    (add it n).is_connected = it.is_connected ∧
    (sub it n).is_connected = it.is_connected ∧
    (∀ (τ : IteratorObjects (iterator_state .random_access_iterator_tag) c) (y : Nat)
      (b : RandomAccessIterator c), τ y = some b →
      ∃ σ1 τ1, σ.const_member τ x y diff = some (diff it b, σ1, τ1) ∧
        σ1 = σ ∧ τ1 = τ ∧ σ1 x = some it ∧ τ1 y = some b) ∧
    (∀ (d : Bool) (τ : IteratorObjects (iterator_state .random_access_iterator_tag) d)
      (y : Nat) (b : RandomAccessIterator d), τ y = some b →
      (∃ σ1 τ1, σ.const_member τ x y eq = some (eq it b, σ1, τ1) ∧
        σ1 = σ ∧ τ1 = τ ∧ σ1 x = some it ∧ τ1 y = some b) ∧
      (∃ σ1 τ1, σ.const_member τ x y ne = some (ne it b, σ1, τ1) ∧
        σ1 = σ ∧ τ1 = τ ∧ σ1 x = some it ∧ τ1 y = some b)) ∧
    (∀ (τ : IteratorObjects (iterator_state .random_access_iterator_tag) false) (y : Nat)
      (b : RandomAccessIterator false), τ y = some b →
      (∃ σ1 τ1, σ.const_member τ x y lt = some (lt it b, σ1, τ1) ∧
        σ1 = σ ∧ τ1 = τ ∧ σ1 x = some it ∧ τ1 y = some b) ∧
      (∃ σ1 τ1, σ.const_member τ x y le = some (le it b, σ1, τ1) ∧
        σ1 = σ ∧ τ1 = τ ∧ σ1 x = some it ∧ τ1 y = some b) ∧
      (∃ σ1 τ1, σ.const_member τ x y gt = some (gt it b, σ1, τ1) ∧
        σ1 = σ ∧ τ1 = τ ∧ σ1 x = some it ∧ τ1 y = some b) ∧
      (∃ σ1 τ1, σ.const_member τ x y ge = some (ge it b, σ1, τ1) ∧
        σ1 = σ ∧ τ1 = τ ∧ σ1 x = some it ∧ τ1 y = some b)) ∧
    (∀ (cat : Category) (d e : Bool) (σ2 : IteratorObjects (iterator_state cat) d)
      (τ : IteratorObjects (iterator_state cat) e) (x2 y : Nat) (a : TestIterator cat d)
      (b : TestIterator cat e), σ2 x2 = some a → τ y = some b →
      σ2.const_member τ x2 y eq = some (eq a b, σ2, τ) ∧
      σ2.const_member τ x2 y ne = some (ne a b, σ2, τ)) ∧
    (∀ (d e : Bool) (σ2 : IteratorObjects SampleContainer.iterator_state d)
      (τ : IteratorObjects SampleContainer.iterator_state e) (x2 y : Nat)
      (a : SampleContainer.Iterator d) (b : SampleContainer.Iterator e),
      σ2 x2 = some a → τ y = some b →
      σ2.const_member τ x2 y eq = some (eq a b, σ2, τ) ∧
      σ2.const_member τ x2 y ne = some (ne a b, σ2, τ)) := by
  have hp := result_of_copy_then_move σ res x it (fun result => add_assign result n) hx hne
  have hm := result_of_copy_then_move σ res x it (fun result => sub_assign result n) hx hne
  refine ⟨⟨_, hp.1, hp.2.1, hp.2.2.1, hp.2.2.1, hp.2.2.2⟩,
    ⟨_, hm.1, hm.2.1, hm.2.2.1, hm.2.2.2⟩, rfl, rfl, rfl, rfl, rfl, ?_, ?_, ?_, ?_, ?_⟩
  · intro τ y b hy
    exact ⟨σ, τ, const_member_eq σ τ x y it b _ hx hy, rfl, rfl, hx, hy⟩
  · intro d τ y b hy
    exact ⟨⟨σ, τ, const_member_eq σ τ x y it b _ hx hy, rfl, rfl, hx, hy⟩,
      ⟨σ, τ, const_member_eq σ τ x y it b _ hx hy, rfl, rfl, hx, hy⟩⟩
  · intro τ y b hy
    exact ⟨⟨σ, τ, const_member_eq σ τ x y it b _ hx hy, rfl, rfl, hx, hy⟩,
      ⟨σ, τ, const_member_eq σ τ x y it b _ hx hy, rfl, rfl, hx, hy⟩,
      ⟨σ, τ, const_member_eq σ τ x y it b _ hx hy, rfl, rfl, hx, hy⟩,
      ⟨σ, τ, const_member_eq σ τ x y it b _ hx hy, rfl, rfl, hx, hy⟩⟩
  · intro cat d e σ2 τ x2 y a b h2 hy
    exact ⟨const_member_eq σ2 τ x2 y a b _ h2 hy, const_member_eq σ2 τ x2 y a b _ h2 hy⟩
  · intro d e σ2 τ x2 y a b h2 hy
    exact ⟨const_member_eq σ2 τ x2 y a b _ h2 hy, const_member_eq σ2 τ x2 y a b _ h2 hy⟩

/-- Witness of C36: the iterators at the indices `2` and `5` of the test container
`{1,..,8}`, held at the addresses `0` and `2`; `it + 3` with the result at the address `1`,
and the difference and `<` of the two. -/
theorem C36_operators_leave_operands_witness :
    (∃ σ1 : IteratorObjects (iterator_state .random_access_iterator_tag) false,
      IteratorObjects.operator_plus
        (fun y => if y = 0 then some ⟨⟨some 1, ⟨some 1, 2⟩⟩⟩
          else if y = 2 then some ⟨⟨some 1, ⟨some 1, 5⟩⟩⟩ else none) 1 0 3 = some σ1 ∧
      σ1 0 = some ⟨⟨some 1, ⟨some 1, 2⟩⟩⟩ ∧
      σ1 1 = some (add ⟨⟨some 1, ⟨some 1, 2⟩⟩⟩ 3)) ∧
    (∃ σ1 τ1 : IteratorObjects (iterator_state .random_access_iterator_tag) false,
      IteratorObjects.const_member
        (fun y => if y = 0 then some ⟨⟨some 1, ⟨some 1, 2⟩⟩⟩
          else if y = 2 then some ⟨⟨some 1, ⟨some 1, 5⟩⟩⟩ else none)
        (fun y => if y = 0 then some ⟨⟨some 1, ⟨some 1, 2⟩⟩⟩
          else if y = 2 then some ⟨⟨some 1, ⟨some 1, 5⟩⟩⟩ else none) 0 2 diff
        = some (diff (⟨⟨some 1, ⟨some 1, 2⟩⟩⟩ : RandomAccessIterator false)
            ⟨⟨some 1, ⟨some 1, 5⟩⟩⟩, σ1, τ1) ∧
      σ1 0 = some ⟨⟨some 1, ⟨some 1, 2⟩⟩⟩ ∧ τ1 2 = some ⟨⟨some 1, ⟨some 1, 5⟩⟩⟩) ∧
    (∃ σ1 τ1 : IteratorObjects (iterator_state .random_access_iterator_tag) false,
      IteratorObjects.const_member
        (fun y => if y = 0 then some ⟨⟨some 1, ⟨some 1, 2⟩⟩⟩
          else if y = 2 then some ⟨⟨some 1, ⟨some 1, 5⟩⟩⟩ else none)
        (fun y => if y = 0 then some ⟨⟨some 1, ⟨some 1, 2⟩⟩⟩
          else if y = 2 then some ⟨⟨some 1, ⟨some 1, 5⟩⟩⟩ else none) 0 2 lt
        = some (lt (⟨⟨some 1, ⟨some 1, 2⟩⟩⟩ : RandomAccessIterator false)
            ⟨⟨some 1, ⟨some 1, 5⟩⟩⟩, σ1, τ1) ∧
      σ1 0 = some ⟨⟨some 1, ⟨some 1, 2⟩⟩⟩ ∧ τ1 2 = some ⟨⟨some 1, ⟨some 1, 5⟩⟩⟩) :=
  have h := C36_operators_leave_operands false
    (fun y => if y = 0 then some ⟨⟨some 1, ⟨some 1, 2⟩⟩⟩
      else if y = 2 then some ⟨⟨some 1, ⟨some 1, 5⟩⟩⟩ else none) 1 0
    ⟨⟨some 1, ⟨some 1, 2⟩⟩⟩ 3 rfl (by decide)
  ⟨match h.1 with
    | ⟨σ1, h1, h2, h3, _⟩ => ⟨σ1, h1, h2, h3⟩,
   match h.2.2.2.2.2.2.2.1 _ 2 ⟨⟨some 1, ⟨some 1, 5⟩⟩⟩ rfl with
    | ⟨σ1, τ1, h1, _, _, h4, h5⟩ => ⟨σ1, τ1, h1, h4, h5⟩,
   match (h.2.2.2.2.2.2.2.2.2.1 _ 2 ⟨⟨some 1, ⟨some 1, 5⟩⟩⟩ rfl).1 with
    | ⟨σ1, τ1, h1, _, _, h4, h5⟩ => ⟨σ1, τ1, h1, h4, h5⟩⟩


/-! ## Composition of offsets, conversion and movement -/

/-- C37: on a random access test iterator `it` (either variant) and for offsets `j`, `k`
with `it`, `it + j` and `(it + j) + k` within `[begin, end]`: the sum `j + k` is one
`ptrdiff_t` has, `(it + j) + k == it + (j + k)`, and `+= j` followed by `+= k` leaves the
iterator where `+= (j + k)` does. -/
theorem C37_offsets_compose (c : Bool) (mem : CustomMem) (it : RandomAccessIterator c)
    (j k : Int) (h0 : in_range mem it = true) (_h1 : in_range mem (add it j) = true)
    (h2 : in_range mem (add (add it j) k) = true) :
    wrap_ptrdiff (j + k) = j + k ∧
    eq (add (add it j) k) (add it (j + k)) = true ∧
    add_assign (add_assign it j) k = add_assign it (j + k) ∧
    add (add it j) k = add it (wrap_ptrdiff (j + k)) := by
  obtain ⟨⟨p, ⟨v, i⟩⟩⟩ := it
  rw [test_add, test_add] at h2
  obtain ⟨a, C, -, hC, -, hi0, hi1, hmax⟩ := (in_range_iff mem p v i).mp h0
  obtain ⟨a2, C2, -, hC2, -, hk0, hk1, hmax2⟩ := (in_range_iff mem p v (i + j + k)).mp h2
  have hw : wrap_ptrdiff (j + k) = j + k := by
    apply wrap_ptrdiff_of_range <;> simp only [PTRDIFF_MIN, PTRDIFF_MAX] at * <;> omega
  have hsum : (⟨⟨p, ⟨v, i + j + k⟩⟩⟩ : RandomAccessIterator c) = ⟨⟨p, ⟨v, i + (j + k)⟩⟩⟩ := by
    rw [Int.add_assoc]
  refine ⟨hw, ?_, ?_, ?_⟩
  · rw [test_add, test_add, test_add, hsum]
    exact test_eq_self _
  · rw [test_add_assign, test_add_assign, test_add_assign, hsum]
  · rw [hw, test_add, test_add, test_add, hsum]

/-- Witness of C37: from `begin()` of the test container `{1,..,8}`, `+= 5` then `+= -3`
is `+= 2`, and dereferences to `3`. -/
theorem C37_offsets_compose_witness :
    add_assign (add_assign (⟨⟨some 1, ⟨some 1, 0⟩⟩⟩ : RandomAccessIterator false) 5) (-3)
      = add_assign ⟨⟨some 1, ⟨some 1, 0⟩⟩⟩ (5 + -3) ∧
    deref (add_assign (add_assign (⟨⟨some 1, ⟨some 1, 0⟩⟩⟩ : RandomAccessIterator false) 5)
      (-3)) test_mem = some (⟨1, 2⟩, ⟨⟨some 1, ⟨some 1, 2⟩⟩⟩) ∧
    IteratorState.load (iterator_state .random_access_iterator_tag) test_mem ⟨1, 2⟩
      = some ⟨3⟩ :=
  ⟨(C37_offsets_compose false test_mem ⟨⟨some 1, ⟨some 1, 0⟩⟩⟩ 5 (-3)
      (by decide) (by decide) (by decide)).2.2.1, rfl, by decide⟩

/-- C38: on changeable random access test iterators `a`, `b` within `[begin, end]` and an
offset `n` that keeps `a + n` there, the conversion to the const variant commutes with the
movement and keeps the distance: the converted `a + n` is equal to the converted `a` plus
`n`, the converted `++a` to `++` of the converted `a`, and the difference of the converted
iterators is `a - b`. -/
theorem C38_conversion_commutes_with_movement (mem : CustomMem)
    (a b : RandomAccessIterator false) (n : Int) (_ha : in_range mem a = true)
    (_hb : in_range mem b = true) (_hn : in_range mem (add a n) = true) :
    eq (cast_to_const (add a n)) (add (cast_to_const a) n) = true ∧
    cast_to_const (add a n) = add (cast_to_const a) n ∧
    eq (cast_to_const (pre_increment a)) (pre_increment (cast_to_const a)) = true ∧
    cast_to_const (pre_increment a) = pre_increment (cast_to_const a) ∧
    diff (cast_to_const a) (cast_to_const b) = diff a b :=
  ⟨test_eq_self _, rfl, test_eq_self _, rfl, rfl⟩

/-- Witness of C38: the iterators at the indices `5` and `2` of the test container
`{1,..,8}` and the offset `-3`. -/
theorem C38_conversion_commutes_with_movement_witness :
    eq (cast_to_const (add (⟨⟨some 1, ⟨some 1, 5⟩⟩⟩ : RandomAccessIterator false) (-3)))
      (add (cast_to_const ⟨⟨some 1, ⟨some 1, 5⟩⟩⟩) (-3)) = true ∧
    diff (cast_to_const (⟨⟨some 1, ⟨some 1, 5⟩⟩⟩ : RandomAccessIterator false))
        (cast_to_const ⟨⟨some 1, ⟨some 1, 2⟩⟩⟩)
      = diff (⟨⟨some 1, ⟨some 1, 5⟩⟩⟩ : RandomAccessIterator false) ⟨⟨some 1, ⟨some 1, 2⟩⟩⟩ :=
  have h := C38_conversion_commutes_with_movement test_mem ⟨⟨some 1, ⟨some 1, 5⟩⟩⟩
    ⟨⟨some 1, ⟨some 1, 2⟩⟩⟩ (-3) (by decide) (by decide) (by decide)
  ⟨h.1, h.2.2.2.2⟩


end equality

end tmc
